import Mathlib

/-! VideoPlayer: playback synchronisation engine

A shallow embedding of the clock, sync, seek, playback-control, decode,
stream-loading and configuration code of the player (`AudioProcessor.cpp`,
`VideoPlayer.cpp`, `NetworkStreamLoader.cpp`, `NetworkConfig.cpp`) and
theorems about it.

Conventions of the embedding

* `int64_t` values are `Int`; the arithmetic on clocks and on the frame
  counter is the mathematical one (signed overflow is undefined behaviour in
  C++, the theorems speak of the executions in which it does not occur).  Where the source narrows a
  64-bit value to `int` the narrowing is explicit (`toInt32`), and so is the
  wrap-around of the 32-bit `int` arithmetic on seek distances, seek targets
  of the shortcuts and progress percentages, which the compiled code performs
  in two's complement.
* `double` values are `F64`: finite binary64 numbers `±m·2^e`, every
  operation rounded to nearest, ties to even, as IEEE-754 prescribes.
  Overflow, subnormals, infinities and NaN are outside the model.
* Wall-clock readings are inputs (`now`, in milliseconds).
* Null pointers are `Option`s or `Bool` presence flags.
* `QString`s are lists of characters.
-/

/-! ## Machine numbers -/

/-- The value of `AV_NOPTS_VALUE`, `INT64_MIN`. -/
def AV_NOPTS_VALUE : Int := -9223372036854775808

/-- The value of `AV_TIME_BASE`, the number of microseconds per second. -/
def AV_TIME_BASE : Int := 1000000

/-- Narrowing conversion of a 64-bit integer to a 32-bit `int` (two's complement wrap). -/
def toInt32 (x : Int) : Int := (x + 2147483648) % 4294967296 - 2147483648

/-- A finite binary64 value `(-1)^neg · m · 2^e`. -/
structure F64 where
  neg : Bool
  m : Nat
  e : Int
  deriving Repr, DecidableEq

namespace F64

/-- Multiplication of a natural number by `2^k` for `k ≥ 0`, identity otherwise. -/
def shl (n : Nat) (k : Int) : Nat := n * 2 ^ k.toNat

/-- The integer `⌊log2 n⌋` computed with `fuel` halvings (`0` for `n < 2`). -/
def log2Fuel : Nat → Nat → Nat
  | 0, _ => 0
  | fuel + 1, n => if n < 2 then 0 else log2Fuel fuel (n / 2) + 1

/-- The integer `⌊log2 n⌋` (`0` for `n = 0`). -/
def log2 (n : Nat) : Nat := log2Fuel n n

/-- The integer `⌊log2 (n / d)⌋` for positive `n` and `d`. -/
def floorLog2Ratio (n d : Nat) : Int :=
  let k : Int := (log2 n : Int) - (log2 d : Int)
  if shl d k ≤ shl n (-k) then k else k - 1

/-- Rounds the rational `n / d` to 53 significant bits, to nearest, ties to even. -/
def round (neg : Bool) (n d : Nat) : F64 :=
  if n = 0 ∨ d = 0 then ⟨neg, 0, 0⟩ else
    let e : Int := floorLog2Ratio n d - 52
    let num : Nat := shl n (-e)
    let den : Nat := shl d e
    let q : Nat := num / den
    let r : Nat := num % den
    let up : Bool := decide (den < 2 * r) || (decide (2 * r = den) && decide (q % 2 = 1))
    ⟨neg, if up then q + 1 else q, e⟩

/-- Conversion of an integer to `double`. -/
def ofInt (x : Int) : F64 := round (decide (x < 0)) x.natAbs 1

/-- A decimal literal `n / d` of the source, such as `0.8`. -/
def lit (n d : Nat) : F64 := round false n d

/-- Product of two doubles, correctly rounded. -/
def mul (a b : F64) : F64 :=
  let k : Int := a.e + b.e
  round (a.neg != b.neg) (shl (a.m * b.m) k) (shl 1 (-k))

/-- Quotient of two doubles, correctly rounded (division by zero is outside the model). -/
def div (a b : F64) : F64 :=
  let k : Int := a.e - b.e
  round (a.neg != b.neg) (shl a.m k) (shl b.m (-k))

/-- Conversion of a `double` to an integer type: truncation toward zero. -/
def toInt (a : F64) : Int :=
  let mag : Nat := shl a.m a.e / 2 ^ (-a.e).toNat
  if a.neg then -(mag : Int) else (mag : Int)

end F64

/-- An `AVRational`. -/
structure AVRational where
  num : Int
  den : Int
  deriving Repr, DecidableEq

/-- FFmpeg's `av_rescale_rnd(a, b, c, AV_ROUND_NEAR_INF)`: `a·b/c` rounded to
nearest, halves away from zero; `INT64_MIN` on an invalid `b` or `c`. -/
def av_rescale (a b c : Int) : Int :=
  if c ≤ 0 ∨ b < 0 then AV_NOPTS_VALUE
  else if a < 0 then -((-a * b + c / 2) / c)
  else (a * b + c / 2) / c

/-- FFmpeg's `av_rescale_q(a, bq, cq)`: rescales `a` from time base `bq` to time base `cq`. -/
def av_rescale_q (a : Int) (bq cq : AVRational) : Int :=
  av_rescale a (bq.num * cq.den) (cq.num * bq.den)

/-- The constant `AV_TIME_BASE_Q`, the time base of microseconds. -/
def AV_TIME_BASE_Q : AVRational := ⟨1, 1000000⟩

/-! ## The audio output engine (`AudioProcessor.cpp`) -/

/-- The fields of an `AudioProcessor` that the clock code reads or writes.
`m_audioTimer` holds the reading of the monotonic clock (ms) at which the
`QElapsedTimer` was last started, `none` while it is invalid;
`m_audioStream` is the time base of the stream set by `setAudioStreamInfo`;
`m_audioSink` is the sink together with its `bufferSize()`. -/
structure AudioProcessor where
  m_initialized : Bool
  m_audioCodecContext : Bool
  m_audioStream : Option AVRational
  m_audioSink : Option Int
  m_audioDevice : Bool
  sampleRate : Int
  channelCount : Int
  m_isPlaying : Bool
  m_isPaused : Bool
  m_isSeeking : Bool
  m_masterClock : Int
  m_audioBasePts : Int
  m_audioStartTime : Int
  m_lastAudioPts : Int
  m_audioClockBase : Int
  m_audioTimer : Option Int
  m_deviceLatency : Int
  m_accumulatedSamples : Int
  m_processedFrames : Int
  deriving Repr, DecidableEq

/-- One frame delivered by `avcodec_receive_frame` inside `processAudioPacket`,
with what the resampler and the device made of it: `outputSize` is the result
of `resampleAudioFrame`, `written` the result of `m_audioDevice->write`. -/
structure AudioFrame where
  pts : Int
  nb_samples : Int
  outputSize : Int
  written : Int
  deriving Repr, DecidableEq

/-- An audio packet as the decoder sees it: whether `avcodec_send_packet`
accepts it and the frames `avcodec_receive_frame` then delivers. -/
structure AudioPacket where
  sendOk : Bool
  frames : List AudioFrame
  deriving Repr, DecidableEq

namespace AudioProcessor

/-- The state the constructor leaves (no device, 44.1 kHz stereo). -/
def init : AudioProcessor :=
  { m_initialized := false, m_audioCodecContext := false, m_audioStream := none,
    m_audioSink := none, m_audioDevice := false, sampleRate := 44100, channelCount := 2,
    m_isPlaying := false, m_isPaused := false, m_isSeeking := false,
    m_masterClock := 0, m_audioBasePts := AV_NOPTS_VALUE, m_audioStartTime := 0,
    m_lastAudioPts := AV_NOPTS_VALUE, m_audioClockBase := 0, m_audioTimer := none,
    m_deviceLatency := 0, m_accumulatedSamples := 0, m_processedFrames := 0 }

/-- The reading `m_audioTimer.elapsed()` at time `now` (ms); the timer is
valid wherever the source reads it. -/
def elapsed (a : AudioProcessor) (now : Int) : Int :=
  match a.m_audioTimer with
  | some t0 => now - t0
  | none => 0

/-- The method `AudioProcessor::setMasterClock`. -/
def setMasterClock (a : AudioProcessor) (timestamp : Int) : AudioProcessor :=
  { a with m_masterClock := timestamp }

/-- The method `AudioProcessor::setAudioStreamInfo`. -/
def setAudioStreamInfo (a : AudioProcessor) (audioStream : Option AVRational) : AudioProcessor :=
  { a with m_audioStream := audioStream }

/-- The method `AudioProcessor::getCurrentAudioTime`. -/
def getCurrentAudioTime (a : AudioProcessor) : Int :=
  if a.m_audioBasePts = AV_NOPTS_VALUE ∨ !a.m_isPlaying then a.m_masterClock
  else a.m_audioBasePts

/-- The method `AudioProcessor::getAccurateAudioTime`, read at time `now`. -/
def getAccurateAudioTime (a : AudioProcessor) (now : Int) : Int :=
  if !a.m_isPlaying then a.m_masterClock
  else if a.m_audioBasePts ≠ AV_NOPTS_VALUE then
    match a.m_audioStream with
    | some tb => av_rescale_q a.m_audioBasePts tb AV_TIME_BASE_Q
    | none => av_rescale_q a.m_audioBasePts ⟨1, a.sampleRate⟩ AV_TIME_BASE_Q
  else if 0 < a.m_audioClockBase ∧ a.m_audioTimer.isSome then
    max 0 (a.m_audioClockBase + a.elapsed now * 1000 - a.m_deviceLatency)
  else max 0 a.m_masterClock

/-- The method `AudioProcessor::getAudioDeviceLatency`. -/
def getAudioDeviceLatency (a : AudioProcessor) : Int := a.m_deviceLatency

/-- The method `AudioProcessor::adjustDeviceLatency`. -/
def adjustDeviceLatency (a : AudioProcessor) : AudioProcessor :=
  match a.m_audioSink with
  | none => a
  | some bufferSize =>
    let byteRate : Int := a.sampleRate * a.channelCount * 2
    if 0 < byteRate then
      let calculatedLatency : Int :=
        F64.toInt (F64.div (F64.mul (F64.ofInt bufferSize) (F64.lit 1000000 1)) (F64.ofInt byteRate))
      { a with m_deviceLatency := Int.tdiv (a.m_deviceLatency * 3 + calculatedLatency) 4 }
    else a

/-- The method `AudioProcessor::updateAudioClock`, called at time `now`. -/
def updateAudioClock (a : AudioProcessor) (pts : Int) (sampleCount : Int) (now : Int) :
    AudioProcessor :=
  if pts ≠ AV_NOPTS_VALUE then
    let a1 : AudioProcessor := { a with m_lastAudioPts := pts }
    let a2 : AudioProcessor :=
      if a1.m_audioClockBase = 0 ∨
          100000 < |pts - (a1.m_audioClockBase + a1.elapsed now * 1000)| then
        { a1 with m_audioClockBase := pts, m_audioTimer := some now, m_accumulatedSamples := 0 }
      else a1
    adjustDeviceLatency { a2 with m_accumulatedSamples := a2.m_accumulatedSamples + sampleCount }
  else a

/-- The body of the receive loop of `processAudioPacket` for one decoded frame. -/
def processAudioFrame (a : AudioProcessor) (f : AudioFrame) (now : Int) : AudioProcessor :=
  if 0 < f.outputSize then
    let a1 : AudioProcessor :=
      if 0 < f.written ∧ f.pts ≠ AV_NOPTS_VALUE then
        updateAudioClock { a with m_audioBasePts := f.pts } f.pts f.nb_samples now
      else a
    { a1 with m_processedFrames := a1.m_processedFrames + 1 }
  else a

/-- The method `AudioProcessor::processAudioPacket`; `none` is a null packet. -/
def processAudioPacket (a : AudioProcessor) (packet : Option AudioPacket) (now : Int) :
    AudioProcessor :=
  match packet with
  | none => a
  | some p =>
    if !a.m_initialized ∨ !a.m_audioCodecContext ∨ !a.m_audioDevice then a
    else if !p.sendOk then a
    else p.frames.foldl (fun acc f => processAudioFrame acc f now) a

/-- The method `AudioProcessor::restartAudioDevice`; `deviceOk` tells whether
`m_audioSink->start()` returns a device. -/
def restartAudioDevice (a : AudioProcessor) (deviceOk : Bool) : AudioProcessor :=
  match a.m_audioSink with
  | none => a
  | some _ =>
    if a.m_isPlaying then { a with m_audioDevice := deviceOk }
    else { a with m_audioDevice := false }

/-- The method `AudioProcessor::seek`, called at time `now`. -/
def seek (a : AudioProcessor) (timestamp : Int) (now : Int) (deviceOk : Bool) : AudioProcessor :=
  let a1 : AudioProcessor :=
    { a with m_isSeeking := true, m_masterClock := timestamp,
             m_audioBasePts := AV_NOPTS_VALUE, m_audioStartTime := now }
  let a2 : AudioProcessor :=
    if a1.m_isPlaying ∧ a1.m_audioSink.isSome then restartAudioDevice a1 deviceOk else a1
  { a2 with m_isSeeking := false }

/-- The method `AudioProcessor::start`, called at time `now`. -/
def start (a : AudioProcessor) (now : Int) (deviceOk : Bool) : AudioProcessor :=
  if !a.m_initialized ∨ a.m_isPlaying then a
  else
    let a1 : AudioProcessor := { a with m_isPlaying := true, m_isPaused := false }
    match a1.m_audioSink with
    | some _ =>
      if deviceOk then
        { a1 with m_audioDevice := true, m_audioTimer := some now,
                  m_audioClockBase := 0, m_accumulatedSamples := 0 }
      else { a1 with m_audioDevice := false, m_isPlaying := false }
    | none =>
      { a1 with m_audioTimer := some now, m_audioClockBase := 0, m_accumulatedSamples := 0 }

/-- The method `AudioProcessor::pause`. -/
def pause (a : AudioProcessor) : AudioProcessor :=
  if !a.m_isPlaying ∨ a.m_isPaused then a else { a with m_isPaused := true }

/-- The method `AudioProcessor::resume`, called at time `now`. -/
def resume (a : AudioProcessor) (now : Int) (deviceOk : Bool) : AudioProcessor :=
  if !a.m_initialized ∨ !a.m_isPaused then a
  else
    let a1 : AudioProcessor := { a with m_isPaused := false }
    match a1.m_audioSink with
    | some _ =>
      if a1.m_audioDevice then { a1 with m_audioStartTime := now }
      else if deviceOk then { a1 with m_audioDevice := true, m_audioStartTime := now }
      else { a1 with m_isPaused := true }
    | none => { a1 with m_audioStartTime := now }

/-- The method `AudioProcessor::stop`. -/
def stop (a : AudioProcessor) : AudioProcessor :=
  { a with m_isPlaying := false, m_isPaused := false,
           m_audioDevice := if a.m_audioSink.isSome then false else a.m_audioDevice,
           m_audioBasePts := AV_NOPTS_VALUE, m_masterClock := 0 }

end AudioProcessor

/-! ## The player (`VideoPlayer.cpp`) -/

/-- The flag `AVSEEK_FLAG_BACKWARD` of `av_seek_frame`. -/
def AVSEEK_FLAG_BACKWARD : Int := 1

/-- The media type of a stream (`codecpar->codec_type`). -/
inductive AVMediaType where
  | video
  | audio
  | other
  deriving Repr, DecidableEq

/-- What the player reads of an `AVStream`. -/
structure AVStream where
  codec_type : AVMediaType
  time_base : AVRational
  r_frame_rate : AVRational
  deriving Repr, DecidableEq

/-- A demuxed packet together with what the decoders make of it:
`sendOk` tells whether `avcodec_send_packet` accepts it, `videoFrame` is the
PTS of the frame `avcodec_receive_frame` then delivers from the video decoder
(`none` when it delivers no frame), `audioFrames` are the frames the audio
decoder delivers. -/
structure Packet where
  stream_index : Int
  sendOk : Bool
  videoFrame : Option Int
  audioFrames : List AudioFrame
  deriving Repr, DecidableEq

/-- An open `AVFormatContext`: its duration, its streams, the packets
`av_read_frame` is going to deliver, and the behaviour of
`av_seek_frame(ctx, -1, target, flags)`: `none` when it fails, otherwise the
packets the demuxer delivers from the new position.  `rewind` is the
behaviour of the call `av_seek_frame(ctx, videoStream, 0, AVSEEK_FLAG_BACKWARD)`
made by `stop()`, whose result the source does not look at. -/
structure FormatContext where
  duration : Int
  streams : List AVStream
  packets : List Packet
  av_seek_frame : Int → Int → Option (List Packet)
  rewind : Option (List Packet) := none

/-- The time base of stream `i`; the index is valid wherever the source reads it. -/
def FormatContext.time_base (ctx : FormatContext) (i : Int) : AVRational :=
  match ctx.streams.get? i.toNat with
  | some st => st.time_base
  | none => AV_TIME_BASE_Q

/-- The fields of the `VideoPlayer` that playback, seeking and sync read or
write.  `m_timer` is the interval (ms) of the decode timer while it is active;
`m_seekDebounceTimer` is the time (ms) at which the single-shot debounce timer
is due while it is active; `m_lastSeekTime` is a `QTime` (ms since midnight),
`none` while it is invalid. -/
structure VideoPlayer where
  m_formatContext : Option FormatContext
  m_videoCodecContext : Bool
  m_audioCodecContext : Bool
  m_videoStreamIndex : Int
  m_audioStreamIndex : Int
  m_audioProcessor : Option AudioProcessor
  m_timer : Option Int
  m_isPlaying : Bool
  m_isPaused : Bool
  m_isSeeking : Bool
  m_duration : Int
  m_currentPosition : Int
  m_fps : F64
  m_isPlaybackStable : Bool
  m_frameCount : Int
  m_lastSyncTime : Int
  m_syncAdjustmentCount : Int
  m_isNetworkStream : Bool
  m_seekDebounceTimer : Option Int
  m_lastSeekTime : Option Int
  m_pendingSeekPosition : Int
  m_hasPendingSeek : Bool

/-- The reading of `QTime::currentTime()` (ms since midnight) at time `now`
(ms since the epoch). -/
def currentTimeOfDay (now : Int) : Int := now % 86400000

namespace VideoPlayer

/-- The state the constructor leaves. -/
def init : VideoPlayer :=
  { m_formatContext := none, m_videoCodecContext := false, m_audioCodecContext := false,
    m_videoStreamIndex := -1, m_audioStreamIndex := -1, m_audioProcessor := none,
    m_timer := none, m_isPlaying := false, m_isPaused := false, m_isSeeking := false,
    m_duration := 0, m_currentPosition := 0, m_fps := F64.lit 25 1,
    m_isPlaybackStable := false, m_frameCount := 0,
    m_lastSyncTime := 0, m_syncAdjustmentCount := 0, m_isNetworkStream := false,
    m_seekDebounceTimer := none, m_lastSeekTime := none,
    m_pendingSeekPosition := 0, m_hasPendingSeek := false }

/-- The sync threshold chosen by `syncAudioVideo` for the kind of source (µs). -/
def syncThreshold (isNetworkStream : Bool) : Int := if isNetworkStream then 60000 else 40000

/-- The largest correctable difference chosen by `syncAudioVideo` (µs). -/
def maxSyncAdjustment (isNetworkStream : Bool) : Int := if isNetworkStream then 300000 else 200000

/-- The smallest adjustment chosen by `syncAudioVideo` (µs). -/
def minSyncAdjustment (isNetworkStream : Bool) : Int := if isNetworkStream then 15000 else 10000

/-- The adjustment `syncAudioVideo` computes from the time difference:
a tiered fraction of it, computed in `double` and truncated, replaced by the
signed minimum when it is smaller than the minimum. -/
def syncAdjustment (isNetworkStream : Bool) (timeDiff : Int) : Int :=
  let adjustment : Int :=
    if 150000 < |timeDiff| then F64.toInt (F64.mul (F64.ofInt timeDiff) (F64.lit 8 10))
    else if 100000 < |timeDiff| then F64.toInt (F64.mul (F64.ofInt timeDiff) (F64.lit 6 10))
    else if 60000 < |timeDiff| then F64.toInt (F64.mul (F64.ofInt timeDiff) (F64.lit 4 10))
    else F64.toInt (F64.mul (F64.ofInt timeDiff) (F64.lit 3 10))
  if |adjustment| < minSyncAdjustment isNetworkStream then
    (if 0 < timeDiff then minSyncAdjustment isNetworkStream
     else -minSyncAdjustment isNetworkStream)
  else adjustment

/-- The method `VideoPlayer::syncAudioVideo`, called at time `now` (ms).  The
static call counter of the source only drives log output and is left out. -/
def syncAudioVideo (s : VideoPlayer) (now : Int) : VideoPlayer :=
  match s.m_audioProcessor with
  | none => s
  | some ap =>
    if !s.m_isPlaying then s
    else
      let audioTime : Int := ap.getAccurateAudioTime now
      let timeDiff : Int := s.m_currentPosition - audioTime
      if syncThreshold s.m_isNetworkStream < |timeDiff| ∧
          |timeDiff| < maxSyncAdjustment s.m_isNetworkStream then
        let currentTime : Int := now
        if currentTime - s.m_lastSyncTime < 100 then s
        else
          let adjustment : Int := syncAdjustment s.m_isNetworkStream timeDiff
          { s with
            m_audioProcessor := some (ap.setMasterClock (s.m_currentPosition - adjustment)),
            m_lastSyncTime := currentTime,
            m_syncAdjustmentCount := s.m_syncAdjustmentCount + 1 }
      else s

/-- The bounds check at the head of `performSeek`: the position (seconds) the
seek goes to, for the requested `position`. -/
def seekPosition (m_duration : Int) (position : Int) : Int :=
  let maxPosition : Int := toInt32 (Int.tdiv m_duration AV_TIME_BASE)
  let position : Int := if position < 0 then 0 else position
  if position > maxPosition then maxPosition else position

/-- The frame search loop of `performSeek`: reads at most `attempts` packets
and stops at the first video packet that decodes to a frame; returns the PTS
of that frame, if any, and the packets left unread. -/
def seekFindFrame (videoStreamIndex : Int) : Nat → List Packet → Option Int × List Packet
  | 0, ps => (none, ps)
  | _ + 1, [] => (none, [])
  | n + 1, p :: ps =>
    if p.stream_index = videoStreamIndex ∧ p.sendOk then
      match p.videoFrame with
      | some pts => (some pts, ps)
      | none => seekFindFrame videoStreamIndex n ps
    else seekFindFrame videoStreamIndex n ps

/-- The seek strategy of `performSeek`: the flags passed to `av_seek_frame`
for the clamped `position` (seconds), chosen by its distance from the current
position: a direct seek within 15 s, a backward keyframe seek beyond.  The
distance is `abs(position - currentPos)` in 32-bit `int` arithmetic: both the
difference and the absolute value wrap. -/
def seekFlags (position : Int) (m_currentPosition : Int) : Int :=
  let currentPos : Int := toInt32 (Int.tdiv m_currentPosition AV_TIME_BASE)
  let seekDistance : Int := toInt32 |toInt32 (position - currentPos)|
  if seekDistance ≤ 15 then 0 else AVSEEK_FLAG_BACKWARD

/-- The branch of `performSeek` taken when `av_seek_frame` succeeded and the
demuxer now delivers `packets`: the audio engine is told to seek, then the
first decodable video frame is looked for and the position updated. -/
def afterReposition (s : VideoPlayer) (ctx : FormatContext) (seekTarget : Int) (now : Int)
    (deviceOk : Bool) (packets : List Packet) : VideoPlayer :=
  let ap : Option AudioProcessor :=
    s.m_audioProcessor.map (fun a => a.seek seekTarget now deviceOk)
  let found : Option Int × List Packet := seekFindFrame s.m_videoStreamIndex 10 packets
  let pos : Int :=
    match found.1 with
    | some pts =>
      if pts ≠ AV_NOPTS_VALUE then
        av_rescale_q pts (ctx.time_base s.m_videoStreamIndex) AV_TIME_BASE_Q
      else seekTarget
    | none => seekTarget
  { s with
    m_formatContext := some { ctx with packets := found.2 },
    m_audioProcessor := ap,
    m_currentPosition := pos }

/-- The method `VideoPlayer::performSeek`, called at time `now`; `deviceOk`
tells whether the audio sink can be restarted. -/
def performSeek (s : VideoPlayer) (position : Int) (now : Int) (deviceOk : Bool) : VideoPlayer :=
  match s.m_formatContext with
  | none => s
  | some ctx =>
    if s.m_isSeeking then s
    else
      let position : Int := seekPosition s.m_duration position
      let wasPlaying : Bool := s.m_isPlaying
      let s2 : VideoPlayer :=
        { s with m_isSeeking := true, m_timer := if s.m_isPlaying then none else s.m_timer }
      let seekTarget : Int := position * AV_TIME_BASE
      let s3 : VideoPlayer :=
        match ctx.av_seek_frame seekTarget (seekFlags position s.m_currentPosition) with
        | some packets => afterReposition s2 ctx seekTarget now deviceOk packets
        | none => s2
      { s3 with
        m_timer :=
          if wasPlaying then some (F64.toInt (F64.div (F64.lit 1000 1) s3.m_fps)) else s3.m_timer,
        m_isSeeking := false }

/-- The targets with which a call of `performSeek` in state `s` executes a
seek: the requested position when the call passes the two guards at its head,
nothing when it returns at one of them. -/
def performSeekRuns (s : VideoPlayer) (position : Int) : List Int :=
  if s.m_formatContext.isSome ∧ !s.m_isSeeking then [position] else []

/-- The slot `VideoPlayer::seek`, called at time `now`; returns the new state
and the targets of the seeks that `performSeek` executed during the call. -/
def seek (s : VideoPlayer) (position : Int) (now : Int) (deviceOk : Bool) :
    VideoPlayer × List Int :=
  match s.m_formatContext with
  | none => (s, [])
  | some _ =>
    if s.m_isSeeking ∧ s.m_seekDebounceTimer.isNone then (s, [])
    else
      let currentTime : Int := currentTimeOfDay now
      let debounced : Bool :=
        match s.m_lastSeekTime with
        | some last => decide (currentTime - last < 20)
        | none => false
      if debounced then
        ({ s with m_pendingSeekPosition := position, m_hasPendingSeek := true,
                  m_seekDebounceTimer := some (now + 50) }, [])
      else
        let s1 : VideoPlayer := { s with m_lastSeekTime := some currentTime }
        (performSeek s1 position now deviceOk, performSeekRuns s1 position)

/-- The handler of the time-out of `m_seekDebounceTimer` (the lambda connected
in the constructor), run at time `now`.  The timer is single-shot: it is
inactive while its handler runs. -/
def onSeekDebounceTimeout (s : VideoPlayer) (now : Int) (deviceOk : Bool) :
    VideoPlayer × List Int :=
  let s1 : VideoPlayer := { s with m_seekDebounceTimer := none }
  if s1.m_hasPendingSeek then
    ({ performSeek s1 s1.m_pendingSeekPosition now deviceOk with m_hasPendingSeek := false },
      performSeekRuns s1 s1.m_pendingSeekPosition)
  else (s1, [])

/-- Lets the debounce timer expire if it is armed: its handler runs at the
time the timer is due. -/
def expireSeekDebounce (s : VideoPlayer) (deviceOk : Bool) : VideoPlayer × List Int :=
  match s.m_seekDebounceTimer with
  | some due => onSeekDebounceTimeout s due deviceOk
  | none => (s, [])

/-- Two seek requests, with targets `a` and then `b`, the second `gap` ms
after the first (`gap < 50`, so that a debounce timer armed by the first is
not yet due at the second), followed by the expiry of the debounce timer if
one is armed.  Returns the final state and the targets of all seeks executed,
in order. -/
def twoSeekRequests (s : VideoPlayer) (a b : Int) (now gap : Int) (deviceOk : Bool) :
    VideoPlayer × List Int :=
  let r1 : VideoPlayer × List Int := seek s a now deviceOk
  let r2 : VideoPlayer × List Int := seek r1.1 b (now + gap) deviceOk
  let r3 : VideoPlayer × List Int := expireSeekDebounce r2.1 deviceOk
  (r3.1, r1.2 ++ r2.2 ++ r3.2)

/-- The method `VideoPlayer::closeVideo`; `cleanupAudio` deletes the audio engine. -/
def closeVideo (s : VideoPlayer) : VideoPlayer :=
  let s1 : VideoPlayer :=
    if s.m_isPlaying then { s with m_timer := none, m_isPlaying := false, m_isPaused := false }
    else s
  { s1 with m_audioProcessor := none, m_videoCodecContext := false,
            m_audioCodecContext := false, m_formatContext := none,
            m_videoStreamIndex := -1, m_audioStreamIndex := -1,
            m_currentPosition := 0, m_duration := 0 }

/-- The method `VideoPlayer::playVideo`, called at time `now`; `deviceOk` tells
whether the audio sink can be started.  The field `m_playStartTime`, which is
written here and read nowhere, is left out. -/
def playVideo (s : VideoPlayer) (now : Int) (deviceOk : Bool) : VideoPlayer :=
  match s.m_formatContext with
  | none => s
  | some _ =>
    let ap : Option AudioProcessor :=
      s.m_audioProcessor.map
        (fun a => if s.m_isPaused then a.resume now deviceOk else a.start now deviceOk)
    let interval : Int := max 8 (F64.toInt (F64.div (F64.lit 1000 1) s.m_fps))
    { s with m_isPlaying := true, m_isPlaybackStable := false, m_frameCount := 0,
             m_lastSyncTime := 0, m_syncAdjustmentCount := 0, m_audioProcessor := ap,
             m_isPaused := false, m_timer := some interval }

/-- The method `VideoPlayer::pauseVideo`. -/
def pauseVideo (s : VideoPlayer) : VideoPlayer :=
  { s with m_isPlaying := false, m_isPaused := true, m_timer := none,
           m_audioProcessor := s.m_audioProcessor.map AudioProcessor.pause }

/-- The method `VideoPlayer::stop`. -/
def stop (s : VideoPlayer) : VideoPlayer :=
  match s.m_formatContext with
  | none => s
  | some ctx =>
    let ctx1 : FormatContext :=
      match ctx.rewind with
      | some packets => { ctx with packets := packets }
      | none => ctx
    { s with m_timer := none, m_isPlaying := false, m_isPaused := false,
             m_isPlaybackStable := false, m_frameCount := 0,
             m_audioProcessor := s.m_audioProcessor.map AudioProcessor.stop,
             m_formatContext := some ctx1, m_currentPosition := 0 }

/-- The slot `VideoPlayer::playPause`. -/
def playPause (s : VideoPlayer) (now : Int) (deviceOk : Bool) : VideoPlayer :=
  match s.m_formatContext with
  | none => s
  | some _ => if s.m_isPlaying then pauseVideo s else playVideo s now deviceOk

/-- The read loop of `decodeFrame` over the packets `av_read_frame` delivers,
at time `now`: returns the new state, the result of `decodeFrame` and the PTS
values of the frames handed to `displayFrame`.  When the packets run out
`av_read_frame` fails and `stop()` is called. -/
def decodeLoop (s : VideoPlayer) (ctx : FormatContext) (now : Int) :
    List Packet → VideoPlayer × Bool × List Int
  | [] => (stop { s with m_formatContext := some { ctx with packets := [] } }, false, [])
  | p :: ps =>
    if p.stream_index = s.m_videoStreamIndex then
      if !p.sendOk then decodeLoop s ctx now ps
      else
        match p.videoFrame with
        | some pts =>
          let pos : Int :=
            if pts ≠ AV_NOPTS_VALUE then
              av_rescale_q pts (ctx.time_base s.m_videoStreamIndex) AV_TIME_BASE_Q
            else s.m_currentPosition
          let frameCount : Int := s.m_frameCount + 1
          ({ s with m_formatContext := some { ctx with packets := ps },
                    m_currentPosition := pos, m_frameCount := frameCount,
                    m_isPlaybackStable :=
                      if !s.m_isPlaybackStable ∧ 5 ≤ frameCount then true
                      else s.m_isPlaybackStable },
            true, [pts])
        | none => decodeLoop s ctx now ps
    else if p.stream_index = s.m_audioStreamIndex ∧ s.m_audioCodecContext ∧ s.m_isPlaying then
      decodeLoop
        { s with m_audioProcessor := s.m_audioProcessor.map
                   (fun a => a.processAudioPacket (some ⟨p.sendOk, p.audioFrames⟩) now) }
        ctx now ps
    else decodeLoop s ctx now ps

/-- The method `VideoPlayer::decodeFrame`, called at time `now`: the new state,
the value returned and the PTS values of the frames displayed. -/
def decodeFrame (s : VideoPlayer) (now : Int) : VideoPlayer × Bool × List Int :=
  match s.m_formatContext with
  | none => (s, false, [])
  | some ctx => if !s.m_videoCodecContext then (s, false, []) else decodeLoop s ctx now ctx.packets

/-- The slot `VideoPlayer::updatePosition`, run by the decode timer at time `now`. -/
def updatePosition (s : VideoPlayer) (now : Int) : VideoPlayer :=
  if !s.m_isPlaying ∨ s.m_formatContext.isNone ∨ s.m_isSeeking then s
  else (decodeFrame s now).1

end VideoPlayer

/-- The stability check at the head of the four seek shortcuts of
`setupShortcuts`: whether the shortcut is ignored because playback is not
stable yet. -/
def VideoPlayer.seekShortcutIgnored (s : VideoPlayer) : Bool :=
  !s.m_isPlaybackStable && decide (s.m_frameCount < 5)

/-- The handlers of the shortcuts `Right` (`step = 10`) and `Ctrl+Right`
(`step = 30`) of `setupShortcuts`, run at time `now`: the new state and the
targets of the seeks executed. -/
def VideoPlayer.seekForwardShortcut (s : VideoPlayer) (step : Int) (now : Int)
    (deviceOk : Bool) : VideoPlayer × List Int :=
  if s.m_formatContext.isSome ∧ !s.m_isSeeking then
    if s.seekShortcutIgnored then (s, [])
    else
      let currentPos : Int := toInt32 (Int.tdiv s.m_currentPosition AV_TIME_BASE)
      let newPos : Int :=
        min (toInt32 (Int.tdiv s.m_duration AV_TIME_BASE)) (toInt32 (currentPos + step))
      s.seek newPos now deviceOk
  else (s, [])

/-- The handlers of the shortcuts `Left` (`step = 10`) and `Ctrl+Left`
(`step = 30`) of `setupShortcuts`, run at time `now`. -/
def VideoPlayer.seekBackwardShortcut (s : VideoPlayer) (step : Int) (now : Int)
    (deviceOk : Bool) : VideoPlayer × List Int :=
  if s.m_formatContext.isSome ∧ !s.m_isSeeking then
    if s.seekShortcutIgnored then (s, [])
    else
      let currentPos : Int := toInt32 (Int.tdiv s.m_currentPosition AV_TIME_BASE)
      let newPos : Int := max 0 (toInt32 (currentPos - step))
      s.seek newPos now deviceOk
  else (s, [])

/-! ## The asynchronous stream loader (`NetworkStreamLoader.cpp`) -/

/-- The enumeration `NetworkStreamLoader::LoadingStatus`. -/
inductive LoadingStatus where
  | Idle
  | Connecting
  | LoadingStreamInfo
  | Ready
  | Failed
  | Timeout
  | Cancelled
  deriving Repr, DecidableEq

/-- The terminal states of a loading session. -/
def LoadingStatus.isTerminal : LoadingStatus → Bool
  | .Ready => true
  | .Failed => true
  | .Timeout => true
  | .Cancelled => true
  | _ => false

/-- The signals of `NetworkStreamLoader` (payloads reduced to what is observed). -/
inductive LoaderSignal where
  | loadingStarted
  | loadingProgress (percentage : Int)
  | streamReady
  | loadingFailed
  | loadingCancelled
  | statusChanged (status : LoadingStatus)
  deriving Repr, DecidableEq

/-- How the stream behind a URL answers the worker: the results of
`avformat_alloc_context`, `avformat_open_input`, `avformat_find_stream_info`,
the media types of its streams, and the results of looking up, configuring and
opening the video and the audio decoder. -/
structure StreamBehaviour where
  allocOk : Bool
  openOk : Bool
  probeOk : Bool
  streams : List AVMediaType
  videoDecoderFound : Bool
  videoParamsOk : Bool
  videoOpenOk : Bool
  audioDecoderFound : Bool
  audioParamsOk : Bool
  audioOpenOk : Bool
  deriving Repr, DecidableEq

/-- Where the worker thread stands inside `performAsyncLoading`: each value
names the next thing it does.  The checks of the cancellation flag run under
`m_cancelMutex`; the blocking calls and the status updates between them do not. -/
inductive WorkerPc where
  | checkCancel0
  | openInput
  | checkCancel1
  | enterStreamInfo
  | findInfo
  | checkCancel2
  | codecs
  | finish
  | done
  deriving Repr, DecidableEq

/-- The fields of a `NetworkStreamLoader`, the position of its worker and the
number of timer-stopping calls queued to the main thread by
`QMetaObject::invokeMethod`.  `m_workerThread` tells whether the pointer is
set; `quitRequested` whether `quit()` was called on the thread. -/
structure NetworkStreamLoader where
  m_status : LoadingStatus
  m_url : StreamBehaviour
  m_timeoutMs : Int
  m_startTime : Int
  m_formatContext : Bool
  m_videoCodecContext : Bool
  m_audioCodecContext : Bool
  m_videoStreamIndex : Int
  m_audioStreamIndex : Int
  m_timeoutTimer : Bool
  m_progressTimer : Bool
  m_workerThread : Bool
  quitRequested : Bool
  m_shouldCancel : Bool
  worker : WorkerPc
  queuedTimerStops : Nat
  deriving Repr, DecidableEq

/-- The stream selection loop shared by `NetworkStreamLoader::findStreamInfo`
and `VideoPlayer::continueVideoOpening`: scans the streams from index `i` on
and keeps the first video and the first audio index (`-1` while none). -/
def selectStreams : List AVMediaType → Int → Int × Int → Int × Int
  | [], _, idx => idx
  | t :: ts, i, (v, a) =>
    if t = AVMediaType.video ∧ v = -1 then selectStreams ts (i + 1) (i, a)
    else if t = AVMediaType.audio ∧ a = -1 then selectStreams ts (i + 1) (v, i)
    else selectStreams ts (i + 1) (v, a)

/-- The head of `VideoPlayer::continueVideoOpening`, up to the check for a video
stream: `probeOk` is the result of `avformat_find_stream_info`; the format
context is open wherever the source calls the function.  Returns the state and
whether the function goes on to set up the decoders (otherwise it has called
`closeVideo` and returned). -/
def VideoPlayer.continueVideoOpening (s : VideoPlayer) (probeOk : Bool) : VideoPlayer × Bool :=
  if !probeOk then (s.closeVideo, false)
  else
    let types : List AVMediaType :=
      match s.m_formatContext with
      | some ctx => ctx.streams.map (fun st => st.codec_type)
      | none => []
    let idx : Int × Int := selectStreams types 0 (-1, -1)
    let s1 : VideoPlayer := { s with m_videoStreamIndex := idx.1, m_audioStreamIndex := idx.2 }
    if s1.m_videoStreamIndex = -1 then (s1.closeVideo, false) else (s1, true)

namespace NetworkStreamLoader

/-- A stream that answers every request successfully, with one video and one audio stream. -/
def goodStream : StreamBehaviour :=
  { allocOk := true, openOk := true, probeOk := true,
    streams := [AVMediaType.video, AVMediaType.audio],
    videoDecoderFound := true, videoParamsOk := true, videoOpenOk := true,
    audioDecoderFound := true, audioParamsOk := true, audioOpenOk := true }

/-- The state the constructor leaves. -/
def init : NetworkStreamLoader :=
  { m_status := LoadingStatus.Idle, m_url := goodStream, m_timeoutMs := 15000, m_startTime := 0,
    m_formatContext := false, m_videoCodecContext := false, m_audioCodecContext := false,
    m_videoStreamIndex := -1, m_audioStreamIndex := -1,
    m_timeoutTimer := false, m_progressTimer := false,
    m_workerThread := false, quitRequested := false, m_shouldCancel := false,
    worker := WorkerPc.done, queuedTimerStops := 0 }

/-- The method `NetworkStreamLoader::setStatus`. -/
def setStatus (l : NetworkStreamLoader) (status : LoadingStatus) :
    NetworkStreamLoader × List LoaderSignal :=
  if l.m_status ≠ status then ({ l with m_status := status }, [LoaderSignal.statusChanged status])
  else (l, [])

/-- The method `NetworkStreamLoader::isLoading`. -/
def isLoading (l : NetworkStreamLoader) : Bool :=
  l.m_status = LoadingStatus.Connecting ∨ l.m_status = LoadingStatus.LoadingStreamInfo

/-- The method `NetworkStreamLoader::getStatus`. -/
def getStatus (l : NetworkStreamLoader) : LoadingStatus := l.m_status

/-- The method `NetworkStreamLoader::cleanup`. -/
def cleanup (l : NetworkStreamLoader) : NetworkStreamLoader :=
  { l with m_formatContext := false, m_videoCodecContext := false, m_audioCodecContext := false,
           m_videoStreamIndex := -1, m_audioStreamIndex := -1 }

/-- Whether `m_workerThread && m_workerThread->isRunning()` holds: the thread
runs its event loop until `quit()` was called and the worker has returned. -/
def threadIsRunning (l : NetworkStreamLoader) : Bool :=
  l.m_workerThread && !(l.quitRequested && decide (l.worker = WorkerPc.done))

/-- A failing step: sets `Failed`, emits `loadingFailed`, and the caller in
`performAsyncLoading` queues the stopping of the timers and returns. -/
def failStep (l : NetworkStreamLoader) : NetworkStreamLoader × List LoaderSignal :=
  let r := setStatus l LoadingStatus.Failed
  ({ r.1 with worker := WorkerPc.done, queuedTimerStops := r.1.queuedTimerStops + 1 },
    r.2 ++ [LoaderSignal.loadingFailed])

/-- A check of the cancellation flag in `performAsyncLoading`: when the flag
is set the worker sets `Cancelled`, emits `loadingCancelled` and returns,
otherwise it goes on with `next`. -/
def checkCancel (l : NetworkStreamLoader) (next : WorkerPc) :
    NetworkStreamLoader × List LoaderSignal :=
  if l.m_shouldCancel then
    let r := setStatus l LoadingStatus.Cancelled
    ({ r.1 with worker := WorkerPc.done }, r.2 ++ [LoaderSignal.loadingCancelled])
  else ({ l with worker := next }, [])

/-- The method `NetworkStreamLoader::openInputStream`, with the step of
`performAsyncLoading` that calls it. -/
def openInputStream (l : NetworkStreamLoader) : NetworkStreamLoader × List LoaderSignal :=
  if !l.m_url.allocOk then failStep { l with m_formatContext := false }
  else if !l.m_url.openOk then failStep { l with m_formatContext := false }
  else ({ l with m_formatContext := true, worker := WorkerPc.checkCancel1 }, [])

/-- The method `NetworkStreamLoader::findStreamInfo`, with the step of
`performAsyncLoading` that calls it. -/
def findStreamInfo (l : NetworkStreamLoader) : NetworkStreamLoader × List LoaderSignal :=
  if !l.m_url.probeOk then failStep l
  else
    let idx : Int × Int := selectStreams l.m_url.streams 0 (-1, -1)
    let l1 : NetworkStreamLoader :=
      { l with m_videoStreamIndex := idx.1, m_audioStreamIndex := idx.2 }
    if l1.m_videoStreamIndex = -1 then failStep l1
    else ({ l1 with worker := WorkerPc.checkCancel2 }, [])

/-- The method `NetworkStreamLoader::setupCodecs`, with the step of
`performAsyncLoading` that calls it. -/
def setupCodecs (l : NetworkStreamLoader) : NetworkStreamLoader × List LoaderSignal :=
  let video : Option NetworkStreamLoader :=
    if 0 ≤ l.m_videoStreamIndex then
      if !l.m_url.videoDecoderFound then none
      else if !l.m_url.videoParamsOk then none
      else if !l.m_url.videoOpenOk then none
      else some { l with m_videoCodecContext := true }
    else some l
  match video with
  | none =>
    failStep { l with m_videoCodecContext :=
                 l.m_videoCodecContext || l.m_url.videoDecoderFound }
  | some l1 =>
    let l2 : NetworkStreamLoader :=
      if 0 ≤ l1.m_audioStreamIndex ∧ l1.m_url.audioDecoderFound then
        { l1 with m_audioCodecContext := l1.m_url.audioParamsOk && l1.m_url.audioOpenOk }
      else l1
    ({ l2 with worker := WorkerPc.finish }, [])

/-- One step of the worker thread inside `performAsyncLoading`. -/
def workerStep (l : NetworkStreamLoader) : NetworkStreamLoader × List LoaderSignal :=
  match l.worker with
  | WorkerPc.checkCancel0 => checkCancel l WorkerPc.openInput
  | WorkerPc.openInput =>
    let r := openInputStream l
    (r.1, LoaderSignal.loadingProgress 10 :: r.2)
  | WorkerPc.checkCancel1 => checkCancel l WorkerPc.enterStreamInfo
  | WorkerPc.enterStreamInfo =>
    let r := setStatus l LoadingStatus.LoadingStreamInfo
    ({ r.1 with worker := WorkerPc.findInfo }, LoaderSignal.loadingProgress 40 :: r.2)
  | WorkerPc.findInfo => findStreamInfo l
  | WorkerPc.checkCancel2 => checkCancel l WorkerPc.codecs
  | WorkerPc.codecs =>
    let r := setupCodecs l
    (r.1, LoaderSignal.loadingProgress 70 :: r.2)
  | WorkerPc.finish =>
    let l1 : NetworkStreamLoader := { l with queuedTimerStops := l.queuedTimerStops + 1 }
    let r := setStatus l1 LoadingStatus.Ready
    ({ r.1 with worker := WorkerPc.done },
      LoaderSignal.loadingProgress 100 :: (r.2 ++ [LoaderSignal.streamReady]))
  | WorkerPc.done => (l, [])

/-- Whether the next step of the worker is a check of the cancellation flag,
which needs `m_cancelMutex`. -/
def atCheck (l : NetworkStreamLoader) : Bool :=
  match l.worker with
  | WorkerPc.checkCancel0 => true
  | WorkerPc.checkCancel1 => true
  | WorkerPc.checkCancel2 => true
  | _ => false

/-- What the worker gets done while `cancelLoading` waits for the thread
holding `m_cancelMutex`: at most `k` steps, none of them a check of the flag. -/
def workerDuringWait : Nat → NetworkStreamLoader → NetworkStreamLoader × List LoaderSignal
  | 0, l => (l, [])
  | k + 1, l =>
    if atCheck l then (l, [])
    else
      let r := workerStep l
      let r2 := workerDuringWait k r.1
      (r2.1, r.2 ++ r2.2)

/-- The method `NetworkStreamLoader::cancelLoading`; `k` bounds the steps the
worker completes before the thread has quit or is terminated. -/
def cancelLoading (l : NetworkStreamLoader) (k : Nat) : NetworkStreamLoader × List LoaderSignal :=
  let l1 : NetworkStreamLoader :=
    { l with m_shouldCancel := true, m_timeoutTimer := false, m_progressTimer := false }
  if threadIsRunning l1 then
    let r := workerDuringWait k { l1 with quitRequested := true }
    let l2 : NetworkStreamLoader := { r.1 with m_workerThread := false, worker := WorkerPc.done }
    let r2 := setStatus l2 LoadingStatus.Cancelled
    (r2.1, r.2 ++ r2.2 ++ [LoaderSignal.loadingCancelled])
  else (l1, [])

/-- The method `NetworkStreamLoader::loadStreamAsync`, called at time `now`
for the stream `url`; `k` is passed to the `cancelLoading` of a session still
in flight. -/
def loadStreamAsync (l : NetworkStreamLoader) (url : StreamBehaviour) (timeoutMs : Int)
    (now : Int) (k : Nat) : NetworkStreamLoader × List LoaderSignal :=
  let r : NetworkStreamLoader × List LoaderSignal :=
    if isLoading l then cancelLoading l k else (l, [])
  let l1 : NetworkStreamLoader :=
    cleanup { r.1 with m_url := url, m_timeoutMs := timeoutMs, m_shouldCancel := false }
  let l2 : NetworkStreamLoader :=
    { l1 with m_workerThread := true, quitRequested := false, worker := WorkerPc.checkCancel0 }
  let r2 := setStatus l2 LoadingStatus.Connecting
  ({ r2.1 with m_startTime := currentTimeOfDay now, m_timeoutTimer := true,
               m_progressTimer := true },
    r.2 ++ r2.2 ++ [LoaderSignal.loadingStarted])

/-- The slot `NetworkStreamLoader::onTimeoutTimer`; the timer is single-shot. -/
def onTimeoutTimer (l : NetworkStreamLoader) : NetworkStreamLoader × List LoaderSignal :=
  let l1 : NetworkStreamLoader := { l with m_timeoutTimer := false, m_shouldCancel := true }
  let r := setStatus l1 LoadingStatus.Timeout
  ({ r.1 with quitRequested := r.1.quitRequested || r.1.m_workerThread },
    r.2 ++ [LoaderSignal.loadingFailed])

/-- The timer-stopping call queued by the worker, run on the main thread. -/
def runQueuedTimerStop (l : NetworkStreamLoader) : NetworkStreamLoader :=
  if 0 < l.queuedTimerStops then
    { l with queuedTimerStops := l.queuedTimerStops - 1, m_timeoutTimer := false,
             m_progressTimer := false }
  else l

/-- The things that can happen next in a loading session. -/
inductive Event where
  | worker
  | timeout
  | cancel (k : Nat)
  | queuedTimerStop
  deriving Repr, DecidableEq

/-- One event of a session: a step of the worker thread, the time-out timer
firing (only while it is active), a call of `cancelLoading`, or the delivery
of a queued timer-stopping call. -/
def step (l : NetworkStreamLoader) : Event → NetworkStreamLoader × List LoaderSignal
  | Event.worker => workerStep l
  | Event.timeout => if l.m_timeoutTimer then onTimeoutTimer l else (l, [])
  | Event.cancel k => cancelLoading l k
  | Event.queuedTimerStop => (runQueuedTimerStop l, [])

/-- A run of events, with all the signals emitted. -/
def run : NetworkStreamLoader → List Event → NetworkStreamLoader × List LoaderSignal
  | l, [] => (l, [])
  | l, ev :: evs =>
    let r := step l ev
    let r2 := run r.1 evs
    (r2.1, r.2 ++ r2.2)

end NetworkStreamLoader

/-- The slot `NetworkStreamLoader::onProgressTimer`, run at time `now`: the new
state and the signals emitted; `none` when its integer division divides by
zero, which is undefined behaviour.  The product `elapsed * 90` is one of
32-bit `int`s and wraps. -/
def NetworkStreamLoader.onProgressTimer (l : NetworkStreamLoader) (now : Int) :
    Option (NetworkStreamLoader × List LoaderSignal) :=
  if !l.isLoading then some ({ l with m_progressTimer := false }, [])
  else
    let elapsed : Int := currentTimeOfDay now - l.m_startTime
    let expectedTotal : Int := F64.toInt (F64.mul (F64.ofInt l.m_timeoutMs) (F64.lit 8 10))
    if expectedTotal = 0 then none
    else
      let progress : Int := min 90 (Int.tdiv (toInt32 (elapsed * 90)) expectedTotal)
      some (l, [LoaderSignal.loadingProgress progress])

/-! ## Strings (`QString`)

A `QString` is modelled as the list of its characters, all of them in the
Basic Multilingual Plane in what follows, so that positions and lengths are
those of the UTF-16 code units. -/

namespace QString

/-- Qt's `QString::split(sep)` with the default `Qt::KeepEmptyParts`. -/
def split (sep : Char) : List Char → List (List Char)
  | [] => [[]]
  | c :: cs =>
    if c = sep then [] :: split sep cs
    else
      match split sep cs with
      | [] => [[c]]
      | p :: ps => (c :: p) :: ps

/-- Qt's `QStringList::join(sep)`. -/
def join (sep : Char) : List (List Char) → List Char
  | [] => []
  | [p] => p
  | p :: q :: ps => p ++ sep :: join sep (q :: ps)

/-- Qt's `QString::left(n)`: the whole string when `n` is negative or not
smaller than its length. -/
def left (s : List Char) (n : Int) : List Char :=
  if n < 0 ∨ (s.length : Int) ≤ n then s else s.take n.toNat

/-- Qt's `QString::right(n)`: the whole string when `n` is negative or not
smaller than its length. -/
def right (s : List Char) (n : Int) : List Char :=
  if n < 0 ∨ (s.length : Int) ≤ n then s else s.drop (s.length - n.toNat)

/-- Qt's `QString::startsWith`. -/
def startsWith (s : List Char) (p : List Char) : Bool := p.isPrefixOf s

end QString

namespace QString

/-- Qt's `QChar::isSpace`: the characters U+0009 to U+000D, U+0020, U+0085,
U+00A0 and those of the Unicode categories Zs, Zl and Zp. -/
def isSpace (c : Char) : Bool :=
  let u : Nat := c.toNat
  decide (u = 0x20) || (decide (0x09 ≤ u) && decide (u ≤ 0x0d)) || decide (u = 0x85) ||
    decide (u = 0xa0) || decide (u = 0x1680) || (decide (0x2000 ≤ u) && decide (u ≤ 0x200a)) ||
    decide (u = 0x2028) || decide (u = 0x2029) || decide (u = 0x202f) || decide (u = 0x205f) ||
    decide (u = 0x3000)

/-- Qt's `QString::trimmed`: the string without leading and trailing whitespace. -/
def trimmed (s : List Char) : List Char :=
  ((s.dropWhile isSpace).reverse.dropWhile isSpace).reverse

/-- Qt's `QString::toLower`, on the letters `A` to `Z`; the other characters
matter only in so far as none of them maps to a letter of `true`. -/
def toLower (s : List Char) : List Char := s.map Char.toLower

/-- The decimal digits of `n` put in front of `acc`, most significant first,
computed with `fuel` divisions. -/
def digitsAux : Nat → Nat → List Char → List Char
  | 0, _, acc => acc
  | fuel + 1, n, acc =>
    let acc1 : List Char := Char.ofNat (48 + n % 10) :: acc
    if n < 10 then acc1 else digitsAux fuel (n / 10) acc1

/-- Qt's `QString::number(n)`, which is what `QString::arg(int)` inserts: the
decimal digits of `n`, after a minus sign when `n` is negative. -/
def number (n : Int) : List Char :=
  if n < 0 then '-' :: digitsAux (n.natAbs + 1) n.natAbs []
  else digitsAux (n.natAbs + 1) n.natAbs []

/-- The value of a decimal digit. -/
def digitValue (c : Char) : Option Nat :=
  if 48 ≤ c.toNat ∧ c.toNat ≤ 57 then some (c.toNat - 48) else none

/-- The number written by a string of decimal digits, continuing from `acc`;
`none` when a character is not a digit. -/
def parseDigits : List Char → Nat → Option Nat
  | [], acc => some acc
  | c :: cs, acc =>
    match digitValue c with
    | some d => parseDigits cs (acc * 10 + d)
    | none => none

/-- Qt's `QString::toInt()` in base 10: the value of an optional sign and
decimal digits, whitespace around them ignored; 0 when the string is not of
that form or the value does not fit an `int`. -/
def toInt (s : List Char) : Int :=
  let parsed : Option Int :=
    match trimmed s with
    | [] => none
    | c :: ds =>
      if c = '-' then
        (if ds.isEmpty then none else (parseDigits ds 0).map (fun (n : Nat) => -(n : Int)))
      else if c = '+' then
        (if ds.isEmpty then none else (parseDigits ds 0).map (fun (n : Nat) => (n : Int)))
      else (parseDigits (c :: ds) 0).map (fun (n : Nat) => (n : Int))
  match parsed with
  | some v => if -2147483648 ≤ v ∧ v ≤ 2147483647 then v else 0
  | none => 0

end QString

/-- The method `VideoPlayer::truncateFileName`; `host` and `path` are what
`QUrl(fileName).host()` and `QUrl(fileName).path()` return. -/
def VideoPlayer.truncateFileName (fileName : List Char) (maxLength : Int)
    (host path : List Char) : List Char :=
  if (fileName.length : Int) ≤ maxLength then fileName
  else if QString.startsWith fileName "http://".toList ∨
      QString.startsWith fileName "https://".toList then
    let simplified : List Char := host ++ path
    if (simplified.length : Int) ≤ maxLength then simplified
    else
      let pathParts : List (List Char) := (QString.split '/' path).filter (fun p => !p.isEmpty)
      let fallback : List Char := QString.left fileName (maxLength - 3) ++ "...".toList
      match pathParts.getLast? with
      | some lastPart =>
        let result : List Char := host ++ "/.../".toList ++ lastPart
        if (result.length : Int) ≤ maxLength then result
        else
          let availableLength : Int := maxLength - host.length - 7
          if 0 < availableLength then
            host ++ "/.../".toList ++ QString.left lastPart availableLength ++ "...".toList
          else fallback
      | none => fallback
  else if 10 < maxLength then
    let frontLength : Int := Int.tdiv ((maxLength - 3) * 2) 3
    let backLength : Int := (maxLength - 3) - frontLength
    QString.left fileName frontLength ++ "...".toList ++ QString.right fileName backLength
  else QString.left fileName (maxLength - 3) ++ "...".toList

/-! ## The network configuration (`NetworkConfig.cpp`) -/

/-- The class `NetworkConfig`. -/
structure NetworkConfig where
  connectionTimeout : Int
  readTimeout : Int
  maxRetries : Int
  retryDelay : Int
  bufferSize : Int
  maxBufferSize : Int
  minBufferThreshold : Int
  maxBufferThreshold : Int
  userAgent : List Char
  referer : List Char
  followRedirects : Bool
  maxRedirects : Int
  proxyHost : List Char
  proxyPort : Int
  proxyUser : List Char
  proxyPassword : List Char
  enableQualityControl : Bool
  targetBitrate : Int
  maxLatency : Int
  deriving Repr, DecidableEq

namespace NetworkConfig

/-- The state the default constructor leaves. -/
def init : NetworkConfig :=
  { connectionTimeout := 10000, readTimeout := 5000, maxRetries := 3, retryDelay := 1000,
    bufferSize := 1024 * 1024, maxBufferSize := 10 * 1024 * 1024,
    minBufferThreshold := 20, maxBufferThreshold := 80,
    userAgent := "Qt Video Player".toList, referer := [], followRedirects := true,
    maxRedirects := 5, proxyHost := [], proxyPort := 0, proxyUser := [], proxyPassword := [],
    enableQualityControl := true, targetBitrate := 2000, maxLatency := 3000 }

/-- The method `NetworkConfig::isValid`. -/
def isValid (c : NetworkConfig) : Bool :=
  if c.connectionTimeout ≤ 0 ∨ c.connectionTimeout > 60000 then false
  else if c.readTimeout ≤ 0 ∨ c.readTimeout > 30000 then false
  else if c.maxRetries < 0 ∨ c.maxRetries > 10 then false
  else if c.retryDelay < 0 ∨ c.retryDelay > 10000 then false
  else if c.bufferSize ≤ 0 ∨ c.bufferSize > c.maxBufferSize then false
  else if c.minBufferThreshold < 0 ∨ c.minBufferThreshold ≥ c.maxBufferThreshold then false
  else if c.maxBufferThreshold ≤ c.minBufferThreshold ∨ c.maxBufferThreshold > 100 then false
  else if c.maxRedirects < 0 ∨ c.maxRedirects > 20 then false
  else if c.proxyPort < 0 ∨ c.proxyPort > 65535 then false
  else if c.targetBitrate ≤ 0 ∨ c.targetBitrate > 100000 then false
  else if c.maxLatency ≤ 0 ∨ c.maxLatency > 60000 then false
  else true

/-- The text `QString("key=%1").arg(value)` for a key without a place marker. -/
def keyValue (key : List Char) (value : List Char) : List Char := key ++ '=' :: value

/-- The text inserted for a `bool`: `"true"` or `"false"`. -/
def boolText (b : Bool) : List Char := if b then "true".toList else "false".toList

/-- The method `NetworkConfig::toString`. -/
def toString (c : NetworkConfig) : List Char :=
  QString.join ';'
    [keyValue "connectionTimeout".toList (QString.number c.connectionTimeout),
     keyValue "readTimeout".toList (QString.number c.readTimeout),
     keyValue "maxRetries".toList (QString.number c.maxRetries),
     keyValue "retryDelay".toList (QString.number c.retryDelay),
     keyValue "bufferSize".toList (QString.number c.bufferSize),
     keyValue "maxBufferSize".toList (QString.number c.maxBufferSize),
     keyValue "minBufferThreshold".toList (QString.number c.minBufferThreshold),
     keyValue "maxBufferThreshold".toList (QString.number c.maxBufferThreshold),
     keyValue "userAgent".toList c.userAgent,
     keyValue "referer".toList c.referer,
     keyValue "followRedirects".toList (boolText c.followRedirects),
     keyValue "maxRedirects".toList (QString.number c.maxRedirects),
     keyValue "proxyHost".toList c.proxyHost,
     keyValue "proxyPort".toList (QString.number c.proxyPort),
     keyValue "proxyUser".toList c.proxyUser,
     keyValue "proxyPassword".toList c.proxyPassword,
     keyValue "enableQualityControl".toList (boolText c.enableQualityControl),
     keyValue "targetBitrate".toList (QString.number c.targetBitrate),
     keyValue "maxLatency".toList (QString.number c.maxLatency)]

/-- The chain of comparisons in the loop of `fromString`: the assignment made
for the trimmed `key` and `value`. -/
def assign (c : NetworkConfig) (key value : List Char) : NetworkConfig :=
  if key = "connectionTimeout".toList then { c with connectionTimeout := QString.toInt value }
  else if key = "readTimeout".toList then { c with readTimeout := QString.toInt value }
  else if key = "maxRetries".toList then { c with maxRetries := QString.toInt value }
  else if key = "retryDelay".toList then { c with retryDelay := QString.toInt value }
  else if key = "bufferSize".toList then { c with bufferSize := QString.toInt value }
  else if key = "maxBufferSize".toList then { c with maxBufferSize := QString.toInt value }
  else if key = "minBufferThreshold".toList then
    { c with minBufferThreshold := QString.toInt value }
  else if key = "maxBufferThreshold".toList then
    { c with maxBufferThreshold := QString.toInt value }
  else if key = "userAgent".toList then { c with userAgent := value }
  else if key = "referer".toList then { c with referer := value }
  else if key = "followRedirects".toList then
    { c with followRedirects := decide (QString.toLower value = "true".toList) }
  else if key = "maxRedirects".toList then { c with maxRedirects := QString.toInt value }
  else if key = "proxyHost".toList then { c with proxyHost := value }
  else if key = "proxyPort".toList then { c with proxyPort := QString.toInt value }
  else if key = "proxyUser".toList then { c with proxyUser := value }
  else if key = "proxyPassword".toList then { c with proxyPassword := value }
  else if key = "enableQualityControl".toList then
    { c with enableQualityControl := decide (QString.toLower value = "true".toList) }
  else if key = "targetBitrate".toList then { c with targetBitrate := QString.toInt value }
  else if key = "maxLatency".toList then { c with maxLatency := QString.toInt value }
  else c

/-- The body of the loop of `fromString` for one part of the string. -/
def fromPart (c : NetworkConfig) (part : List Char) : NetworkConfig :=
  match QString.split '=' part with
  | [key, value] => assign c (QString.trimmed key) (QString.trimmed value)
  | _ => c

/-- The method `NetworkConfig::fromString`: the configuration after the call
and the value returned. -/
def fromString (c : NetworkConfig) (configString : List Char) : NetworkConfig × Bool :=
  let c1 : NetworkConfig := (QString.split ';' configString).foldl fromPart c
  (c1, c1.isValid)

/-- The string fields of a configuration contain no `;` and no `=` and have no
leading or trailing whitespace. -/
def cleanStrings (c : NetworkConfig) : Prop :=
  ∀ s ∈ [c.userAgent, c.referer, c.proxyHost, c.proxyUser, c.proxyPassword],
    ';' ∉ s ∧ '=' ∉ s ∧ QString.trimmed s = s

/-- The `int` fields of a configuration hold values of an `int`. -/
def intFields (c : NetworkConfig) : Prop :=
  ∀ v ∈ [c.connectionTimeout, c.readTimeout, c.maxRetries, c.retryDelay, c.bufferSize,
      c.maxBufferSize, c.minBufferThreshold, c.maxBufferThreshold, c.maxRedirects, c.proxyPort,
      c.targetBitrate, c.maxLatency],
    -2147483648 ≤ v ∧ v ≤ 2147483647

/-- Whether the string fields are clean can be computed. -/
instance decidableCleanStrings (c : NetworkConfig) : Decidable c.cleanStrings := by
  unfold cleanStrings
  exact inferInstance

/-- Whether the `int` fields hold values of an `int` can be computed. -/
instance decidableIntFields (c : NetworkConfig) : Decidable c.intFields := by
  unfold intFields
  exact inferInstance

end NetworkConfig

/-! ## Observation sequences and sample states -/

/-- The PTS of the first video frame that decodes among the first ten packets
of `packets`, if there is one. -/
def firstDecodedFrame (videoStreamIndex : Int) (packets : List Packet) : Option Int :=
  ((packets.take 10).filterMap
    (fun p => if p.stream_index = videoStreamIndex ∧ p.sendOk then p.videoFrame else none)).head?

/-- A playing engine that has observed the PTS 1 000 000 (time base 1/1 000 000)
and is anchored there since time 0. -/
def AudioProcessor.demoPlaying : AudioProcessor :=
  { AudioProcessor.init with
    m_initialized := true, m_audioCodecContext := true, m_audioStream := some ⟨1, 1000000⟩,
    m_audioSink := some 0, m_audioDevice := true, m_isPlaying := true,
    m_audioBasePts := 1000000, m_lastAudioPts := 1000000, m_audioClockBase := 1000000,
    m_audioTimer := some 0 }

/-- The engine `demoPlaying` without an observed PTS, as `seek` leaves it: the
anchor of the playback so far is still in place. -/
def AudioProcessor.demoAnchored : AudioProcessor :=
  { AudioProcessor.demoPlaying with m_audioBasePts := AV_NOPTS_VALUE }

/-- The engine `demoPlaying` right after `stop()`: not playing, no PTS, master
clock 0, the anchor of the last playback still in place. -/
def AudioProcessor.demoStopped : AudioProcessor := AudioProcessor.demoPlaying.stop

/-- A playing engine without PTS and without anchor whose master clock is negative. -/
def AudioProcessor.demoNegative : AudioProcessor :=
  { AudioProcessor.init with m_initialized := true, m_isPlaying := true, m_masterClock := -5 }

/-- A packet of one frame with the given PTS that is resampled and written in full. -/
def AudioPacket.single (pts : Int) : AudioPacket :=
  { sendOk := true,
    frames := [{ pts := pts, nb_samples := 1024, outputSize := 4096, written := 4096 }] }

/-- A player playing a local file at position `cur` whose audio engine has
observed the PTS `pts` (time base 1/1 000 000). -/
def VideoPlayer.demoSync (cur : Int) (pts : Int) : VideoPlayer :=
  { VideoPlayer.init with
    m_isPlaying := true, m_currentPosition := cur,
    m_audioProcessor := some { AudioProcessor.init with
      m_initialized := true, m_isPlaying := true, m_audioBasePts := pts,
      m_audioStream := some ⟨1, 1000000⟩ } }

/-- A player with an open 120 s source whose demuxer accepts every seek and
then delivers no packet. -/
def VideoPlayer.demoOpen : VideoPlayer :=
  { VideoPlayer.init with
    m_formatContext := some
      { duration := 120000000, streams := [⟨AVMediaType.video, ⟨1, 1000⟩, ⟨25, 1⟩⟩],
        packets := [], av_seek_frame := fun _ _ => some [] },
    m_videoCodecContext := true, m_videoStreamIndex := 0, m_duration := 120000000 }

/-- The player `demoOpen` 5 ms (at time 1000) after a seek executed at time 995. -/
def VideoPlayer.demoRecent : VideoPlayer :=
  { VideoPlayer.demoOpen with m_lastSeekTime := some 995 }

/-- A player caught in the middle of a seek, with no debounce timer armed. -/
def VideoPlayer.demoBusy : VideoPlayer :=
  { VideoPlayer.demoOpen with m_isSeeking := true }

/-- A player caught in the middle of a seek, with the debounce timer armed (due
at 1040 ms) and a last executed seek at 1000 ms. -/
def VideoPlayer.demoSeeking : VideoPlayer :=
  { VideoPlayer.demoOpen with
    m_isSeeking := true, m_seekDebounceTimer := some 1040, m_lastSeekTime := some 1000 }

/-- A playing player on a 120 s source with an audio engine; after any seek the
demuxer delivers an audio packet and then a video packet whose frame has the
PTS 59 500 (time base 1/1000), that is 59.5 s. -/
def VideoPlayer.demoKeyframe : VideoPlayer :=
  { VideoPlayer.init with
    m_formatContext := some
      { duration := 120000000,
        streams := [⟨AVMediaType.video, ⟨1, 1000⟩, ⟨25, 1⟩⟩,
                    ⟨AVMediaType.audio, ⟨1, 48000⟩, ⟨0, 1⟩⟩],
        packets := [],
        av_seek_frame := fun _ _ =>
          some [⟨1, true, none, []⟩, ⟨0, true, some 59500, []⟩] },
    m_videoCodecContext := true, m_audioCodecContext := true,
    m_videoStreamIndex := 0, m_audioStreamIndex := 1,
    m_audioProcessor := some AudioProcessor.demoPlaying,
    m_isPlaying := true, m_timer := some 40, m_duration := 120000000 }

/-- A loading session just started by `loadStreamAsync` on a stream that
answers every request successfully. -/
def NetworkStreamLoader.demoSession : NetworkStreamLoader :=
  (NetworkStreamLoader.loadStreamAsync NetworkStreamLoader.init
    NetworkStreamLoader.goodStream 15000 0 0).1

/-- The adjustment as the specification words it: the fraction `k / 10` of
`delta` chosen by tier (80 %, 60 %, 40 %, 30 %), truncated toward zero, replaced
by the minimum carrying the sign of `delta` when its magnitude is below the
minimum. -/
def specAdjustment (minAdjustment : Int) (delta : Int) : Int :=
  let k : Int :=
    if 150000 < |delta| then 8
    else if 100000 < |delta| then 6
    else if 60000 < |delta| then 4
    else 3
  let fraction : Int := Int.tdiv (delta * k) 10
  if |fraction| < minAdjustment then Int.sign delta * minAdjustment else fraction

/-- The position of the first stream of type `t` in a list of media types, `-1`
when there is none. -/
def firstIndexOf (t : AVMediaType) (types : List AVMediaType) : Int :=
  if t ∈ types then (types.indexOf t : Int) else -1

/-- Whether a packet is a video packet that the decoder turns into a frame. -/
def Packet.decodes (videoStreamIndex : Int) (p : Packet) : Bool :=
  decide (p.stream_index = videoStreamIndex) && p.sendOk && p.videoFrame.isSome

/-- The audio packets among `packets` that a decode tick of player `s` hands to
the audio engine: those of the audio stream, while there is an audio decoder
and the player is playing. -/
def VideoPlayer.forwardedAudio (s : VideoPlayer) (packets : List Packet) : List AudioPacket :=
  if s.m_audioCodecContext ∧ s.m_isPlaying then
    (packets.filter (fun q => decide (q.stream_index ≠ s.m_videoStreamIndex) &&
      decide (q.stream_index = s.m_audioStreamIndex))).map (fun q => ⟨q.sendOk, q.audioFrames⟩)
  else []

/-- The player after the audio packets among `packets` were handed to the audio
engine at time `now`. -/
def VideoPlayer.afterForwarding (s : VideoPlayer) (packets : List Packet) (now : Int) :
    VideoPlayer :=
  { s with m_audioProcessor := s.m_audioProcessor.map (fun a =>
      (s.forwardedAudio packets).foldl (fun acc q => acc.processAudioPacket (some q) now) a) }

/-- The things that happen to a player, each handled to completion on the GUI
thread before the next: calls of `playVideo`, `pauseVideo` and `stop`, a tick
of the decode timer, a seek request (a call of `seek`), a sync call, and the
expiry of the seek debounce timer. -/
inductive PlayerEvent where
  | play (now : Int) (deviceOk : Bool)
  | pause
  | stop
  | tick (now : Int)
  | seekTo (position : Int) (now : Int) (deviceOk : Bool)
  | sync (now : Int)
  | debounce (deviceOk : Bool)
  deriving Repr, DecidableEq

/-- Whether an event is a call of `playVideo` or of `syncAudioVideo`. -/
def PlayerEvent.restartsOrSyncs : PlayerEvent → Bool
  | PlayerEvent.play _ _ => true
  | PlayerEvent.sync _ => true
  | _ => false

/-- One event of a player: the method it stands for is run. -/
def VideoPlayer.apply (s : VideoPlayer) : PlayerEvent → VideoPlayer
  | PlayerEvent.play now deviceOk => s.playVideo now deviceOk
  | PlayerEvent.pause => s.pauseVideo
  | PlayerEvent.stop => s.stop
  | PlayerEvent.tick now => s.updatePosition now
  | PlayerEvent.seekTo position now deviceOk => (s.seek position now deviceOk).1
  | PlayerEvent.sync now => s.syncAudioVideo now
  | PlayerEvent.debounce deviceOk => (s.expireSeekDebounce deviceOk).1

/-- A sequence of events of a player. -/
def VideoPlayer.applyAll (s : VideoPlayer) (evs : List PlayerEvent) : VideoPlayer :=
  evs.foldl VideoPlayer.apply s

/-- A player playing a local file at 1.05 s whose audio engine has observed the
PTS 1 000 000 (1 s); the next packet is a video packet whose frame has the PTS
1060 (time base 1/1000), that is 1.06 s. -/
def VideoPlayer.demoDrift : VideoPlayer :=
  { VideoPlayer.demoSync 1050000 1000000 with
    m_formatContext := some
      { duration := 120000000, streams := [⟨AVMediaType.video, ⟨1, 1000⟩, ⟨25, 1⟩⟩],
        packets := [⟨0, true, some 1060, []⟩], av_seek_frame := fun _ _ => some [] },
    m_videoCodecContext := true, m_videoStreamIndex := 0, m_duration := 120000000,
    m_timer := some 40 }

/-- The player `demoKeyframe` at 5 s on a source whose demuxer refuses every seek. -/
def VideoPlayer.demoUnseekable : VideoPlayer :=
  { VideoPlayer.demoKeyframe with
    m_formatContext := some
      { duration := 120000000,
        streams := [⟨AVMediaType.video, ⟨1, 1000⟩, ⟨25, 1⟩⟩,
                    ⟨AVMediaType.audio, ⟨1, 48000⟩, ⟨0, 1⟩⟩],
        packets := [], av_seek_frame := fun _ _ => none },
    m_currentPosition := 5000000 }

/-- The player `demoOpen` playing a source of 240 frames per second, its decode
timer running at the 8 ms that `playVideo` chooses. -/
def VideoPlayer.demoFast : VideoPlayer :=
  { VideoPlayer.demoOpen with m_isPlaying := true, m_timer := some 8, m_fps := F64.lit 240 1 }

/-- A playing player with an audio engine at the head of four packets: an audio
packet, a video packet the decoder rejects, a video packet that yields no
frame, and a video packet whose frame has the PTS 2000 (2 s); a fifth packet
follows. -/
def VideoPlayer.demoDecode : VideoPlayer :=
  { VideoPlayer.demoKeyframe with
    m_formatContext := some
      { duration := 120000000,
        streams := [⟨AVMediaType.video, ⟨1, 1000⟩, ⟨25, 1⟩⟩,
                    ⟨AVMediaType.audio, ⟨1, 48000⟩, ⟨0, 1⟩⟩],
        packets := [⟨1, true, none, (AudioPacket.single 48000).frames⟩,
                    ⟨0, false, some 1000, []⟩, ⟨0, true, none, []⟩,
                    ⟨0, true, some 2000, []⟩, ⟨0, true, some 2040, []⟩],
        av_seek_frame := fun _ _ => some [] } }

/-- The player `demoKeyframe` at 3 s with only an audio packet left to read. -/
def VideoPlayer.demoEnding : VideoPlayer :=
  { VideoPlayer.demoKeyframe with
    m_formatContext := some
      { duration := 120000000,
        streams := [⟨AVMediaType.video, ⟨1, 1000⟩, ⟨25, 1⟩⟩,
                    ⟨AVMediaType.audio, ⟨1, 48000⟩, ⟨0, 1⟩⟩],
        packets := [⟨1, true, none, []⟩], av_seek_frame := fun _ _ => some [] },
    m_currentPosition := 3000000 }

/-- A loading session just started on a stream whose `avformat_open_input` fails. -/
def NetworkStreamLoader.demoFailingOpen : NetworkStreamLoader :=
  (NetworkStreamLoader.loadStreamAsync NetworkStreamLoader.init
    { NetworkStreamLoader.goodStream with openOk := false } 15000 0 0).1

/-- A loading session on a stream with an audio stream followed by a video
stream, about to probe the streams. -/
def NetworkStreamLoader.demoProbing : NetworkStreamLoader :=
  { (NetworkStreamLoader.loadStreamAsync NetworkStreamLoader.init
      { NetworkStreamLoader.goodStream with
        streams := [AVMediaType.audio, AVMediaType.other, AVMediaType.video] } 15000 0 0).1 with
    m_formatContext := true, m_status := LoadingStatus.LoadingStreamInfo,
    worker := WorkerPc.findInfo }

/-- The player `demoOpen` on a live stream of unknown length, whose duration is
`AV_NOPTS_VALUE`. -/
def VideoPlayer.demoLive : VideoPlayer :=
  { VideoPlayer.demoOpen with m_duration := AV_NOPTS_VALUE }

/-- An audio engine as `setupAudio` leaves it for a newly opened source:
initialised, with a sink, neither playing nor paused. -/
def AudioProcessor.demoFresh : AudioProcessor :=
  { AudioProcessor.init with
    m_initialized := true, m_audioCodecContext := true, m_audioSink := some 0 }

/-- The player `demoKeyframe` paused, then closed, then holding a newly opened
source with a new audio engine: the fields set by the opening are new, the
others are as `closeVideo` left them. -/
def VideoPlayer.demoReopened : VideoPlayer :=
  { VideoPlayer.demoKeyframe.pauseVideo.closeVideo with
    m_formatContext := VideoPlayer.demoKeyframe.m_formatContext,
    m_videoCodecContext := true, m_audioCodecContext := true,
    m_videoStreamIndex := 0, m_audioStreamIndex := 1, m_duration := 120000000,
    m_audioProcessor := some AudioProcessor.demoFresh }

/-- The engine `demoPlaying` (44.1 kHz, stereo) with a sink whose buffer holds
17 640 bytes, that is 100 ms, and a latency estimate of 20 ms. -/
def AudioProcessor.demoBuffered : AudioProcessor :=
  { AudioProcessor.demoPlaying with m_audioSink := some 17640, m_deviceLatency := 20000 }

/-- A URL of 77 characters. -/
def VideoPlayer.demoUrl : List Char :=
  "http://example.com/videos/a_very_long_file_name_of_a_recorded_live_stream.mp4".toList

/-- A loading session started with a time-out of 1 ms. -/
def NetworkStreamLoader.demoShortTimeout : NetworkStreamLoader :=
  (NetworkStreamLoader.loadStreamAsync NetworkStreamLoader.init
    NetworkStreamLoader.goodStream 1 0 0).1

/-! ## Theorems: the sync corrector -/

/-- The adjustment computed by `syncAudioVideo` is never smaller in magnitude
than the configured minimum. -/
theorem syncAdjustment_ge_min (net : Bool) (timeDiff : Int) :
    VideoPlayer.minSyncAdjustment net ≤ |VideoPlayer.syncAdjustment net timeDiff| := by
  have hpos : 0 < VideoPlayer.minSyncAdjustment net := by
    cases net <;> decide
  unfold VideoPlayer.syncAdjustment
  simp only
  split_ifs <;>
    first
    | exact (abs_of_pos hpos).ge
    | (rw [abs_neg]; exact (abs_of_pos hpos).ge)
    | exact not_lt.mp ‹_›

/-- Claim C2. Whenever `syncAudioVideo` applies a correction (the correction
count moves), the master clock is set to the video position minus an
adjustment whose magnitude is at least the configured minimum: 10 ms for a
local file, 15 ms for a network stream. -/
theorem C2_applied_adjustment_min (s : VideoPlayer) (ap : AudioProcessor) (now : Int)
    (hap : s.m_audioProcessor = some ap)
    (happlied : (s.syncAudioVideo now).m_syncAdjustmentCount ≠ s.m_syncAdjustmentCount) :
    let delta : Int := s.m_currentPosition - ap.getAccurateAudioTime now
    let adjustment : Int := VideoPlayer.syncAdjustment s.m_isNetworkStream delta
    (s.syncAudioVideo now).m_audioProcessor =
        some (ap.setMasterClock (s.m_currentPosition - adjustment)) ∧
      (if s.m_isNetworkStream then 15000 else 10000) ≤ |adjustment| := by
  intro delta adjustment
  refine ⟨?_, syncAdjustment_ge_min _ _⟩
  revert happlied
  simp only [VideoPlayer.syncAudioVideo, hap]
  split_ifs <;> simp [adjustment, delta]

set_option maxRecDepth 20000 in
/-- Claim C2 at a local file with the video 50 ms ahead of the audio clock: the
correction applied is 15 ms. -/
theorem C2_applied_adjustment_min_witness :
    ((VideoPlayer.demoSync 1050000 1000000).syncAudioVideo 500).m_syncAdjustmentCount = 1 ∧
    ((VideoPlayer.demoSync 1050000 1000000).syncAudioVideo 500).m_audioProcessor.map
        (fun a => a.m_masterClock) = some 1035000 ∧
    (10000 : Int) ≤ |VideoPlayer.syncAdjustment false 50000| :=
  ⟨by decide,
   (congrArg (Option.map (fun a => a.m_masterClock))
     (C2_applied_adjustment_min (VideoPlayer.demoSync 1050000 1000000) _ 500 rfl
       (by decide)).1).trans (by decide),
   (C2_applied_adjustment_min (VideoPlayer.demoSync 1050000 1000000) _ 500 rfl (by decide)).2⟩

/-! ## Theorems: the seek coordinator -/

/-- Claim C3, amended. For every target `t` (seconds) and every duration
`d ≥ 0` (microseconds) whose number of seconds `D = d / 1000000` fits the `int`
in which `performSeek` stores it, the position `performSeek` seeks to is `t`
clamped into `[0, D]`. -/
theorem C3_seekPosition_clamp (t d : Int) (hd : 0 ≤ d) (hfit : d / 1000000 ≤ 2147483647) :
    VideoPlayer.seekPosition d t =
      (if t < 0 then 0 else if d / 1000000 < t then d / 1000000 else t) := by
  have htd : Int.tdiv d AV_TIME_BASE = d / 1000000 := by
    unfold AV_TIME_BASE
    exact Int.tdiv_eq_ediv hd (by norm_num)
  have hD : 0 ≤ d / 1000000 := Int.ediv_nonneg hd (by norm_num)
  have h32 : toInt32 (d / 1000000) = d / 1000000 := by
    unfold toInt32
    omega
  unfold VideoPlayer.seekPosition
  simp only [htd, h32]
  split_ifs <;> omega

/-- Claim C3 on a 120 s source: a target of -5 gives 0 and a target of 500 gives 120. -/
theorem C3_seekPosition_clamp_witness :
    VideoPlayer.seekPosition 120000000 (-5) = 0 ∧ VideoPlayer.seekPosition 120000000 500 = 120 :=
  ⟨(C3_seekPosition_clamp (-5) 120000000 (by decide) (by decide)).trans (by decide),
   (C3_seekPosition_clamp 500 120000000 (by decide) (by decide)).trans (by decide)⟩

/-- Claim C3 as stated fails: for a duration of 2 147 483 648 s the bound
wraps to `INT_MIN` when stored in an `int`, and a target of 5 s is moved to
-2 147 483 648 s instead of staying at 5. -/
theorem C3_counterexample :
    (0 : Int) ≤ 2147483648000000 ∧
    VideoPlayer.seekPosition 2147483648000000 5 = -2147483648 ∧
    (if (5 : Int) < 0 then (0 : Int)
      else if (2147483648000000 : Int) / 1000000 < 5 then 2147483648000000 / 1000000
      else 5) = 5 := by
  decide

/-- What a call of `performSeek` leaves of the seek bookkeeping: the guard
flag is down again and the debounce fields are untouched. -/
theorem performSeek_seekFields (s : VideoPlayer) (position now : Int) (dev : Bool)
    (hidle : s.m_isSeeking = false) :
    (s.performSeek position now dev).m_isSeeking = false ∧
    (s.performSeek position now dev).m_formatContext.isSome = s.m_formatContext.isSome ∧
    (s.performSeek position now dev).m_lastSeekTime = s.m_lastSeekTime ∧
    (s.performSeek position now dev).m_hasPendingSeek = s.m_hasPendingSeek ∧
    (s.performSeek position now dev).m_pendingSeekPosition = s.m_pendingSeekPosition ∧
    (s.performSeek position now dev).m_seekDebounceTimer = s.m_seekDebounceTimer := by
  unfold VideoPlayer.performSeek
  cases hctx : s.m_formatContext with
  | none => simp [hidle, hctx]
  | some ctx =>
    simp only [hidle, Bool.false_eq_true, if_false]
    split <;> simp [hctx, VideoPlayer.afterReposition]

/-- A call of `performSeek` that executes no seek leaves the state as it is. -/
theorem performSeek_of_no_run (s : VideoPlayer) (position now : Int) (dev : Bool)
    (h : s.performSeekRuns position = []) : s.performSeek position now dev = s := by
  unfold VideoPlayer.performSeekRuns at h
  unfold VideoPlayer.performSeek
  cases hctx : s.m_formatContext with
  | none => rfl
  | some ctx =>
    cases hs : s.m_isSeeking with
    | true => simp
    | false => simp [hctx, hs] at h

/-- A call of `performSeek` during a seek returns at its guard. -/
theorem performSeek_seeking (s : VideoPlayer) (position now : Int) (dev : Bool)
    (hseek : s.m_isSeeking = true) : s.performSeek position now dev = s := by
  unfold VideoPlayer.performSeek
  cases s.m_formatContext <;> simp [hseek]

/-- A request that is not within 20 ms of the last executed seek executes at once. -/
theorem seek_immediate (s : VideoPlayer) (ctx : FormatContext) (a now : Int) (dev : Bool)
    (hopen : s.m_formatContext = some ctx) (hidle : s.m_isSeeking = false)
    (hfar : ∀ last, s.m_lastSeekTime = some last → 20 ≤ currentTimeOfDay now - last) :
    ∃ s1 ctx1, s.seek a now dev = (s1, [a]) ∧ s1.m_formatContext = some ctx1 ∧
      s1.m_isSeeking = false ∧ s1.m_lastSeekTime = some (currentTimeOfDay now) ∧
      s1.m_hasPendingSeek = s.m_hasPendingSeek ∧
      s1.m_seekDebounceTimer = s.m_seekDebounceTimer := by
  have hseek : s.seek a now dev =
      (VideoPlayer.performSeek { s with m_lastSeekTime := some (currentTimeOfDay now) } a now dev,
        [a]) := by
    unfold VideoPlayer.seek
    simp only [hopen, hidle]
    cases hl : s.m_lastSeekTime with
    | none => simp [VideoPlayer.performSeekRuns, hopen, hidle]
    | some last =>
      have := hfar last hl
      have h2 : ¬ (currentTimeOfDay now - last < 20) := by omega
      simp [h2, VideoPlayer.performSeekRuns, hopen, hidle]
  generalize hs0 : ({ s with m_lastSeekTime := some (currentTimeOfDay now) } : VideoPlayer) = s0
    at hseek
  have e1 : s0.m_formatContext = some ctx := by rw [← hs0]; exact hopen
  have e2 : s0.m_isSeeking = false := by rw [← hs0]; exact hidle
  have e3 : s0.m_lastSeekTime = some (currentTimeOfDay now) := by rw [← hs0]
  have e4 : s0.m_hasPendingSeek = s.m_hasPendingSeek := by rw [← hs0]
  have e5 : s0.m_seekDebounceTimer = s.m_seekDebounceTimer := by rw [← hs0]
  obtain ⟨f1, f2, f3, f4, _, f6⟩ := performSeek_seekFields s0 a now dev e2
  rw [e1, Option.isSome_some] at f2
  obtain ⟨ctx1, hctx1⟩ := Option.isSome_iff_exists.mp f2
  exact ⟨_, ctx1, hseek, hctx1, f1, f3.trans e3, f4.trans e4, f6.trans e5⟩

/-- A request within 20 ms of the last executed seek is debounced: it becomes
the pending target and the 50 ms timer is armed anew. -/
theorem seek_debounced (s : VideoPlayer) (ctx : FormatContext) (b now last : Int) (dev : Bool)
    (hopen : s.m_formatContext = some ctx) (hidle : s.m_isSeeking = false)
    (hlast : s.m_lastSeekTime = some last) (hnear : currentTimeOfDay now - last < 20) :
    ∃ s2, s.seek b now dev = (s2, []) ∧ s2.m_formatContext = some ctx ∧
      s2.m_isSeeking = false ∧ s2.m_lastSeekTime = some last ∧
      s2.m_hasPendingSeek = true ∧ s2.m_pendingSeekPosition = b ∧
      s2.m_seekDebounceTimer = some (now + 50) := by
  refine ⟨{ s with m_pendingSeekPosition := b, m_hasPendingSeek := true,
                   m_seekDebounceTimer := some (now + 50) }, ?_, hopen, hidle, hlast, rfl, rfl, rfl⟩
  unfold VideoPlayer.seek
  simp [hopen, hidle, hlast, hnear]

/-- When the debounce timer expires with a pending target, that target is executed. -/
theorem expire_pending (s : VideoPlayer) (ctx : FormatContext) (due : Int) (dev : Bool)
    (hopen : s.m_formatContext = some ctx) (hidle : s.m_isSeeking = false)
    (hpend : s.m_hasPendingSeek = true) (htimer : s.m_seekDebounceTimer = some due) :
    (s.expireSeekDebounce dev).2 = [s.m_pendingSeekPosition] := by
  unfold VideoPlayer.expireSeekDebounce VideoPlayer.onSeekDebounceTimeout
  simp [htimer, hpend, VideoPlayer.performSeekRuns, hopen, hidle]

/-- Claim C4, amended. From an idle state with an open source, two seek
requests 10 ms apart with targets `a` and then `b` collapse into a single
`performSeek` with target `b` when both fall within 20 ms of the last executed
seek; when the first does not (or no seek was executed before) it executes at
once and the second executes when the debounce timer expires, so `performSeek`
runs twice, with `a` and then with `b`. -/
theorem C4_two_requests (s : VideoPlayer) (ctx : FormatContext) (a b now : Int) (dev : Bool)
    (hopen : s.m_formatContext = some ctx) (hidle : s.m_isSeeking = false)
    (_hpend : s.m_hasPendingSeek = false) (_htimer : s.m_seekDebounceTimer = none) :
    ((∀ last, s.m_lastSeekTime = some last → 20 ≤ currentTimeOfDay now - last) →
        (s.twoSeekRequests a b now 10 dev).2 = [a, b]) ∧
    (∀ last, s.m_lastSeekTime = some last → currentTimeOfDay now - last < 20 →
        currentTimeOfDay (now + 10) - last < 20 →
        (s.twoSeekRequests a b now 10 dev).2 = [b]) := by
  constructor
  · intro hfar
    obtain ⟨s1, ctx1, h1, hctx1, f1, f3, _, _⟩ := seek_immediate s ctx a now dev hopen hidle hfar
    have hgap : currentTimeOfDay (now + 10) - currentTimeOfDay now < 20 := by
      unfold currentTimeOfDay
      omega
    obtain ⟨s2, h2, g1, g2, _, g4, g5, g6⟩ :=
      seek_debounced s1 ctx1 b (now + 10) (currentTimeOfDay now) dev hctx1 f1 f3 hgap
    have h3 := expire_pending s2 ctx1 (now + 10 + 50) dev g1 g2 g4 g6
    unfold VideoPlayer.twoSeekRequests
    simp only [h1, h2, h3, g5]
    rfl
  · intro last hlast hn1 hn2
    obtain ⟨s1, h1, f1, f2, f3, _, _, _⟩ := seek_debounced s ctx a now last dev hopen hidle hlast hn1
    obtain ⟨s2, h2, g1, g2, _, g4, g5, g6⟩ :=
      seek_debounced s1 ctx b (now + 10) last dev f1 f2 f3 hn2
    have h3 := expire_pending s2 ctx (now + 10 + 50) dev g1 g2 g4 g6
    unfold VideoPlayer.twoSeekRequests
    simp only [h1, h2, h3, g5]
    rfl

/-- Claim C4 at two concrete states: 5 ms after an executed seek the requests
30 and 60 collapse into one seek to 60; with no seek before, both execute. -/
theorem C4_two_requests_witness :
    (VideoPlayer.demoRecent.twoSeekRequests 30 60 1000 10 true).2 = [60] ∧
    (VideoPlayer.demoOpen.twoSeekRequests 30 60 1000 10 true).2 = [30, 60] :=
  ⟨(C4_two_requests VideoPlayer.demoRecent _ 30 60 1000 true rfl rfl rfl rfl).2 995 rfl
     (by decide) (by decide),
   (C4_two_requests VideoPlayer.demoOpen _ 30 60 1000 true rfl rfl rfl rfl).1
     (fun _ h => nomatch h)⟩

/-- Claim C4 as stated fails: from the idle state `demoOpen` (open source, no
seek in progress, nothing pending) the requests 30 and 60, 10 ms apart, run
`performSeek` twice. -/
theorem C4_counterexample :
    VideoPlayer.demoOpen.m_formatContext.isSome = true ∧
    VideoPlayer.demoOpen.m_isSeeking = false ∧ VideoPlayer.demoOpen.m_hasPendingSeek = false ∧
    VideoPlayer.demoOpen.m_seekDebounceTimer = none ∧
    (VideoPlayer.demoOpen.twoSeekRequests 30 60 1000 10 true).2 = [30, 60] ∧
    (VideoPlayer.demoOpen.twoSeekRequests 30 60 1000 10 true).2.length ≠ 1 := by
  decide

/-- The read loop of `decodeFrame` leaves the seek flag alone. -/
theorem decodeLoop_isSeeking (ctx : FormatContext) (now : Int) (ps : List Packet) :
    ∀ s : VideoPlayer, (s.decodeLoop ctx now ps).1.m_isSeeking = s.m_isSeeking := by
  induction ps with
  | nil => intro s; simp [VideoPlayer.decodeLoop, VideoPlayer.stop]
  | cons p ps ih =>
    intro s
    unfold VideoPlayer.decodeLoop
    split_ifs
    · exact ih s
    · cases p.videoFrame with
      | none => exact ih s
      | some pts => rfl
    · rw [ih]
    · exact ih s

/-- A call of `performSeek` returns with the seek flag as it found it: clear
when it ran, set when it returned at its guard. -/
theorem performSeek_isSeeking (s : VideoPlayer) (position now : Int) (dev : Bool) :
    (s.performSeek position now dev).m_isSeeking = s.m_isSeeking := by
  unfold VideoPlayer.performSeek
  cases hctx : s.m_formatContext with
  | none => rfl
  | some ctx =>
    cases hidle : s.m_isSeeking with
    | true => simp [hidle]
    | false => simp

/-- Every event of a player returns with the seek flag as it found it. -/
theorem apply_isSeeking (s : VideoPlayer) (e : PlayerEvent) :
    (s.apply e).m_isSeeking = s.m_isSeeking := by
  cases e with
  | play now dev =>
    simp only [VideoPlayer.apply, VideoPlayer.playVideo]
    split <;> rfl
  | pause => rfl
  | stop =>
    simp only [VideoPlayer.apply, VideoPlayer.stop]
    split <;> rfl
  | tick now =>
    simp only [VideoPlayer.apply, VideoPlayer.updatePosition, VideoPlayer.decodeFrame]
    cases hctx : s.m_formatContext with
    | none => simp
    | some ctx =>
      simp only
      split_ifs
      · rfl
      · rfl
      · exact decodeLoop_isSeeking _ _ _ _
  | seekTo position now dev =>
    simp only [VideoPlayer.apply, VideoPlayer.seek]
    split
    · rfl
    · split_ifs
      · rfl
      · rfl
      · exact performSeek_isSeeking _ _ _ _
  | sync now =>
    simp only [VideoPlayer.apply, VideoPlayer.syncAudioVideo]
    split
    · rfl
    · split_ifs <;> rfl
  | debounce dev =>
    simp only [VideoPlayer.apply, VideoPlayer.expireSeekDebounce,
      VideoPlayer.onSeekDebounceTimeout]
    split
    · split_ifs
      · exact performSeek_isSeeking _ _ _ _
      · rfl
    · rfl

/-- Every sequence of events returns with the seek flag as it found it. -/
theorem applyAll_isSeeking (evs : List PlayerEvent) :
    ∀ s : VideoPlayer, (s.applyAll evs).m_isSeeking = s.m_isSeeking := by
  induction evs with
  | nil => intro s; rfl
  | cons e evs ih =>
    intro s
    show ((s.apply e).applyAll evs).m_isSeeking = s.m_isSeeking
    rw [ih (s.apply e), apply_isSeeking s e]

/-- Claim C5. In every player state in which a seek is in progress a seek
request is dropped.  Requests reach the private slot `seek` only through the
four seek shortcuts, and with a seek in progress each of them returns at its
guard: the state is unchanged - no pending target is recorded, no debounce
timer armed - and no `performSeek` runs.  The slot `seek` itself runs no
`performSeek` in such a state, and changes nothing when the debounce timer is
not active.  A seek is in progress only inside `performSeek`: every event of
the player - `playVideo`, `pauseVideo`, `stop`, a decode tick, a call of
`seek`, a sync call, the expiry of the debounce timer - that starts with no
seek in progress ends with no seek in progress. -/
theorem C5_seek_while_seeking (s : VideoPlayer) (step now : Int) (dev : Bool)
    (hseek : s.m_isSeeking = true) :
    s.seekForwardShortcut step now dev = (s, []) ∧
    s.seekBackwardShortcut step now dev = (s, []) ∧
    (∀ position : Int, (s.seek position now dev).2 = []) ∧
    (∀ position : Int, s.m_seekDebounceTimer = none → s.seek position now dev = (s, [])) ∧
    (∀ (s0 : VideoPlayer) (evs : List PlayerEvent), s0.m_isSeeking = false →
      (s0.applyAll evs).m_isSeeking = false) := by
  refine ⟨?_, ?_, ?_, ?_, ?_⟩
  · simp [VideoPlayer.seekForwardShortcut, hseek]
  · simp [VideoPlayer.seekBackwardShortcut, hseek]
  · intro position
    unfold VideoPlayer.seek
    cases hctx : s.m_formatContext with
    | none => rfl
    | some ctx =>
      simp only
      split_ifs
      · rfl
      · rfl
      · simp [VideoPlayer.performSeekRuns, hseek]
  · intro position ht
    unfold VideoPlayer.seek
    cases hctx : s.m_formatContext with
    | none => rfl
    | some ctx => simp [hseek, ht]
  · intro s0 evs h0
    rw [applyAll_isSeeking evs s0, h0]

/-- Claim C5 at a player caught in the middle of a seek, with the debounce
timer armed and the last executed seek 10 ms ago: the shortcut `Right` pressed
at time 1010 changes nothing and executes nothing; with no debounce timer
armed a call of `seek` changes nothing either; and after two requests 10 ms
apart on an idle player and the expiry of the debounce timer no seek is in
progress. -/
theorem C5_seek_while_seeking_witness :
    VideoPlayer.demoSeeking.m_isSeeking = true ∧
    VideoPlayer.demoSeeking.m_seekDebounceTimer = some 1040 ∧
    VideoPlayer.demoSeeking.seekForwardShortcut 10 1010 true = (VideoPlayer.demoSeeking, []) ∧
    VideoPlayer.demoSeeking.seekBackwardShortcut 10 1010 true = (VideoPlayer.demoSeeking, []) ∧
    (VideoPlayer.demoSeeking.seek 7 1010 true).2 = [] ∧
    VideoPlayer.demoBusy.seek 7 1010 true = (VideoPlayer.demoBusy, []) ∧
    (VideoPlayer.demoOpen.applyAll
      [PlayerEvent.seekTo 30 1000 true, PlayerEvent.seekTo 60 1010 true,
       PlayerEvent.debounce true]).m_isSeeking = false :=
  ⟨rfl, rfl,
   (C5_seek_while_seeking VideoPlayer.demoSeeking 10 1010 true rfl).1,
   (C5_seek_while_seeking VideoPlayer.demoSeeking 10 1010 true rfl).2.1,
   (C5_seek_while_seeking VideoPlayer.demoSeeking 10 1010 true rfl).2.2.1 7,
   (C5_seek_while_seeking VideoPlayer.demoBusy 10 1010 true rfl).2.2.2.1 7 rfl,
   (C5_seek_while_seeking VideoPlayer.demoSeeking 10 1010 true rfl).2.2.2.2
     VideoPlayer.demoOpen
     [PlayerEvent.seekTo 30 1000 true, PlayerEvent.seekTo 60 1010 true,
      PlayerEvent.debounce true] rfl⟩

/-! ## Theorems: the audio clock -/

/-- Claim C7, amended. While the engine is not playing `getAccurateAudioTime`
returns the master clock.  While it is playing it returns, in this order of
priority: the latest observed PTS rescaled to microseconds with the time base
of the audio stream (with `1 / sampleRate` when no stream was set) if a valid
PTS has been observed; otherwise `max 0 (anchor + elapsed - deviceLatency)` if
a clock anchor exists; otherwise `max 0 masterClock`. -/
theorem C7_clock_priority (a : AudioProcessor) (now : Int) :
    (a.m_isPlaying = false → a.getAccurateAudioTime now = a.m_masterClock) ∧
    (a.m_isPlaying = true → a.m_audioBasePts ≠ AV_NOPTS_VALUE →
      a.getAccurateAudioTime now =
        av_rescale_q a.m_audioBasePts
          (match a.m_audioStream with
           | some tb => tb
           | none => ⟨1, a.sampleRate⟩) AV_TIME_BASE_Q) ∧
    (a.m_isPlaying = true → a.m_audioBasePts = AV_NOPTS_VALUE →
      0 < a.m_audioClockBase → a.m_audioTimer.isSome = true →
      a.getAccurateAudioTime now =
        max 0 (a.m_audioClockBase + a.elapsed now * 1000 - a.m_deviceLatency)) ∧
    (a.m_isPlaying = true → a.m_audioBasePts = AV_NOPTS_VALUE →
      ¬ (0 < a.m_audioClockBase ∧ a.m_audioTimer.isSome = true) →
      a.getAccurateAudioTime now = max 0 a.m_masterClock) := by
  unfold AudioProcessor.getAccurateAudioTime
  refine ⟨?_, ?_, ?_, ?_⟩
  · intro h; simp [h]
  · intro h1 h2
    cases hs : a.m_audioStream <;> simp [h1, h2]
  · intro h1 h2 h3 h4; simp [h1, h2, h3, h4]
  · intro h1 h2 h3
    simp only [h1, h2]
    simp only [Bool.not_true, Bool.false_eq_true, if_false, ne_eq, not_true_eq_false]
    rw [if_neg h3]

set_option maxRecDepth 20000 in
/-- Claim C7 at four engines, one for each case: PTS observed, anchor only
(read 70 ms after it was set), stopped, and neither PTS nor anchor. -/
theorem C7_clock_priority_witness :
    AudioProcessor.demoPlaying.getAccurateAudioTime 70 = 1000000 ∧
    AudioProcessor.demoAnchored.getAccurateAudioTime 70 = 1070000 ∧
    AudioProcessor.demoStopped.getAccurateAudioTime 70 = 0 ∧
    AudioProcessor.demoNegative.getAccurateAudioTime 70 = 0 :=
  ⟨((C7_clock_priority AudioProcessor.demoPlaying 70).2.1 (by decide) (by decide)).trans
     (by decide),
   ((C7_clock_priority AudioProcessor.demoAnchored 70).2.2.1 (by decide) (by decide)
     (by decide) (by decide)).trans (by decide),
   ((C7_clock_priority AudioProcessor.demoStopped 70).1 (by decide)).trans (by decide),
   ((C7_clock_priority AudioProcessor.demoNegative 70).2.2.2 (by decide) (by decide)
     (by decide)).trans (by decide)⟩

set_option maxRecDepth 20000 in
/-- Claim C7 as stated fails at two engines.  The stopped engine has no PTS but
an anchor, and returns the master clock 0 instead of the extrapolated time.
The playing engine with neither PTS nor anchor and a master clock of -5
returns 0 instead of the master clock. -/
theorem C7_counterexample :
    (AudioProcessor.demoStopped.m_audioBasePts = AV_NOPTS_VALUE ∧
      0 < AudioProcessor.demoStopped.m_audioClockBase ∧
      AudioProcessor.demoStopped.m_audioTimer.isSome = true ∧
      AudioProcessor.demoStopped.getAccurateAudioTime 70 ≠
        max 0 (AudioProcessor.demoStopped.m_audioClockBase +
          AudioProcessor.demoStopped.elapsed 70 * 1000 -
          AudioProcessor.demoStopped.m_deviceLatency)) ∧
    (AudioProcessor.demoNegative.m_audioBasePts = AV_NOPTS_VALUE ∧
      AudioProcessor.demoNegative.m_audioClockBase = 0 ∧
      AudioProcessor.demoNegative.getAccurateAudioTime 70 ≠
        AudioProcessor.demoNegative.m_masterClock) := by
  decide

set_option maxRecDepth 20000 in
/-- Claim C8 at a failing input: a playing engine anchored at 1 s is told to
seek to 60 s; the master clock becomes 60 000 000 but `getAccurateAudioTime`,
read at once, still returns 1 000 000, the value extrapolated from the anchor
set before the seek. -/
theorem C8_seek_keeps_stale_anchor :
    AudioProcessor.demoPlaying.m_isPlaying = true ∧
    (AudioProcessor.demoPlaying.seek 60000000 0 true).m_masterClock = 60000000 ∧
    (AudioProcessor.demoPlaying.seek 60000000 0 true).m_audioClockBase = 1000000 ∧
    (AudioProcessor.demoPlaying.seek 60000000 0 true).getAccurateAudioTime 0 = 1000000 := by
  decide

/-! ## Theorems: positions after a seek -/

/-- The frame search of `performSeek` finds the first video frame that decodes
among the packets it may read. -/
theorem seekFindFrame_fst (idx : Int) (n : Nat) :
    ∀ packets : List Packet,
      (VideoPlayer.seekFindFrame idx n packets).1 =
        ((packets.take n).filterMap
          (fun p => if p.stream_index = idx ∧ p.sendOk then p.videoFrame else none)).head? := by
  induction n with
  | zero => intro packets; simp [VideoPlayer.seekFindFrame]
  | succ n ih =>
    intro packets
    cases packets with
    | nil => simp [VideoPlayer.seekFindFrame]
    | cons p ps =>
      simp only [VideoPlayer.seekFindFrame, List.take_succ_cons, List.filterMap_cons]
      by_cases h : p.stream_index = idx ∧ p.sendOk = true
      · cases hv : p.videoFrame with
        | none => simp [h, hv, ih]
        | some pts => simp [h, hv]
      · simp only [h, if_false]
        exact ih ps

/-- The seek of the audio engine sets the master clock to the timestamp. -/
theorem audio_seek_masterClock (a : AudioProcessor) (t now : Int) (dev : Bool) :
    (a.seek t now dev).m_masterClock = t := by
  unfold AudioProcessor.seek AudioProcessor.restartAudioDevice
  cases a.m_audioSink <;> cases a.m_isPlaying <;> simp

/-- Claim C9, amended. After every successful `performSeek` to a clamped
target of `t` seconds the master clock of the audio engine equals
`t * 1000000`; the video position equals the PTS, rescaled to microseconds, of
the first video frame that decodes within the ten packets read after the
reposition when there is such a frame and it carries a PTS, and `t * 1000000`
otherwise. -/
theorem C9_seek_positions (s : VideoPlayer) (ctx : FormatContext) (position now : Int)
    (dev : Bool) (packets : List Packet)
    (hopen : s.m_formatContext = some ctx) (hidle : s.m_isSeeking = false)
    (hok : ctx.av_seek_frame (VideoPlayer.seekPosition s.m_duration position * AV_TIME_BASE)
      (VideoPlayer.seekFlags (VideoPlayer.seekPosition s.m_duration position)
        s.m_currentPosition) = some packets) :
    let t : Int := VideoPlayer.seekPosition s.m_duration position
    let s' : VideoPlayer := s.performSeek position now dev
    (∀ ap, s.m_audioProcessor = some ap →
      ∃ ap', s'.m_audioProcessor = some ap' ∧ ap'.m_masterClock = t * 1000000) ∧
    s'.m_currentPosition =
      (match firstDecodedFrame s.m_videoStreamIndex packets with
       | some pts =>
         if pts ≠ AV_NOPTS_VALUE then
           av_rescale_q pts (ctx.time_base s.m_videoStreamIndex) AV_TIME_BASE_Q
         else t * 1000000
       | none => t * 1000000) := by
  intro t s'
  have hs' : s' = s.performSeek position now dev := rfl
  unfold VideoPlayer.performSeek at hs'
  simp only [hopen, hidle, Bool.false_eq_true, if_false, hok] at hs'
  constructor
  · intro ap hap
    refine ⟨ap.seek (t * 1000000) now dev, ?_, audio_seek_masterClock _ _ _ _⟩
    rw [hs']
    simp [VideoPlayer.afterReposition, hap, AV_TIME_BASE, t]
  · rw [hs']
    simp only [VideoPlayer.afterReposition, seekFindFrame_fst, firstDecodedFrame]
    rfl

set_option maxRecDepth 20000 in
/-- Claim C9 at a seek to 60 s after which the first frame decoded is the
frame at 59.5 s: the master clock is at 60 s, the video position at 59.5 s. -/
theorem C9_seek_positions_witness :
    (VideoPlayer.demoKeyframe.performSeek 60 0 true).m_currentPosition = 59500000 ∧
    ∃ ap', (VideoPlayer.demoKeyframe.performSeek 60 0 true).m_audioProcessor = some ap' ∧
      ap'.m_masterClock = 60 * 1000000 :=
  ⟨((C9_seek_positions VideoPlayer.demoKeyframe _ 60 0 true _ rfl rfl rfl).2).trans (by decide),
   (C9_seek_positions VideoPlayer.demoKeyframe _ 60 0 true _ rfl rfl rfl).1
     AudioProcessor.demoPlaying rfl⟩

set_option maxRecDepth 20000 in
/-- Claim C9 as stated fails: a successful seek to 60 s on a 120 s source,
after which the first frame decoded is the frame at 59.5 s, leaves the video
position at 59 500 000, not at 60 000 000. -/
theorem C9_counterexample :
    VideoPlayer.seekPosition VideoPlayer.demoKeyframe.m_duration 60 = 60 ∧
    (VideoPlayer.demoKeyframe.performSeek 60 0 true).m_isSeeking = false ∧
    (VideoPlayer.demoKeyframe.performSeek 60 0 true).m_currentPosition = 59500000 ∧
    (VideoPlayer.demoKeyframe.performSeek 60 0 true).m_currentPosition ≠ 60 * 1000000 := by
  decide

/-! ## Theorems: the loading session -/

/-- Claim C10 at failing inputs.  In a session on a stream that answers every
request, the time-out timer fires while the worker is opening the input: the
status is `Timeout`, a terminal state; the worker then completes the open and
reaches its check of the cancellation flag, which replaces `Timeout` by
`Cancelled` and emits `loadingCancelled`.  In the same way `cancelLoading`
called after the session has reached `Ready` replaces `Ready` by `Cancelled`. -/
theorem C10_terminal_status_overwritten :
    (NetworkStreamLoader.run NetworkStreamLoader.demoSession
        [NetworkStreamLoader.Event.worker, NetworkStreamLoader.Event.timeout]).1.m_status =
      LoadingStatus.Timeout ∧
    LoadingStatus.Timeout.isTerminal = true ∧
    NetworkStreamLoader.run
        (NetworkStreamLoader.run NetworkStreamLoader.demoSession
          [NetworkStreamLoader.Event.worker, NetworkStreamLoader.Event.timeout]).1
        [NetworkStreamLoader.Event.worker, NetworkStreamLoader.Event.worker] =
      ({ (NetworkStreamLoader.run NetworkStreamLoader.demoSession
            [NetworkStreamLoader.Event.worker, NetworkStreamLoader.Event.timeout]).1 with
          m_status := LoadingStatus.Cancelled, m_formatContext := true,
          worker := WorkerPc.done },
        [LoaderSignal.loadingProgress 10, LoaderSignal.statusChanged LoadingStatus.Cancelled,
          LoaderSignal.loadingCancelled]) ∧
    (NetworkStreamLoader.run NetworkStreamLoader.demoSession
        (List.replicate 8 NetworkStreamLoader.Event.worker)).1.m_status = LoadingStatus.Ready ∧
    (NetworkStreamLoader.run NetworkStreamLoader.demoSession
        (List.replicate 8 NetworkStreamLoader.Event.worker ++
          [NetworkStreamLoader.Event.cancel 0])).1.m_status = LoadingStatus.Cancelled := by
  decide

/-! ## Theorems: cancellation and time-out of a loading session -/

/-- Claim C11 fails when the open step fails: `cancelLoading` is called while the
worker is inside `openInputStream` (status `Connecting`), the open then fails,
and the worker sets `Failed` and emits `loadingFailed` without looking at the
cancellation flag; `cancelLoading` ends the session as `Cancelled`. -/
theorem C11_failed_open_after_cancel :
    (NetworkStreamLoader.demoFailingOpen.run [NetworkStreamLoader.Event.worker]).1.m_status =
      LoadingStatus.Connecting ∧
    (NetworkStreamLoader.demoFailingOpen.run [NetworkStreamLoader.Event.worker]).1.worker =
      WorkerPc.openInput ∧
    (NetworkStreamLoader.demoFailingOpen.run
      [NetworkStreamLoader.Event.worker, NetworkStreamLoader.Event.cancel 1]) =
      ((NetworkStreamLoader.demoFailingOpen.run
        [NetworkStreamLoader.Event.worker, NetworkStreamLoader.Event.cancel 1]).1,
       [LoaderSignal.loadingProgress 10, LoaderSignal.statusChanged LoadingStatus.Failed,
        LoaderSignal.loadingFailed, LoaderSignal.statusChanged LoadingStatus.Cancelled,
        LoaderSignal.loadingCancelled]) ∧
    (NetworkStreamLoader.demoFailingOpen.run
      [NetworkStreamLoader.Event.worker, NetworkStreamLoader.Event.cancel 1]).1.m_status =
      LoadingStatus.Cancelled := by
  decide

/-- Once the cancellation flag is set and the worker has not passed its last
check, a step of the worker keeps the flag, does not reach `Ready`, does not
enter the decoder set-up and does not emit `streamReady`. -/
theorem workerStep_flagged (l : NetworkStreamLoader) (hflag : l.m_shouldCancel = true)
    (hst : l.m_status ≠ LoadingStatus.Ready) (hc : l.worker ≠ WorkerPc.codecs)
    (hf : l.worker ≠ WorkerPc.finish) :
    l.workerStep.1.m_shouldCancel = true ∧ l.workerStep.1.m_status ≠ LoadingStatus.Ready ∧
    l.workerStep.1.worker ≠ WorkerPc.codecs ∧ l.workerStep.1.worker ≠ WorkerPc.finish ∧
    LoaderSignal.streamReady ∉ l.workerStep.2 := by
  unfold NetworkStreamLoader.workerStep
  cases hw : l.worker with
  | checkCancel0 | checkCancel1 | checkCancel2 =>
    simp only [NetworkStreamLoader.checkCancel, NetworkStreamLoader.setStatus, hflag, if_true]
    split_ifs <;> simp [hflag, hst]
  | openInput =>
    simp only [NetworkStreamLoader.openInputStream, NetworkStreamLoader.failStep,
      NetworkStreamLoader.setStatus]
    split_ifs <;> simp [hflag, hst]
  | enterStreamInfo =>
    simp only [NetworkStreamLoader.setStatus]
    split_ifs <;> simp_all
  | findInfo =>
    simp only [NetworkStreamLoader.findStreamInfo, NetworkStreamLoader.failStep,
      NetworkStreamLoader.setStatus]
    split_ifs <;> simp_all
  | codecs => exact absurd hw hc
  | finish => exact absurd hw hf
  | done => simp [hflag, hst, hw]

/-- The same for the steps the worker completes while `cancelLoading` waits. -/
theorem workerDuringWait_flagged (k : Nat) :
    ∀ l : NetworkStreamLoader, l.m_shouldCancel = true → l.m_status ≠ LoadingStatus.Ready →
      l.worker ≠ WorkerPc.codecs → l.worker ≠ WorkerPc.finish →
      (NetworkStreamLoader.workerDuringWait k l).1.m_shouldCancel = true ∧
      (NetworkStreamLoader.workerDuringWait k l).1.m_status ≠ LoadingStatus.Ready ∧
      LoaderSignal.streamReady ∉ (NetworkStreamLoader.workerDuringWait k l).2 := by
  induction k with
  | zero => intro l hflag hst _ _; simp [NetworkStreamLoader.workerDuringWait, hflag, hst]
  | succ k ih =>
    intro l hflag hst hc hf
    unfold NetworkStreamLoader.workerDuringWait
    split_ifs
    · simp [hflag, hst]
    · obtain ⟨h1, h2, h3, h4, h5⟩ := workerStep_flagged l hflag hst hc hf
      obtain ⟨g1, g2, g3⟩ := ih l.workerStep.1 h1 h2 h3 h4
      simp only [List.mem_append, not_or]
      exact ⟨g1, g2, h5, g3⟩

/-- Once the cancellation flag is set and the worker has not passed its last
check, no event of the session leads to `Ready` or emits `streamReady`. -/
theorem step_flagged (l : NetworkStreamLoader) (ev : NetworkStreamLoader.Event)
    (hflag : l.m_shouldCancel = true)
    (hst : l.m_status ≠ LoadingStatus.Ready) (hc : l.worker ≠ WorkerPc.codecs)
    (hf : l.worker ≠ WorkerPc.finish) :
    (l.step ev).1.m_shouldCancel = true ∧ (l.step ev).1.m_status ≠ LoadingStatus.Ready ∧
    (l.step ev).1.worker ≠ WorkerPc.codecs ∧ (l.step ev).1.worker ≠ WorkerPc.finish ∧
    LoaderSignal.streamReady ∉ (l.step ev).2 := by
  cases ev with
  | worker => exact workerStep_flagged l hflag hst hc hf
  | timeout =>
    simp only [NetworkStreamLoader.step, NetworkStreamLoader.onTimeoutTimer,
      NetworkStreamLoader.setStatus]
    split_ifs <;> simp_all
  | cancel k =>
    simp only [NetworkStreamLoader.step, NetworkStreamLoader.cancelLoading]
    split_ifs
    · obtain ⟨g1, g2, g3⟩ := workerDuringWait_flagged k
        { l with m_shouldCancel := true, m_timeoutTimer := false, m_progressTimer := false,
                 quitRequested := true } rfl hst hc hf
      simp only [NetworkStreamLoader.setStatus]
      split_ifs <;> simp_all
    · simp_all
  | queuedTimerStop =>
    simp only [NetworkStreamLoader.step, NetworkStreamLoader.runQueuedTimerStop]
    split_ifs <;> simp_all

/-- The same for a run of events. -/
theorem run_flagged (evs : List NetworkStreamLoader.Event) :
    ∀ l : NetworkStreamLoader, l.m_shouldCancel = true → l.m_status ≠ LoadingStatus.Ready →
      l.worker ≠ WorkerPc.codecs → l.worker ≠ WorkerPc.finish →
      (l.run evs).1.m_status ≠ LoadingStatus.Ready ∧ LoaderSignal.streamReady ∉ (l.run evs).2 := by
  induction evs with
  | nil => intro l _ hst _ _; simp [NetworkStreamLoader.run, hst]
  | cons ev evs ih =>
    intro l hflag hst hc hf
    obtain ⟨h1, h2, h3, h4, h5⟩ := step_flagged l ev hflag hst hc hf
    obtain ⟨g1, g2⟩ := ih (l.step ev).1 h1 h2 h3 h4
    unfold NetworkStreamLoader.run
    simp only [List.mem_append, not_or]
    exact ⟨g1, h5, g2⟩

/-- Claim C12. If the timeout timer fires before stream-info probing has
completed (the worker is at or before its probing step), then whatever the
stream answers and whatever happens afterwards - steps of the worker, calls of
`cancelLoading`, queued timer stops - the status never becomes `Ready` again
and `streamReady` is never emitted: neither by the timeout handler nor later. -/
theorem C12_timeout_before_probe (l : NetworkStreamLoader)
    (evs : List NetworkStreamLoader.Event) (hactive : l.m_timeoutTimer = true)
    (hpc : l.worker = WorkerPc.checkCancel0 ∨ l.worker = WorkerPc.openInput ∨
      l.worker = WorkerPc.checkCancel1 ∨ l.worker = WorkerPc.enterStreamInfo ∨
      l.worker = WorkerPc.findInfo) :
    (l.step NetworkStreamLoader.Event.timeout).1.m_status = LoadingStatus.Timeout ∧
    LoaderSignal.streamReady ∉ (l.step NetworkStreamLoader.Event.timeout).2 ∧
    ((l.step NetworkStreamLoader.Event.timeout).1.run evs).1.m_status ≠ LoadingStatus.Ready ∧
    LoaderSignal.streamReady ∉ ((l.step NetworkStreamLoader.Event.timeout).1.run evs).2 ∧
    LoaderSignal.streamReady ∉ (l.run (NetworkStreamLoader.Event.timeout :: evs)).2 := by
  have hstep : (l.step NetworkStreamLoader.Event.timeout) = l.onTimeoutTimer := by
    simp [NetworkStreamLoader.step, hactive]
  have hstatus : l.onTimeoutTimer.1.m_status = LoadingStatus.Timeout := by
    simp only [NetworkStreamLoader.onTimeoutTimer, NetworkStreamLoader.setStatus]
    split_ifs <;> simp_all
  have hflag : l.onTimeoutTimer.1.m_shouldCancel = true := by
    simp only [NetworkStreamLoader.onTimeoutTimer, NetworkStreamLoader.setStatus]
    split_ifs <;> simp
  have hworker : l.onTimeoutTimer.1.worker = l.worker := by
    simp only [NetworkStreamLoader.onTimeoutTimer, NetworkStreamLoader.setStatus]
    split_ifs <;> simp
  have hsig : LoaderSignal.streamReady ∉ l.onTimeoutTimer.2 := by
    simp only [NetworkStreamLoader.onTimeoutTimer, NetworkStreamLoader.setStatus]
    split_ifs <;> simp
  have hc : l.onTimeoutTimer.1.worker ≠ WorkerPc.codecs := by
    rw [hworker]; rcases hpc with h | h | h | h | h <;> simp [h]
  have hf : l.onTimeoutTimer.1.worker ≠ WorkerPc.finish := by
    rw [hworker]; rcases hpc with h | h | h | h | h <;> simp [h]
  have hst : l.onTimeoutTimer.1.m_status ≠ LoadingStatus.Ready := by
    rw [hstatus]; decide
  obtain ⟨g1, g2⟩ := run_flagged evs l.onTimeoutTimer.1 hflag hst hc hf
  rw [hstep]
  refine ⟨hstatus, hsig, g1, g2, ?_⟩
  unfold NetworkStreamLoader.run
  simp only [List.mem_append, not_or, hstep]
  exact ⟨hsig, g2⟩

/-- Claim C12 at a session on a good stream whose worker is blocked in the open
when the timer fires: the worker then completes the open, is stopped at its
next check, and a late `cancelLoading` follows; `streamReady` is not emitted
and the status is not `Ready`. -/
theorem C12_timeout_before_probe_witness :
    ((NetworkStreamLoader.demoSession.step NetworkStreamLoader.Event.worker).1.run
      [NetworkStreamLoader.Event.timeout, NetworkStreamLoader.Event.worker,
       NetworkStreamLoader.Event.worker, NetworkStreamLoader.Event.cancel 3]).1.m_status ≠
        LoadingStatus.Ready ∧
    LoaderSignal.streamReady ∉
      ((NetworkStreamLoader.demoSession.step NetworkStreamLoader.Event.worker).1.run
        [NetworkStreamLoader.Event.timeout, NetworkStreamLoader.Event.worker,
         NetworkStreamLoader.Event.worker, NetworkStreamLoader.Event.cancel 3]).2 :=
  ⟨(C12_timeout_before_probe
      (NetworkStreamLoader.demoSession.step NetworkStreamLoader.Event.worker).1
      [NetworkStreamLoader.Event.worker, NetworkStreamLoader.Event.worker,
       NetworkStreamLoader.Event.cancel 3] (by decide) (by decide)).2.2.1,
   (C12_timeout_before_probe
      (NetworkStreamLoader.demoSession.step NetworkStreamLoader.Event.worker).1
      [NetworkStreamLoader.Event.worker, NetworkStreamLoader.Event.worker,
       NetworkStreamLoader.Event.cancel 3] (by decide) (by decide)).2.2.2.2⟩

/-! ## Theorems: a failed reposition, the selection of streams -/

/-- Claim C13. If the native reposition call of `performSeek` fails, the
current position is left as it was, the audio engine (its clock included) is
not touched, and on return `isSeeking` is false. -/
theorem C13_failed_reposition (s : VideoPlayer) (ctx : FormatContext) (position now : Int)
    (dev : Bool) (hctx : s.m_formatContext = some ctx) (hidle : s.m_isSeeking = false)
    (hfail : ctx.av_seek_frame (VideoPlayer.seekPosition s.m_duration position * AV_TIME_BASE)
      (VideoPlayer.seekFlags (VideoPlayer.seekPosition s.m_duration position)
        s.m_currentPosition) = none) :
    (s.performSeek position now dev).m_currentPosition = s.m_currentPosition ∧
    (s.performSeek position now dev).m_audioProcessor = s.m_audioProcessor ∧
    (s.performSeek position now dev).m_isSeeking = false := by
  unfold VideoPlayer.performSeek
  simp [hctx, hidle, hfail]

/-- Claim C13 at a playing player at 5 s whose demuxer refuses every seek: after
a seek to 60 s the position is still 5 s, the audio engine is the same and no
seek is in progress. -/
theorem C13_failed_reposition_witness :
    (VideoPlayer.demoUnseekable.performSeek 60 1000 true).m_currentPosition = 5000000 ∧
    (VideoPlayer.demoUnseekable.performSeek 60 1000 true).m_audioProcessor =
      some AudioProcessor.demoPlaying ∧
    (VideoPlayer.demoUnseekable.performSeek 60 1000 true).m_isSeeking = false :=
  C13_failed_reposition VideoPlayer.demoUnseekable _ 60 1000 true rfl rfl rfl

/-- The selection loop started at index `i` with the indices `v` and `a` found
so far: an index already found is kept, otherwise the first stream of the type
in the rest of the list is taken. -/
theorem selectStreams_spec (ts : List AVMediaType) :
    ∀ (i v a : Int), 0 ≤ i →
      selectStreams ts i (v, a) =
        (if v = -1 then
            (if AVMediaType.video ∈ ts then i + (ts.indexOf AVMediaType.video : Int) else -1)
          else v,
         if a = -1 then
            (if AVMediaType.audio ∈ ts then i + (ts.indexOf AVMediaType.audio : Int) else -1)
          else a) := by
  induction ts with
  | nil =>
    intro i v a _
    simp only [selectStreams, List.not_mem_nil, if_false]
    refine Prod.ext ?_ ?_ <;> split_ifs <;> simp_all
  | cons t ts ih =>
    intro i v a hi
    have hi1 : (0 : Int) ≤ i + 1 := by omega
    have hne : i ≠ -1 := by omega
    unfold selectStreams
    cases t <;> by_cases hv : v = -1 <;> by_cases ha : a = -1 <;>
      simp [hv, ha, hne, ih _ _ _ hi1, List.indexOf_cons] <;>
      (try split_ifs) <;> (try simp) <;> (try omega)

/-- The selection loop as both callers start it. -/
theorem selectStreams_first (ts : List AVMediaType) :
    selectStreams ts 0 (-1, -1) =
      (firstIndexOf AVMediaType.video ts, firstIndexOf AVMediaType.audio ts) := by
  rw [selectStreams_spec ts 0 (-1) (-1) (le_refl _)]
  simp [firstIndexOf]

/-- The first index of a type is `-1` exactly when the type does not occur. -/
theorem firstIndexOf_eq_neg_one (t : AVMediaType) (ts : List AVMediaType) :
    firstIndexOf t ts = -1 ↔ t ∉ ts := by
  unfold firstIndexOf
  split_ifs with h
  · constructor
    · intro h1
      exact h1.elim
    · intro h1; exact absurd h h1
  · simp [h]

/-- Claim C14. For every list of stream media types the selection loop yields
as video index the position of the first video stream and as audio index the
position of the first audio stream (`-1` when there is none of that type); the
acquisition step of the loader, after a successful probe, fails (status
`Failed`, `loadingFailed` emitted, no further step) exactly when the list
contains no video stream, and so does the opening of a source by the player,
which then closes the source. -/
theorem C14_stream_selection (types : List AVMediaType) :
    selectStreams types 0 (-1, -1) =
      (firstIndexOf AVMediaType.video types, firstIndexOf AVMediaType.audio types) ∧
    (∀ l : NetworkStreamLoader, l.m_url.probeOk = true → l.m_url.streams = types →
      (LoaderSignal.loadingFailed ∈ l.findStreamInfo.2 ↔ AVMediaType.video ∉ types) ∧
      (l.findStreamInfo.1.worker = WorkerPc.checkCancel2 ↔ AVMediaType.video ∈ types) ∧
      (AVMediaType.video ∉ types →
        l.findStreamInfo.1.m_status = LoadingStatus.Failed ∧
        l.findStreamInfo.1.worker = WorkerPc.done) ∧
      l.findStreamInfo.1.m_videoStreamIndex = firstIndexOf AVMediaType.video types ∧
      l.findStreamInfo.1.m_audioStreamIndex = firstIndexOf AVMediaType.audio types) ∧
    (∀ (s : VideoPlayer) (ctx : FormatContext), s.m_formatContext = some ctx →
      ctx.streams.map (fun st => st.codec_type) = types →
      ((s.continueVideoOpening true).2 = false ↔ AVMediaType.video ∉ types) ∧
      (AVMediaType.video ∉ types → (s.continueVideoOpening true).1.m_formatContext = none) ∧
      (AVMediaType.video ∈ types →
        (s.continueVideoOpening true).1.m_videoStreamIndex =
          firstIndexOf AVMediaType.video types ∧
        (s.continueVideoOpening true).1.m_audioStreamIndex =
          firstIndexOf AVMediaType.audio types)) := by
  refine ⟨selectStreams_first types, ?_, ?_⟩
  · intro l hprobe hstreams
    have hv := firstIndexOf_eq_neg_one AVMediaType.video types
    unfold NetworkStreamLoader.findStreamInfo
    simp only [hprobe, hstreams, selectStreams_first, Bool.not_true, Bool.false_eq_true, if_false]
    by_cases hmem : AVMediaType.video ∈ types
    · have hne : ¬ firstIndexOf AVMediaType.video types = -1 := fun h => hv.mp h hmem
      simp [hne, hmem]
    · have heq : firstIndexOf AVMediaType.video types = -1 := hv.mpr hmem
      simp [heq, hmem, NetworkStreamLoader.failStep, NetworkStreamLoader.setStatus]
      split_ifs <;> simp_all
  · intro s ctx hctx htypes
    have hv := firstIndexOf_eq_neg_one AVMediaType.video types
    unfold VideoPlayer.continueVideoOpening
    simp only [hctx, htypes, selectStreams_first, Bool.not_true, Bool.false_eq_true, if_false]
    by_cases hmem : AVMediaType.video ∈ types
    · have hne : ¬ firstIndexOf AVMediaType.video types = -1 := fun h => hv.mp h hmem
      simp [hne, hmem]
    · have heq : firstIndexOf AVMediaType.video types = -1 := hv.mpr hmem
      simp [heq, hmem, VideoPlayer.closeVideo]

/-- Claim C14 at a source whose streams are audio, data, video: the indices are
2 and 0 and the probing step of the loader goes on; at a source with audio
only the selection finds no video stream. -/
theorem C14_stream_selection_witness :
    NetworkStreamLoader.demoProbing.findStreamInfo.1.m_videoStreamIndex = 2 ∧
    NetworkStreamLoader.demoProbing.findStreamInfo.1.m_audioStreamIndex = 0 ∧
    NetworkStreamLoader.demoProbing.findStreamInfo.1.worker = WorkerPc.checkCancel2 ∧
    selectStreams [AVMediaType.audio] 0 (-1, -1) = (-1, 0) :=
  ⟨((C14_stream_selection _).2.1 NetworkStreamLoader.demoProbing rfl rfl).2.2.2.1.trans
      (by decide),
   ((C14_stream_selection _).2.1 NetworkStreamLoader.demoProbing rfl rfl).2.2.2.2.trans
      (by decide),
   ((C14_stream_selection _).2.1 NetworkStreamLoader.demoProbing rfl rfl).2.1.mpr (by decide),
   (C14_stream_selection [AVMediaType.audio]).1.trans (by decide)⟩

/-! ## Theorems: rounding in `double` arithmetic -/

namespace F64

/-- The halving loop computes the position of the leading bit. -/
theorem log2Fuel_spec : ∀ (fuel n : Nat), n ≤ fuel → 0 < n →
    2 ^ log2Fuel fuel n ≤ n ∧ n < 2 ^ (log2Fuel fuel n + 1) := by
  intro fuel
  induction fuel with
  | zero => intro n h1 h2; omega
  | succ fuel ih =>
    intro n h1 h2
    unfold log2Fuel
    by_cases hn : n < 2
    · simp only [hn, if_true]
      constructor <;> simp <;> omega
    · simp only [hn, if_false]
      have := ih (n / 2) (by omega) (by omega)
      obtain ⟨a, b⟩ := this
      rw [pow_succ, pow_succ]
      rw [pow_succ] at b
      constructor <;> omega

/-- The value `log2 n` is the position of the leading bit of `n`. -/
theorem log2_spec (n : Nat) (h : 0 < n) : 2 ^ log2 n ≤ n ∧ n < 2 ^ (log2 n + 1) :=
  log2Fuel_spec n n (le_refl _) h

/-- The shift as a product. -/
theorem shl_eq (n : Nat) (k : Int) : shl n k = n * 2 ^ k.toNat := rfl

/-- A power of two split at a smaller exponent. -/
theorem pow_split {a b : Nat} (h : b ≤ a) : 2 ^ a = 2 ^ b * 2 ^ (a - b) := by
  rw [← pow_add]; congr 1; omega

/-- The value `floorLog2Ratio n d` is the `k` with `2^k ≤ n / d < 2^(k+1)`. -/
theorem floorLog2Ratio_spec (n d : Nat) (hn : 0 < n) (hd : 0 < d) :
    shl d (floorLog2Ratio n d) ≤ shl n (-(floorLog2Ratio n d)) ∧
    shl n (-(floorLog2Ratio n d)) < 2 * shl d (floorLog2Ratio n d) := by
  obtain ⟨na, nb⟩ := log2_spec n hn
  obtain ⟨da, db⟩ := log2_spec d hd
  unfold floorLog2Ratio
  simp only
  generalize log2 n = a at *
  generalize log2 d = b at *
  have hpa : 0 < 2 ^ a := pow_pos (by norm_num) a
  have hpb : 0 < 2 ^ b := pow_pos (by norm_num) b
  by_cases hab : b ≤ a
  · have hk1 : ((a : Int) - (b : Int)).toNat = a - b := by omega
    have hk2 : (-((a : Int) - (b : Int))).toNat = 0 := by omega
    have hsp := pow_split hab
    have hpj : 0 < 2 ^ (a - b) := pow_pos (by norm_num) _
    by_cases hc : shl d ((a : Int) - (b : Int)) ≤ shl n (-((a : Int) - (b : Int)))
    · simp only [hc, if_true]
      refine ⟨trivial, ?_⟩
      simp only [shl_eq, hk1, hk2, pow_zero, mul_one] at hc ⊢
      rw [pow_succ] at nb db
      nlinarith
    · simp only [hc, if_false]
      simp only [shl_eq, hk1, hk2, pow_zero, mul_one] at hc
      by_cases hj : a = b
      · subst hj
        have e1 : ((a : Int) - (a : Int) - 1).toNat = 0 := by omega
        have e2 : (-((a : Int) - (a : Int) - 1)).toNat = 1 := by omega
        simp only [shl_eq, e1, e2, pow_zero, mul_one, pow_one]
        simp only [Nat.sub_self, pow_zero, mul_one] at hc
        rw [pow_succ] at nb db
        constructor <;> omega
      · have e1 : ((a : Int) - (b : Int) - 1).toNat = a - b - 1 := by omega
        have e2 : (-((a : Int) - (b : Int) - 1)).toNat = 0 := by omega
        simp only [shl_eq, e1, e2, pow_zero, mul_one]
        have hj2 : 2 ^ (a - b) = 2 * 2 ^ (a - b - 1) := by
          rw [← pow_succ']; congr 1; omega
        have hpj1 : 0 < 2 ^ (a - b - 1) := pow_pos (by norm_num) _
        rw [pow_succ] at nb db
        rw [hj2] at hc hsp
        constructor <;> nlinarith
  · have hba : a ≤ b := by omega
    have hk1 : ((a : Int) - (b : Int)).toNat = 0 := by omega
    have hk2 : (-((a : Int) - (b : Int))).toNat = b - a := by omega
    have hsp := pow_split hba
    have hpj : 0 < 2 ^ (b - a) := pow_pos (by norm_num) _
    by_cases hc : shl d ((a : Int) - (b : Int)) ≤ shl n (-((a : Int) - (b : Int)))
    · simp only [hc, if_true]
      refine ⟨trivial, ?_⟩
      simp only [shl_eq, hk1, hk2, pow_zero, mul_one] at hc ⊢
      rw [pow_succ] at nb db
      nlinarith
    · simp only [hc, if_false]
      simp only [shl_eq, hk1, hk2, pow_zero, mul_one] at hc
      have e1 : ((a : Int) - (b : Int) - 1).toNat = 0 := by omega
      have e2 : (-((a : Int) - (b : Int) - 1)).toNat = b - a + 1 := by omega
      simp only [shl_eq, e1, e2, pow_zero, mul_one]
      rw [pow_succ] at nb db ⊢
      constructor <;> nlinarith

/-- The scaling chosen by `round` leaves between 53 and 54 significant bits. -/
theorem round_precision (n d : Nat) (hn : 0 < n) (hd : 0 < d) :
    2 ^ 52 * shl d (floorLog2Ratio n d - 52) ≤ shl n (-(floorLog2Ratio n d - 52)) ∧
    shl n (-(floorLog2Ratio n d - 52)) < 2 ^ 53 * shl d (floorLog2Ratio n d - 52) := by
  obtain ⟨h1, h2⟩ := floorLog2Ratio_spec n d hn hd
  generalize floorLog2Ratio n d = E at *
  simp only [shl_eq] at *
  by_cases hE : 52 ≤ E
  · obtain ⟨j, rfl⟩ : ∃ j : Nat, E = (52 : Int) + j := ⟨(E - 52).toNat, by omega⟩
    have e1 : ((52 : Int) + j).toNat = 52 + j := by omega
    have e2 : (-((52 : Int) + j)).toNat = 0 := by omega
    have e3 : ((52 : Int) + j - 52).toNat = j := by omega
    have e4 : (-((52 : Int) + j - 52)).toNat = 0 := by omega
    rw [e1, e2] at h1 h2
    rw [e3, e4]
    rw [pow_add] at h1 h2
    simp only [pow_zero, mul_one] at *
    constructor <;> nlinarith
  · by_cases hE0 : 0 ≤ E
    · obtain ⟨j, rfl⟩ : ∃ j : Nat, E = (j : Int) := ⟨E.toNat, by omega⟩
      have hj : j < 52 := by omega
      have e1 : ((j : Int)).toNat = j := by omega
      have e2 : (-(j : Int)).toNat = 0 := by omega
      have e3 : ((j : Int) - 52).toNat = 0 := by omega
      have e4 : (-((j : Int) - 52)).toNat = 52 - j := by omega
      rw [e1, e2] at h1 h2
      rw [e3, e4]
      have hs : (2 : Nat) ^ 52 = 2 ^ j * 2 ^ (52 - j) := pow_split (by omega)
      have hp : 0 < 2 ^ (52 - j) := pow_pos (by norm_num) _
      have hs53 : (2 : Nat) ^ 53 = 2 * 2 ^ 52 := by norm_num
      simp only [pow_zero, mul_one] at *
      rw [hs53, hs]
      constructor
      · calc 2 ^ j * 2 ^ (52 - j) * d = (d * 2 ^ j) * 2 ^ (52 - j) := by ring
          _ ≤ n * 2 ^ (52 - j) := Nat.mul_le_mul_right _ h1
      · calc n * 2 ^ (52 - j) < (2 * (d * 2 ^ j)) * 2 ^ (52 - j) :=
              Nat.mul_lt_mul_of_pos_right h2 hp
          _ = 2 * (2 ^ j * 2 ^ (52 - j)) * d := by ring
    · obtain ⟨j, rfl⟩ : ∃ j : Nat, E = -(j : Int) := ⟨(-E).toNat, by omega⟩
      have e1 : (-(j : Int)).toNat = 0 := by omega
      have e2 : (- -(j : Int)).toNat = j := by omega
      have e3 : (-(j : Int) - 52).toNat = 0 := by omega
      have e4 : (-(-(j : Int) - 52)).toNat = j + 52 := by omega
      rw [e1, e2] at h1 h2
      rw [e3, e4]
      simp only [pow_zero, mul_one] at *
      rw [pow_add]
      constructor
      · calc 2 ^ 52 * d ≤ 2 ^ 52 * (n * 2 ^ j) := Nat.mul_le_mul_left _ h1
          _ = n * (2 ^ j * 2 ^ 52) := by ring
      · calc n * (2 ^ j * 2 ^ 52) = (n * 2 ^ j) * 2 ^ 52 := by ring
          _ < (2 * d) * 2 ^ 52 := Nat.mul_lt_mul_of_pos_right h2 (by norm_num)
          _ = 2 ^ 53 * d := by ring

/-- For a ratio below `2^53` the exponent chosen by `round` is not positive. -/
theorem round_exp_nonpos (n d : Nat) (hn : 0 < n) (hd : 0 < d) (hlt : n < 2 ^ 53 * d) :
    floorLog2Ratio n d - 52 ≤ 0 := by
  obtain ⟨h1, _⟩ := round_precision n d hn hd
  by_contra hpos
  obtain ⟨j, hj⟩ : ∃ j : Nat, floorLog2Ratio n d - 52 = (j : Int) + 1 :=
    ⟨(floorLog2Ratio n d - 52 - 1).toNat, by omega⟩
  rw [hj] at h1
  have e1 : ((j : Int) + 1).toNat = j + 1 := by omega
  have e2 : (-((j : Int) + 1)).toNat = 0 := by omega
  simp only [shl_eq, e1, e2, pow_zero, mul_one] at h1
  have hp : 0 < 2 ^ j := pow_pos (by norm_num) j
  have h2j : 2 ^ (j + 1) = 2 * 2 ^ j := by rw [pow_succ]; ring
  rw [h2j] at h1
  have hdj : d ≤ d * 2 ^ j := Nat.le_mul_of_pos_right _ hp
  have h53 : (2 : Nat) ^ 53 = 2 * 2 ^ 52 := by norm_num
  rw [h53] at hlt
  nlinarith

/-- The shape of `round` on a ratio below `2^53`: a scaling `P`, a power of
two, under which the quotient has 53 bits, and a mantissa obtained from the
quotient by rounding to nearest. -/
theorem toInt_round (neg : Bool) (n d : Nat) (hn : 0 < n) (hd : 0 < d)
    (hlt : n < 2 ^ 53 * d) :
    ∃ P m : Nat, 0 < P ∧ 2 ^ 52 * d ≤ n * P ∧ n * P < 2 ^ 53 * d ∧
      (m = n * P / d ∨ (m = n * P / d + 1 ∧ d ≤ 2 * (n * P % d))) ∧
      (m = n * P / d → 2 * (n * P % d) ≤ d) ∧
      toInt (round neg n d) = if neg then -((m / P : Nat) : Int) else ((m / P : Nat) : Int) := by
  obtain ⟨h1, h2⟩ := round_precision n d hn hd
  have he := round_exp_nonpos n d hn hd hlt
  have hn0 : ¬ (n = 0 ∨ d = 0) := by omega
  unfold round
  simp only [hn0, if_false]
  generalize floorLog2Ratio n d - 52 = e at *
  have e1 : e.toNat = 0 := by omega
  simp only [shl_eq, e1, pow_zero, mul_one] at h1 h2 ⊢
  generalize hP : 2 ^ (-e).toNat = P at *
  have hPpos : 0 < P := by rw [← hP]; exact pow_pos (by norm_num) _
  by_cases hup : (decide (d < 2 * (n * P % d)) ||
      (decide (2 * (n * P % d) = d) && decide (n * P / d % 2 = 1))) = true
  · refine ⟨P, n * P / d + 1, hPpos, h1, h2, Or.inr ⟨rfl, ?_⟩, ?_, ?_⟩
    · simp only [Bool.or_eq_true, Bool.and_eq_true, decide_eq_true_eq] at hup
      omega
    · intro h; omega
    · simp only [hup, if_true, toInt, shl_eq, e1, pow_zero, mul_one, hP]
  · refine ⟨P, n * P / d, hPpos, h1, h2, Or.inl rfl, ?_, ?_⟩
    · intro _
      simp only [Bool.or_eq_true, Bool.and_eq_true, decide_eq_true_eq, not_or] at hup
      omega
    · simp only [hup, toInt, shl_eq, e1, pow_zero, mul_one, hP]
      simp

/-- Truncation after rounding, when the ratio is not within half a unit in the
last place below the next integer: the result is the integer part `T` of the ratio. -/
theorem toInt_round_down (neg : Bool) (n d T : Nat) (hd : 0 < d) (hlo : T * d ≤ n)
    (hhi : n < (T + 1) * d) (hgap : n < 2 ^ 53 * ((T + 1) * d - n)) :
    toInt (round neg n d) = if neg then -(T : Int) else (T : Int) := by
  by_cases hn : n = 0
  · subst hn
    have hT : T = 0 := by
      rcases Nat.eq_zero_or_pos T with h | h
      · exact h
      · have : d ≤ T * d := Nat.le_mul_of_pos_left d h
        omega
    subst hT
    simp [round, toInt, shl_eq]
  have hn : 0 < n := Nat.pos_of_ne_zero hn
  have hlt : n < 2 ^ 53 * d := by
    have : (T + 1) * d - n ≤ d := by
      have : (T + 1) * d = T * d + d := by ring
      omega
    calc n < 2 ^ 53 * ((T + 1) * d - n) := hgap
      _ ≤ 2 ^ 53 * d := Nat.mul_le_mul_left _ this
  obtain ⟨P, m, hP, hA, _, hm, _, hval⟩ := toInt_round neg n d hn hd hlt
  have hq : m / P = T := by
    apply Nat.div_eq_of_lt_le
    · -- T * P ≤ m
      have h1 : T * P ≤ n * P / d := by
        rw [Nat.le_div_iff_mul_le hd]
        calc T * P * d = (T * d) * P := by ring
          _ ≤ n * P := Nat.mul_le_mul_right _ hlo
      rcases hm with h | ⟨h, _⟩ <;> omega
    · -- m < (T + 1) * P
      have hqlt : n * P / d < (T + 1) * P := by
        rw [Nat.div_lt_iff_lt_mul hd]
        calc n * P < ((T + 1) * d) * P := Nat.mul_lt_mul_of_pos_right hhi hP
          _ = (T + 1) * P * d := by ring
      rcases hm with h | ⟨h, hr⟩
      · omega
      · -- rounding up cannot reach the next integer
        obtain ⟨G, hG⟩ : ∃ G, (T + 1) * d = n + G := ⟨(T + 1) * d - n, by omega⟩
        have hG2 : (T + 1) * d - n = G := by omega
        rw [hG2] at hgap
        have hdiv := Nat.div_add_mod (n * P) d
        have hmod := Nat.mod_lt (n * P) hd
        have key : d * (n * P / d + 1) < d * ((T + 1) * P) := by
          have e1 : d * ((T + 1) * P) = n * P + G * P := by
            calc d * ((T + 1) * P) = ((T + 1) * d) * P := by ring
              _ = (n + G) * P := by rw [hG]
              _ = n * P + G * P := by ring
          have e2 : 2 ^ 52 * d < 2 ^ 53 * (G * P) := by
            calc 2 ^ 52 * d ≤ n * P := hA
              _ < (2 ^ 53 * G) * P := Nat.mul_lt_mul_of_pos_right hgap hP
              _ = 2 ^ 53 * (G * P) := by ring
          have e3 : d < 2 * (G * P) := by omega
          rw [e1, Nat.mul_add, Nat.mul_one]
          omega
        have := Nat.lt_of_mul_lt_mul_left key
        omega
  rw [hval, hq]

/-- Truncation after rounding, when the ratio is just below the integer `T`,
by less than half a unit in the last place: the result is `T`. -/
theorem toInt_round_up (neg : Bool) (n d T : Nat) (hd : 0 < d) (hn : 0 < n)
    (hlt : n < 2 ^ 53 * d) (hlo : n < T * d) (hgap : 2 ^ 54 * (T * d - n) ≤ n) :
    toInt (round neg n d) = if neg then -(T : Int) else (T : Int) := by
  obtain ⟨P, m, hP, _, hB, hm, hm2, hval⟩ := toInt_round neg n d hn hd hlt
  obtain ⟨G, hG⟩ : ∃ G, T * d = n + G := ⟨T * d - n, by omega⟩
  have hG2 : T * d - n = G := by omega
  have hGpos : 0 < G := by omega
  rw [hG2] at hgap
  have hdiv := Nat.div_add_mod (n * P) d
  have hmod := Nat.mod_lt (n * P) hd
  have e1 : d * (T * P) = n * P + G * P := by
    calc d * (T * P) = (T * d) * P := by ring
      _ = (n + G) * P := by rw [hG]
      _ = n * P + G * P := by ring
  have e2 : 2 ^ 54 * (G * P) < 2 ^ 53 * d := by
    calc 2 ^ 54 * (G * P) = (2 ^ 54 * G) * P := by ring
      _ ≤ n * P := Nat.mul_le_mul_right _ hgap
      _ < 2 ^ 53 * d := hB
  have e3 : 2 * (G * P) < d := by omega
  have hGP : 0 < G * P := Nat.mul_pos hGpos hP
  -- the quotient is `T * P - 1` and the remainder exceeds one half
  have hq : n * P / d + 1 = T * P := by
    have h1 : d * (n * P / d) < d * (T * P) := by omega
    have h2 : d * (T * P) < d * (n * P / d + 2) := by
      rw [Nat.mul_add]; omega
    have h1' := Nat.lt_of_mul_lt_mul_left h1
    have h2' := Nat.lt_of_mul_lt_mul_left h2
    omega
  have hr : d < 2 * (n * P % d) := by
    have : d * (n * P / d + 1) = n * P + G * P := by rw [hq]; exact e1
    rw [Nat.mul_add, Nat.mul_one] at this
    omega
  have hmT : m = T * P := by
    rcases hm with h | ⟨h, _⟩
    · have := hm2 h; omega
    · omega
  have : m / P = T := by rw [hmT]; exact Nat.mul_div_cancel _ hP
  rw [hval, this]

/-- An integer below `2^53` in magnitude converts exactly: the mantissa is the
magnitude scaled by a power of two and the exponent undoes the scaling. -/
theorem ofInt_exact (x : Int) (h0 : x ≠ 0) (hlt : x.natAbs < 2 ^ 53) :
    ∃ e : Int, e ≤ 0 ∧ ofInt x = ⟨decide (x < 0), x.natAbs * 2 ^ (-e).toNat, e⟩ := by
  have hn : 0 < x.natAbs := Int.natAbs_pos.mpr h0
  have he := round_exp_nonpos x.natAbs 1 hn (by norm_num) (by omega)
  have hn0 : ¬ (x.natAbs = 0 ∨ (1 : Nat) = 0) := by omega
  refine ⟨floorLog2Ratio x.natAbs 1 - 52, he, ?_⟩
  unfold ofInt round
  simp only [hn0, if_false]
  generalize floorLog2Ratio x.natAbs 1 - 52 = e at *
  have e1 : e.toNat = 0 := by omega
  simp [shl_eq, e1, Nat.mod_one]

/-- The product of a converted integer and a positive constant `M · 2^(-j)`,
truncated, when the exact product is not within half a unit in the last place
below the next integer. -/
theorem toInt_mul_ofInt_down (x : Int) (M j T : Nat) (h0 : x ≠ 0) (hlt : x.natAbs < 2 ^ 53)
    (hj : 0 < j) (hlo : T * 2 ^ j ≤ x.natAbs * M) (hhi : x.natAbs * M < (T + 1) * 2 ^ j)
    (hgap : x.natAbs * M < 2 ^ 53 * ((T + 1) * 2 ^ j - x.natAbs * M)) :
    toInt (mul (ofInt x) ⟨false, M, -(j : Int)⟩) = if x < 0 then -(T : Int) else (T : Int) := by
  obtain ⟨e, he, hx⟩ := ofInt_exact x h0 hlt
  rw [hx]
  unfold mul
  simp only [Bool.bne_false]
  have k1 : (e + -(j : Int)).toNat = 0 := by omega
  have k2 : (-(e + -(j : Int))).toNat = (-e).toNat + j := by omega
  simp only [shl_eq, k1, k2, pow_zero, mul_one, one_mul, pow_add]
  generalize hP : 2 ^ (-e).toNat = P
  have hPpos : 0 < P := by rw [← hP]; exact pow_pos (by norm_num) _
  generalize x.natAbs = n at *
  have := toInt_round_down (decide (x < 0)) (n * P * M) (P * 2 ^ j) T
    (Nat.mul_pos hPpos (pow_pos (by norm_num) _))
    (by calc T * (P * 2 ^ j) = (T * 2 ^ j) * P := by ring
          _ ≤ (n * M) * P := Nat.mul_le_mul_right _ hlo
          _ = n * P * M := by ring)
    (by calc n * P * M = (n * M) * P := by ring
          _ < ((T + 1) * 2 ^ j) * P := Nat.mul_lt_mul_of_pos_right hhi hPpos
          _ = (T + 1) * (P * 2 ^ j) := by ring)
    (by
      have e1 : (T + 1) * (P * 2 ^ j) - n * P * M = ((T + 1) * 2 ^ j - n * M) * P := by
        rw [Nat.sub_mul]; congr 1 <;> ring
      rw [e1]
      calc n * P * M = (n * M) * P := by ring
          _ < (2 ^ 53 * ((T + 1) * 2 ^ j - n * M)) * P := Nat.mul_lt_mul_of_pos_right hgap hPpos
          _ = 2 ^ 53 * (((T + 1) * 2 ^ j - n * M) * P) := by ring)
  rw [this]
  simp

/-- The product of a converted integer and a positive constant `M · 2^(-j)`,
truncated, when the exact product is below the integer `T` by less than a
quarter of a unit in the last place. -/
theorem toInt_mul_ofInt_up (x : Int) (M j T : Nat) (h0 : x ≠ 0) (hlt : x.natAbs < 2 ^ 53)
    (hj : 0 < j) (hM : 0 < M) (hb : x.natAbs * M < 2 ^ 53 * 2 ^ j)
    (hlo : x.natAbs * M < T * 2 ^ j) (hgap : 2 ^ 54 * (T * 2 ^ j - x.natAbs * M) ≤ x.natAbs * M) :
    toInt (mul (ofInt x) ⟨false, M, -(j : Int)⟩) = if x < 0 then -(T : Int) else (T : Int) := by
  obtain ⟨e, he, hx⟩ := ofInt_exact x h0 hlt
  have hn : 0 < x.natAbs := Int.natAbs_pos.mpr h0
  rw [hx]
  unfold mul
  simp only [Bool.bne_false]
  have k1 : (e + -(j : Int)).toNat = 0 := by omega
  have k2 : (-(e + -(j : Int))).toNat = (-e).toNat + j := by omega
  simp only [shl_eq, k1, k2, pow_zero, mul_one, one_mul, pow_add]
  generalize hP : 2 ^ (-e).toNat = P
  have hPpos : 0 < P := by rw [← hP]; exact pow_pos (by norm_num) _
  generalize x.natAbs = n at *
  have := toInt_round_up (decide (x < 0)) (n * P * M) (P * 2 ^ j) T
    (Nat.mul_pos hPpos (pow_pos (by norm_num) _))
    (Nat.mul_pos (Nat.mul_pos hn hPpos) hM)
    (by calc n * P * M = (n * M) * P := by ring
          _ < (2 ^ 53 * 2 ^ j) * P := Nat.mul_lt_mul_of_pos_right hb hPpos
          _ = 2 ^ 53 * (P * 2 ^ j) := by ring)
    (by calc n * P * M = (n * M) * P := by ring
          _ < (T * 2 ^ j) * P := Nat.mul_lt_mul_of_pos_right hlo hPpos
          _ = T * (P * 2 ^ j) := by ring)
    (by
      have e1 : T * (P * 2 ^ j) - n * P * M = (T * 2 ^ j - n * M) * P := by
        rw [Nat.sub_mul]; congr 1 <;> ring
      rw [e1]
      calc 2 ^ 54 * ((T * 2 ^ j - n * M) * P) = (2 ^ 54 * (T * 2 ^ j - n * M)) * P := by ring
          _ ≤ (n * M) * P := Nat.mul_le_mul_right _ hgap
          _ = n * P * M := by ring)
  rw [this]
  simp

set_option maxRecDepth 20000 in
/-- The `double` nearest to `0.8`. -/
theorem lit_8_10 : lit 8 10 = ⟨false, 7205759403792794, -((53 : Nat) : Int)⟩ := by decide

set_option maxRecDepth 20000 in
/-- The `double` nearest to `0.6`. -/
theorem lit_6_10 : lit 6 10 = ⟨false, 5404319552844595, -((53 : Nat) : Int)⟩ := by decide

set_option maxRecDepth 20000 in
/-- The `double` nearest to `0.4`. -/
theorem lit_4_10 : lit 4 10 = ⟨false, 7205759403792794, -((54 : Nat) : Int)⟩ := by decide

set_option maxRecDepth 20000 in
/-- The `double` nearest to `0.3`. -/
theorem lit_3_10 : lit 3 10 = ⟨false, 5404319552844595, -((54 : Nat) : Int)⟩ := by decide

/-- Truncating division of `x · c` by ten, by sign and magnitude. -/
theorem tdiv_ten (x : Int) (c : Nat) :
    Int.tdiv (x * c) 10 =
      if x < 0 then -((x.natAbs * c / 10 : Nat) : Int) else ((x.natAbs * c / 10 : Nat) : Int) := by
  obtain ⟨n, rfl | rfl⟩ := Int.eq_nat_or_neg x
  · have h1 : ¬ ((n : Int) < 0) := by omega
    simp only [h1, if_false, Int.natAbs_ofNat]
    rw [Int.tdiv_eq_ediv (by positivity) (by norm_num)]
    push_cast
    rfl
  · by_cases hn : n = 0
    · subst hn; simp
    · have h1 : (-(n : Int) < 0) := by omega
      simp only [h1, if_true, Int.natAbs_neg, Int.natAbs_ofNat]
      rw [Int.neg_mul, Int.neg_tdiv, Int.tdiv_eq_ediv (by positivity) (by norm_num)]
      push_cast
      rfl

set_option maxRecDepth 20000 in
/-- In `double` arithmetic `(int)(x * 0.8)` is `x · 8 / 10` truncated, for every 32-bit `x`. -/
theorem toInt_mul_lit_8 (x : Int) (h : x.natAbs < 2 ^ 31) :
    toInt (mul (ofInt x) (lit 8 10)) = Int.tdiv (x * 8) 10 := by
  by_cases h0 : x = 0
  · subst h0; decide
  · have := tdiv_ten x 8
    simp only [Nat.cast_ofNat] at this
    rw [this, lit_8_10]
    exact toInt_mul_ofInt_down x 7205759403792794 53 (x.natAbs * 8 / 10) h0 (by omega) (by norm_num)
      (by omega) (by omega) (by omega)

set_option maxRecDepth 20000 in
/-- In `double` arithmetic `(int)(x * 0.4)` is `x · 4 / 10` truncated, for every 32-bit `x`. -/
theorem toInt_mul_lit_4 (x : Int) (h : x.natAbs < 2 ^ 31) :
    toInt (mul (ofInt x) (lit 4 10)) = Int.tdiv (x * 4) 10 := by
  by_cases h0 : x = 0
  · subst h0; decide
  · have := tdiv_ten x 4
    simp only [Nat.cast_ofNat] at this
    rw [this, lit_4_10]
    exact toInt_mul_ofInt_down x 7205759403792794 54 (x.natAbs * 4 / 10) h0 (by omega) (by norm_num)
      (by omega) (by omega) (by omega)

set_option maxRecDepth 20000 in
/-- In `double` arithmetic `(int)(x * 0.6)` is `x · 6 / 10` truncated, for every 32-bit `x`. -/
theorem toInt_mul_lit_6 (x : Int) (h : x.natAbs < 2 ^ 31) :
    toInt (mul (ofInt x) (lit 6 10)) = Int.tdiv (x * 6) 10 := by
  by_cases h0 : x = 0
  · subst h0; decide
  · have := tdiv_ten x 6
    simp only [Nat.cast_ofNat] at this
    have hn : 0 < x.natAbs := Int.natAbs_pos.mpr h0
    rw [this, lit_6_10]
    by_cases hm : x.natAbs * 6 % 10 = 0
    · exact toInt_mul_ofInt_up x 5404319552844595 53 (x.natAbs * 6 / 10) h0 (by omega) (by norm_num)
        (by norm_num) (by omega) (by omega) (by omega)
    · exact toInt_mul_ofInt_down x 5404319552844595 53 (x.natAbs * 6 / 10) h0 (by omega) (by norm_num)
        (by omega) (by omega) (by omega)

set_option maxRecDepth 20000 in
/-- In `double` arithmetic `(int)(x * 0.3)` is `x · 3 / 10` truncated, for every 32-bit `x`. -/
theorem toInt_mul_lit_3 (x : Int) (h : x.natAbs < 2 ^ 31) :
    toInt (mul (ofInt x) (lit 3 10)) = Int.tdiv (x * 3) 10 := by
  by_cases h0 : x = 0
  · subst h0; decide
  · have := tdiv_ten x 3
    simp only [Nat.cast_ofNat] at this
    have hn : 0 < x.natAbs := Int.natAbs_pos.mpr h0
    rw [this, lit_3_10]
    by_cases hm : x.natAbs * 3 % 10 = 0
    · exact toInt_mul_ofInt_up x 5404319552844595 54 (x.natAbs * 3 / 10) h0 (by omega) (by norm_num)
        (by norm_num) (by omega) (by omega) (by omega)
    · exact toInt_mul_ofInt_down x 5404319552844595 54 (x.natAbs * 3 / 10) h0 (by omega) (by norm_num)
        (by omega) (by omega) (by omega)

end F64

/-! ## Theorems: the tiered correction and its rate limit -/

/-- Inside the correctable range the adjustment computed in `double` arithmetic
is the adjustment of the specification: the tiered fraction of the difference,
truncated toward zero, floored at the signed minimum. -/
theorem syncAdjustment_eq_spec (net : Bool) (timeDiff : Int) (h0 : timeDiff ≠ 0)
    (hlt : |timeDiff| < 2147483648) :
    VideoPlayer.syncAdjustment net timeDiff =
      specAdjustment (VideoPlayer.minSyncAdjustment net) timeDiff := by
  have hn : timeDiff.natAbs < 2 ^ 31 := by
    have : (timeDiff.natAbs : Int) = |timeDiff| := Int.natCast_natAbs timeDiff
    omega
  have hsign : Int.sign timeDiff * VideoPlayer.minSyncAdjustment net =
      if 0 < timeDiff then VideoPlayer.minSyncAdjustment net
      else -VideoPlayer.minSyncAdjustment net := by
    by_cases hp : 0 < timeDiff
    · simp [hp, Int.sign_eq_one_of_pos hp]
    · have hneg : timeDiff < 0 := by omega
      simp [hp, Int.sign_eq_neg_one_of_neg hneg]
  unfold VideoPlayer.syncAdjustment specAdjustment
  simp only [hsign]
  by_cases h1 : 150000 < |timeDiff|
  · simp only [h1, if_true, F64.toInt_mul_lit_8 timeDiff hn]
  · by_cases h2 : 100000 < |timeDiff|
    · simp only [h1, h2, if_true, if_false, F64.toInt_mul_lit_6 timeDiff hn]
    · by_cases h3 : 60000 < |timeDiff|
      · simp only [h1, h2, h3, if_true, if_false, F64.toInt_mul_lit_4 timeDiff hn]
      · simp only [h1, h2, h3, if_false, F64.toInt_mul_lit_3 timeDiff hn]

/-- Claim C15. When `syncAudioVideo` applies a correction (the correction count
moves), the adjustment is `delta · f` truncated toward zero, with `f = 0.8` if
`|delta| > 150 ms`, `0.6` if `|delta| > 100 ms`, `0.4` if `|delta| > 60 ms` and
`0.3` otherwise, replaced by the minimum adjustment (10 ms for a local file,
15 ms for a network stream) carrying the sign of `delta` when its magnitude is
below that minimum; the master clock is set to `videoPosition - adjustment`. -/
theorem C15_tiered_adjustment (s : VideoPlayer) (ap : AudioProcessor) (now : Int)
    (hap : s.m_audioProcessor = some ap)
    (happlied : (s.syncAudioVideo now).m_syncAdjustmentCount ≠ s.m_syncAdjustmentCount) :
    let delta : Int := s.m_currentPosition - ap.getAccurateAudioTime now
    let adjustment : Int := specAdjustment (if s.m_isNetworkStream then 15000 else 10000) delta
    VideoPlayer.syncAdjustment s.m_isNetworkStream delta = adjustment ∧
    (s.syncAudioVideo now).m_audioProcessor =
        some (ap.setMasterClock (s.m_currentPosition - adjustment)) ∧
    (s.syncAudioVideo now).m_audioProcessor.map (fun a => a.m_masterClock) =
        some (s.m_currentPosition - adjustment) := by
  intro delta adjustment
  have hwin : VideoPlayer.syncThreshold s.m_isNetworkStream < |delta| ∧
      |delta| < VideoPlayer.maxSyncAdjustment s.m_isNetworkStream := by
    by_contra hw
    apply happlied
    simp only [VideoPlayer.syncAudioVideo, hap]
    split_ifs <;> rfl
  have hadj : VideoPlayer.syncAdjustment s.m_isNetworkStream delta = adjustment := by
    have h0 : delta ≠ 0 := by
      intro h
      have h1 := hwin.1
      rw [h] at h1
      unfold VideoPlayer.syncThreshold at h1
      split_ifs at h1 <;> simp at h1
    have hlt : |delta| < 2147483648 := by
      have h2 := hwin.2
      unfold VideoPlayer.maxSyncAdjustment at h2
      split_ifs at h2 <;> omega
    rw [syncAdjustment_eq_spec _ _ h0 hlt]
    show specAdjustment _ delta = specAdjustment _ delta
    unfold VideoPlayer.minSyncAdjustment
    rfl
  have hstate : (s.syncAudioVideo now).m_audioProcessor =
      some (ap.setMasterClock (s.m_currentPosition - adjustment)) := by
    rw [← hadj]
    revert happlied
    simp only [VideoPlayer.syncAudioVideo, hap]
    split_ifs <;> simp [delta]
  refine ⟨hadj, hstate, ?_⟩
  rw [hstate]
  rfl

set_option maxRecDepth 20000 in
/-- Claim C15 at a local file with the video 120 ms ahead of the audio clock:
the adjustment is 60 % of 120 ms, 72 ms, and the master clock is set to
1.120 s - 72 ms = 1.048 s. -/
theorem C15_tiered_adjustment_witness :
    ((VideoPlayer.demoSync 1120000 1000000).syncAudioVideo 500).m_syncAdjustmentCount ≠
      (VideoPlayer.demoSync 1120000 1000000).m_syncAdjustmentCount ∧
    VideoPlayer.syncAdjustment false 120000 = 72000 ∧
    ((VideoPlayer.demoSync 1120000 1000000).syncAudioVideo 500).m_audioProcessor.map
        (fun a => a.m_masterClock) = some 1048000 :=
  ⟨by decide,
   (C15_tiered_adjustment (VideoPlayer.demoSync 1120000 1000000) _ 500 rfl (by decide)).1.trans
     (by decide),
   (C15_tiered_adjustment (VideoPlayer.demoSync 1120000 1000000) _ 500 rfl (by decide)).2.2.trans
     (by decide)⟩

/-- The read loop of `decodeFrame` leaves the time of the last correction alone. -/
theorem decodeLoop_lastSyncTime (ctx : FormatContext) (now : Int) (ps : List Packet) :
    ∀ s : VideoPlayer, (s.decodeLoop ctx now ps).1.m_lastSyncTime = s.m_lastSyncTime := by
  induction ps with
  | nil => intro s; simp [VideoPlayer.decodeLoop, VideoPlayer.stop]
  | cons p ps ih =>
    intro s
    unfold VideoPlayer.decodeLoop
    split_ifs
    · exact ih s
    · cases p.videoFrame with
      | none => exact ih s
      | some pts => rfl
    · rw [ih]
    · exact ih s

/-- `performSeek` leaves the time of the last correction alone. -/
theorem performSeek_lastSyncTime (s : VideoPlayer) (position now : Int) (dev : Bool) :
    (s.performSeek position now dev).m_lastSyncTime = s.m_lastSyncTime := by
  unfold VideoPlayer.performSeek
  cases hctx : s.m_formatContext with
  | none => rfl
  | some ctx =>
    cases hidle : s.m_isSeeking with
    | true => simp
    | false =>
      simp only [Bool.false_eq_true, if_false]
      split <;> simp [VideoPlayer.afterReposition]

/-- Every event other than `playVideo` and `syncAudioVideo` leaves the time of
the last correction alone. -/
theorem apply_lastSyncTime (s : VideoPlayer) (e : PlayerEvent)
    (he : e.restartsOrSyncs = false) : (s.apply e).m_lastSyncTime = s.m_lastSyncTime := by
  cases e with
  | play now dev => simp [PlayerEvent.restartsOrSyncs] at he
  | sync now => simp [PlayerEvent.restartsOrSyncs] at he
  | pause => rfl
  | stop =>
    simp only [VideoPlayer.apply, VideoPlayer.stop]
    split <;> rfl
  | tick now =>
    simp only [VideoPlayer.apply, VideoPlayer.updatePosition, VideoPlayer.decodeFrame]
    cases hctx : s.m_formatContext with
    | none => simp
    | some ctx =>
      simp only
      split_ifs
      · rfl
      · rfl
      · exact decodeLoop_lastSyncTime _ _ _ _
  | seekTo position now dev =>
    simp only [VideoPlayer.apply, VideoPlayer.seek]
    split
    · rfl
    · split_ifs
      · rfl
      · rfl
      · exact performSeek_lastSyncTime _ _ _ _
  | debounce dev =>
    simp only [VideoPlayer.apply, VideoPlayer.expireSeekDebounce,
      VideoPlayer.onSeekDebounceTimeout]
    split
    · split_ifs
      · exact performSeek_lastSyncTime _ _ _ _
      · rfl
    · rfl

/-- A sequence of events without `playVideo` and `syncAudioVideo` leaves the
time of the last correction alone. -/
theorem applyAll_lastSyncTime (evs : List PlayerEvent) :
    ∀ s : VideoPlayer, (∀ e ∈ evs, e.restartsOrSyncs = false) →
      (s.applyAll evs).m_lastSyncTime = s.m_lastSyncTime := by
  induction evs with
  | nil => intro s _; rfl
  | cons e evs ih =>
    intro s h
    show ((s.apply e).applyAll evs).m_lastSyncTime = s.m_lastSyncTime
    rw [ih (s.apply e) (fun e' he' => h e' (List.mem_cons_of_mem _ he')),
      apply_lastSyncTime s e (h e (List.mem_cons_self _ _))]

/-- Claim C16, amended. A call of `syncAudioVideo` made less than 100 ms after
the last applied correction changes nothing - neither the master clock nor any
other field - whatever happened in between (pausing, stopping, decode ticks,
seek requests, the expiry of the debounce timer), as long as `playVideo` was
not called in between; `playVideo` on an open source resets the time of the
last correction to 0. -/
theorem C16_rate_limit (s : VideoPlayer) (now later : Int) (evs : List PlayerEvent)
    (happlied : (s.syncAudioVideo now).m_syncAdjustmentCount ≠ s.m_syncAdjustmentCount)
    (hevs : ∀ e ∈ evs, e.restartsOrSyncs = false) (hlt : later - now < 100) :
    ((s.syncAudioVideo now).applyAll evs).syncAudioVideo later =
      (s.syncAudioVideo now).applyAll evs ∧
    ((s.syncAudioVideo now).applyAll evs).m_lastSyncTime = now ∧
    (∀ (t : VideoPlayer) (restart : Int) (dev : Bool), t.m_formatContext.isSome = true →
      (t.playVideo restart dev).m_lastSyncTime = 0) := by
  have h1 : (s.syncAudioVideo now).m_lastSyncTime = now := by
    revert happlied
    cases hap : s.m_audioProcessor with
    | none => simp [VideoPlayer.syncAudioVideo, hap]
    | some ap =>
      simp only [VideoPlayer.syncAudioVideo, hap]
      split_ifs <;> simp
  have h2 := applyAll_lastSyncTime evs (s.syncAudioVideo now) hevs
  rw [h1] at h2
  refine ⟨?_, h2, ?_⟩
  · generalize (s.syncAudioVideo now).applyAll evs = s2 at h2
    cases hap : s2.m_audioProcessor with
    | none => simp [VideoPlayer.syncAudioVideo, hap]
    | some ap =>
      simp only [VideoPlayer.syncAudioVideo, hap, h2, hlt, if_true]
      split_ifs <;> rfl
  · intro t restart dev hopen
    unfold VideoPlayer.playVideo
    cases hctx : t.m_formatContext with
    | none => simp [hctx] at hopen
    | some ctx => rfl

set_option maxRecDepth 20000 in
/-- Claim C16 at a playing player corrected at time 1000 (master clock
1.035 s), after a decode tick at time 1010 that moves the video position to
1.06 s, 60 ms ahead of the audio time: the player is playing and the
difference lies inside the correction window, and still the sync call at time
1099 leaves the master clock alone; the same call at time 1100 moves it to
1.042 s. -/
theorem C16_rate_limit_witness :
    ((VideoPlayer.demoDrift.syncAudioVideo 1000).m_syncAdjustmentCount ≠
      VideoPlayer.demoDrift.m_syncAdjustmentCount) ∧
    ((VideoPlayer.demoDrift.syncAudioVideo 1000).applyAll
      [PlayerEvent.tick 1010]).m_isPlaying = true ∧
    ((VideoPlayer.demoDrift.syncAudioVideo 1000).applyAll
      [PlayerEvent.tick 1010]).m_currentPosition = 1060000 ∧
    ((VideoPlayer.demoDrift.syncAudioVideo 1000).applyAll
      [PlayerEvent.tick 1010]).m_audioProcessor.map
        (fun a => (a.getAccurateAudioTime 1099, a.m_masterClock)) = some (1000000, 1035000) ∧
    (((VideoPlayer.demoDrift.syncAudioVideo 1000).applyAll
        [PlayerEvent.tick 1010]).syncAudioVideo 1099).m_audioProcessor =
      ((VideoPlayer.demoDrift.syncAudioVideo 1000).applyAll
        [PlayerEvent.tick 1010]).m_audioProcessor ∧
    (((VideoPlayer.demoDrift.syncAudioVideo 1000).applyAll
        [PlayerEvent.tick 1010]).syncAudioVideo 1100).m_audioProcessor.map
          (fun a => a.m_masterClock) = some 1042000 :=
  ⟨by decide, by decide, by decide, by decide,
   congrArg (fun p => p.m_audioProcessor)
     (C16_rate_limit VideoPlayer.demoDrift 1000 1099 [PlayerEvent.tick 1010]
       (by decide) (by decide) (by decide)).1,
   by decide⟩

set_option maxRecDepth 20000 in
/-- Claim C16 as stated fails: a correction is applied at time 1000 (master
clock 1.035 s); the player is paused and restarted at time 1010, a decode tick
at time 1020 moves the video position to 1.06 s, and the sync call at time
1030, 30 ms after the correction, applies another one: the master clock moves
to 1.042 s. -/
theorem C16_counterexample :
    (VideoPlayer.demoDrift.syncAudioVideo 1000).m_syncAdjustmentCount =
      VideoPlayer.demoDrift.m_syncAdjustmentCount + 1 ∧
    (1030 : Int) - 1000 < 100 ∧
    (VideoPlayer.demoDrift.applyAll
      [PlayerEvent.sync 1000, PlayerEvent.pause, PlayerEvent.play 1010 true,
       PlayerEvent.tick 1020]).m_audioProcessor.map (fun a => a.m_masterClock) = some 1035000 ∧
    (VideoPlayer.demoDrift.applyAll
      [PlayerEvent.sync 1000, PlayerEvent.pause, PlayerEvent.play 1010 true,
       PlayerEvent.tick 1020, PlayerEvent.sync 1030]).m_audioProcessor.map
        (fun a => a.m_masterClock) = some 1042000 := by
  decide

/-! ## Theorems: the last step of the worker -/

/-- Claim C17 fails after the last check: the time-out fires (setting the
cancellation flag) when the worker has passed its third check and is about to
set up the decoders; the worker finishes the set-up, sets `Ready` and emits
`streamReady`, after the time-out has emitted `loadingFailed`. -/
theorem C17_flag_after_last_check :
    (NetworkStreamLoader.demoSession.run
      [NetworkStreamLoader.Event.worker, NetworkStreamLoader.Event.worker,
       NetworkStreamLoader.Event.worker, NetworkStreamLoader.Event.worker,
       NetworkStreamLoader.Event.worker, NetworkStreamLoader.Event.worker]).1.worker =
      WorkerPc.codecs ∧
    (NetworkStreamLoader.demoSession.run
      [NetworkStreamLoader.Event.worker, NetworkStreamLoader.Event.worker,
       NetworkStreamLoader.Event.worker, NetworkStreamLoader.Event.worker,
       NetworkStreamLoader.Event.worker, NetworkStreamLoader.Event.worker,
       NetworkStreamLoader.Event.timeout]).1.m_shouldCancel = true ∧
    (NetworkStreamLoader.demoSession.run
      [NetworkStreamLoader.Event.worker, NetworkStreamLoader.Event.worker,
       NetworkStreamLoader.Event.worker, NetworkStreamLoader.Event.worker,
       NetworkStreamLoader.Event.worker, NetworkStreamLoader.Event.worker,
       NetworkStreamLoader.Event.timeout, NetworkStreamLoader.Event.worker,
       NetworkStreamLoader.Event.worker]) =
      ((NetworkStreamLoader.demoSession.run
        [NetworkStreamLoader.Event.worker, NetworkStreamLoader.Event.worker,
         NetworkStreamLoader.Event.worker, NetworkStreamLoader.Event.worker,
         NetworkStreamLoader.Event.worker, NetworkStreamLoader.Event.worker,
         NetworkStreamLoader.Event.timeout, NetworkStreamLoader.Event.worker,
         NetworkStreamLoader.Event.worker]).1,
       [LoaderSignal.loadingProgress 10, LoaderSignal.loadingProgress 40,
        LoaderSignal.statusChanged LoadingStatus.LoadingStreamInfo,
        LoaderSignal.statusChanged LoadingStatus.Timeout, LoaderSignal.loadingFailed,
        LoaderSignal.loadingProgress 70, LoaderSignal.loadingProgress 100,
        LoaderSignal.statusChanged LoadingStatus.Ready, LoaderSignal.streamReady]) ∧
    (NetworkStreamLoader.demoSession.run
      [NetworkStreamLoader.Event.worker, NetworkStreamLoader.Event.worker,
       NetworkStreamLoader.Event.worker, NetworkStreamLoader.Event.worker,
       NetworkStreamLoader.Event.worker, NetworkStreamLoader.Event.worker,
       NetworkStreamLoader.Event.timeout, NetworkStreamLoader.Event.worker,
       NetworkStreamLoader.Event.worker]).1.m_status = LoadingStatus.Ready := by
  decide

/-! ## Theorems: the timer interval and the seek strategy -/

set_option maxRecDepth 20000 in
/-- Claim C18 fails in `performSeek`: at 240 frames per second `playVideo` starts
the decode timer with max(8, 4) = 8 ms, but `performSeek`, resuming the
schedule of a playing player, restarts it with 1000 / 240 truncated, 4 ms. -/
theorem C18_seek_restarts_below_floor :
    VideoPlayer.demoFast.m_isPlaying = true ∧
    (VideoPlayer.demoFast.playVideo 0 true).m_timer = some 8 ∧
    (VideoPlayer.demoFast.performSeek 10 0 true).m_timer = some 4 := by
  decide

/-- Claim C19, amended. `performSeek` measures the distance in whole seconds,
the current position truncated to whole seconds first, in 32-bit `int`
arithmetic.  Whenever the current position in whole seconds fits an `int` and
the distance `|target - trunc(currentPosition / 1 s)|` is at most 2147483647,
it uses the direct seek (flags 0) exactly when that distance is at most 15 and
the backward keyframe seek exactly when it is more than 15; when the current
position is a whole number of seconds this is the distance between target and
current position. -/
theorem C19_seek_strategy (t cur : Int)
    (hfit : -2147483648 ≤ Int.tdiv cur 1000000 ∧ Int.tdiv cur 1000000 ≤ 2147483647)
    (hdist : |t - Int.tdiv cur 1000000| ≤ 2147483647) :
    (VideoPlayer.seekFlags t cur = 0 ↔ |t - Int.tdiv cur 1000000| ≤ 15) ∧
    (VideoPlayer.seekFlags t cur = AVSEEK_FLAG_BACKWARD ↔ 15 < |t - Int.tdiv cur 1000000|) ∧
    (cur % 1000000 = 0 →
      (VideoPlayer.seekFlags t cur = 0 ↔ |t * 1000000 - cur| ≤ 15000000)) := by
  have h32 : toInt32 (Int.tdiv cur AV_TIME_BASE) = Int.tdiv cur 1000000 := by
    unfold toInt32 AV_TIME_BASE
    omega
  have hd := abs_le.mp hdist
  have hsub : toInt32 (t - Int.tdiv cur 1000000) = t - Int.tdiv cur 1000000 := by
    unfold toInt32
    omega
  have habs : toInt32 |t - Int.tdiv cur 1000000| = |t - Int.tdiv cur 1000000| := by
    have h0 := abs_nonneg (t - Int.tdiv cur 1000000)
    unfold toInt32
    omega
  have hflags : VideoPlayer.seekFlags t cur =
      if |t - Int.tdiv cur 1000000| ≤ 15 then 0 else AVSEEK_FLAG_BACKWARD := by
    unfold VideoPlayer.seekFlags
    simp only [h32, hsub, habs]
  have h1 : (VideoPlayer.seekFlags t cur = 0 ↔ |t - Int.tdiv cur 1000000| ≤ 15) := by
    rw [hflags]
    unfold AVSEEK_FLAG_BACKWARD
    split_ifs with h <;> simp [h]
  refine ⟨h1, ?_, ?_⟩
  · rw [hflags]
    unfold AVSEEK_FLAG_BACKWARD
    split_ifs with h <;> simp [h]
    omega
  · intro hmod
    rw [h1]
    obtain ⟨c, rfl⟩ : ∃ c, cur = 1000000 * c := ⟨cur / 1000000, by omega⟩
    have : Int.tdiv (1000000 * c) 1000000 = c := by
      rw [Int.mul_comm]
      exact Int.mul_tdiv_cancel c (by norm_num)
    rw [this]
    constructor
    · intro h
      have := abs_le.mp h
      apply abs_le.mpr
      constructor <;> omega
    · intro h
      have := abs_le.mp h
      apply abs_le.mpr
      constructor <;> omega

/-- Claim C19 at a player at 30 s: a target of 40 s is reached by a direct seek,
a target of 50 s by a backward keyframe seek. -/
theorem C19_seek_strategy_witness :
    VideoPlayer.seekFlags 40 30000000 = 0 ∧
    VideoPlayer.seekFlags 50 30000000 = AVSEEK_FLAG_BACKWARD :=
  ⟨(C19_seek_strategy 40 30000000 (by decide) (by decide)).1.mpr (by decide),
   (C19_seek_strategy 50 30000000 (by decide) (by decide)).2.1.mpr (by decide)⟩

/-- Claim C19 as stated fails: with the current position at 30.9 s and the
target at 15 s the distance is 15.9 s, more than 15 s, and `performSeek` still
uses the direct seek, because it compares whole seconds (30 - 15 = 15). -/
theorem C19_counterexample :
    (15000000 : Int) < |15 * 1000000 - 30900000| ∧ VideoPlayer.seekFlags 15 30900000 = 0 := by
  decide

/-- At the far end of the `int` range the distance wraps: from a current
position of -2147483648 s a target of 0 s is 2147483648 s away and reached by
the direct seek. -/
theorem seekFlags_wraps : VideoPlayer.seekFlags 0 (-2147483648000000) = 0 := by
  decide

/-! ## Theorems: the decode tick -/

/-- The packets handed to the audio engine do not depend on the audio engine. -/
theorem forwardedAudio_congr (s : VideoPlayer) (ap : Option AudioProcessor)
    (packets : List Packet) :
    VideoPlayer.forwardedAudio { s with m_audioProcessor := ap } packets =
      s.forwardedAudio packets := rfl

/-- A packet that is not forwarded does not count. -/
theorem forwardedAudio_cons_skip (s : VideoPlayer) (q : Packet) (packets : List Packet)
    (h : ¬ (q.stream_index ≠ s.m_videoStreamIndex ∧ q.stream_index = s.m_audioStreamIndex ∧
      s.m_audioCodecContext = true ∧ s.m_isPlaying = true)) :
    s.forwardedAudio (q :: packets) = s.forwardedAudio packets := by
  unfold VideoPlayer.forwardedAudio
  by_cases hc : s.m_audioCodecContext = true ∧ s.m_isPlaying = true
  · have hq : (decide (q.stream_index ≠ s.m_videoStreamIndex) &&
        decide (q.stream_index = s.m_audioStreamIndex)) = false := by
      by_contra hne
      simp only [Bool.not_eq_false, Bool.and_eq_true, decide_eq_true_eq] at hne
      exact h ⟨hne.1, hne.2, hc.1, hc.2⟩
    simp only [hc, and_self, if_true, List.filter_cons, hq]
    rfl
  · simp only [hc, if_false]

/-- A packet that is forwarded comes first. -/
theorem forwardedAudio_cons_take (s : VideoPlayer) (q : Packet) (packets : List Packet)
    (h : q.stream_index ≠ s.m_videoStreamIndex ∧ q.stream_index = s.m_audioStreamIndex ∧
      s.m_audioCodecContext = true ∧ s.m_isPlaying = true) :
    s.forwardedAudio (q :: packets) = ⟨q.sendOk, q.audioFrames⟩ :: s.forwardedAudio packets := by
  unfold VideoPlayer.forwardedAudio
  have hq : (decide (q.stream_index ≠ s.m_videoStreamIndex) &&
      decide (q.stream_index = s.m_audioStreamIndex)) = true := by
    simp only [Bool.and_eq_true, decide_eq_true_eq]
    exact ⟨h.1, h.2.1⟩
  simp only [h.2.2.1, h.2.2.2, and_self, if_true, List.filter_cons, hq, List.map_cons]

/-- The read loop of `decodeFrame` over packets none of which yields a video
frame: it hands the audio packets to the audio engine and goes on with the rest. -/
theorem decodeLoop_append (ctx : FormatContext) (now : Int) (rest : List Packet) :
    ∀ (pre : List Packet) (s : VideoPlayer),
      (∀ q ∈ pre, q.decodes s.m_videoStreamIndex = false) →
      s.decodeLoop ctx now (pre ++ rest) = (s.afterForwarding pre now).decodeLoop ctx now rest := by
  intro pre
  induction pre with
  | nil =>
    intro s _
    have : s.afterForwarding [] now = s := by
      have hf : s.forwardedAudio [] = [] := by
        unfold VideoPlayer.forwardedAudio
        split_ifs <;> rfl
      unfold VideoPlayer.afterForwarding
      rw [hf]
      cases hap : s.m_audioProcessor <;> simp <;> rw [← hap]
    rw [this]
    rfl
  | cons q pre ih =>
    intro s hpre
    have hq := hpre q (List.mem_cons_self _ _)
    have hrest : ∀ q' ∈ pre, q'.decodes s.m_videoStreamIndex = false :=
      fun q' h' => hpre q' (List.mem_cons_of_mem _ h')
    have hskip : q.stream_index = s.m_videoStreamIndex →
        s.afterForwarding (q :: pre) now = s.afterForwarding pre now := by
      intro hv
      unfold VideoPlayer.afterForwarding
      rw [forwardedAudio_cons_skip s q pre (fun h => h.1 hv)]
    rw [List.cons_append, VideoPlayer.decodeLoop]
    by_cases hv : q.stream_index = s.m_videoStreamIndex
    · rw [if_pos hv, hskip hv]
      by_cases hsend : q.sendOk = true
      · simp only [hsend, Bool.not_true, Bool.false_eq_true, if_false]
        cases hf : q.videoFrame with
        | none => exact ih s hrest
        | some pts => simp [Packet.decodes, hv, hsend, hf] at hq
      · simp only [hsend, Bool.not_false, if_true]
        exact ih s hrest
    · rw [if_neg hv]
      by_cases ha : q.stream_index = s.m_audioStreamIndex ∧ s.m_audioCodecContext = true ∧
          s.m_isPlaying = true
      · rw [if_pos ha]
        refine (ih _ ?_).trans ?_
        · exact hrest
        congr 1
        unfold VideoPlayer.afterForwarding
        rw [forwardedAudio_cons_take s q pre ⟨hv, ha⟩, forwardedAudio_congr]
        cases hap : s.m_audioProcessor <;> simp
      · rw [if_neg ha, ih s hrest]
        congr 1
        unfold VideoPlayer.afterForwarding
        rw [forwardedAudio_cons_skip s q pre (fun h => ha h.2)]

/-- Claim C20. On an open source with a video decoder, one decode tick
(`decodeFrame`) consumes the packets up to and including the first video
packet that yields a decoded frame - skipping the video packets that fail to
decode and handing the audio packets to the audio engine - displays exactly
that one frame and returns true, with the frame count raised by one and the
position set from the PTS of the frame; if the packets run out before any
video frame decodes it returns false without displaying a frame and leaves the
engine stopped (`isPlaying = false`, `isPaused = false`, timer stopped) with
`currentPosition = 0`. -/
theorem C20_decode_tick (s : VideoPlayer) (ctx : FormatContext) (now : Int)
    (hctx : s.m_formatContext = some ctx) (hcodec : s.m_videoCodecContext = true) :
    (∀ (pre rest : List Packet) (p : Packet) (pts : Int),
      ctx.packets = pre ++ p :: rest →
      (∀ q ∈ pre, q.decodes s.m_videoStreamIndex = false) →
      p.stream_index = s.m_videoStreamIndex → p.sendOk = true → p.videoFrame = some pts →
      (s.decodeFrame now).2.1 = true ∧
      (s.decodeFrame now).2.2 = [pts] ∧
      (s.decodeFrame now).1.m_formatContext.map (fun c => c.packets) = some rest ∧
      (s.decodeFrame now).1.m_audioProcessor = (s.afterForwarding pre now).m_audioProcessor ∧
      (s.decodeFrame now).1.m_frameCount = s.m_frameCount + 1 ∧
      (s.decodeFrame now).1.m_currentPosition =
        (if pts ≠ AV_NOPTS_VALUE then
          av_rescale_q pts (ctx.time_base s.m_videoStreamIndex) AV_TIME_BASE_Q
         else s.m_currentPosition) ∧
      (s.decodeFrame now).1.m_isPlaying = s.m_isPlaying) ∧
    ((∀ q ∈ ctx.packets, q.decodes s.m_videoStreamIndex = false) →
      (s.decodeFrame now).2.1 = false ∧
      (s.decodeFrame now).2.2 = [] ∧
      (s.decodeFrame now).1.m_isPlaying = false ∧
      (s.decodeFrame now).1.m_isPaused = false ∧
      (s.decodeFrame now).1.m_timer = none ∧
      (s.decodeFrame now).1.m_currentPosition = 0 ∧
      (s.decodeFrame now).1.m_audioProcessor =
        (s.afterForwarding ctx.packets now).m_audioProcessor.map AudioProcessor.stop) := by
  have hdf : s.decodeFrame now = s.decodeLoop ctx now ctx.packets := by
    unfold VideoPlayer.decodeFrame
    simp [hctx, hcodec]
  constructor
  · intro pre rest p pts hpk hpre hidx hsend hframe
    have hidx2 : p.stream_index = (s.afterForwarding pre now).m_videoStreamIndex := hidx
    rw [hdf, hpk, decodeLoop_append ctx now (p :: rest) pre s hpre, VideoPlayer.decodeLoop,
      if_pos hidx2]
    simp only [hsend, hframe, Bool.not_true, Bool.false_eq_true, if_false]
    refine ⟨?_, ?_, ?_, ?_, ?_, ?_, ?_⟩ <;> trivial
  · intro hall
    have := decodeLoop_append ctx now [] ctx.packets s hall
    rw [List.append_nil] at this
    rw [hdf, this, VideoPlayer.decodeLoop]
    simp [VideoPlayer.stop]

/-- Claim C20 at a player at the head of an audio packet, two video packets
that do not decode and a video packet with a frame at 2 s: the tick returns
true, displays that frame, leaves the fifth packet unread and sets the
position to 2 s; with only an audio packet left the tick returns false and
the player is stopped at position 0. -/
theorem C20_decode_tick_witness :
    (VideoPlayer.demoDecode.decodeFrame 1000).2.1 = true ∧
    (VideoPlayer.demoDecode.decodeFrame 1000).2.2 = [2000] ∧
    (VideoPlayer.demoDecode.decodeFrame 1000).1.m_formatContext.map (fun c => c.packets) =
      some [⟨0, true, some 2040, []⟩] ∧
    (VideoPlayer.demoDecode.decodeFrame 1000).1.m_currentPosition = 2000000 ∧
    (VideoPlayer.demoEnding.decodeFrame 1000).2.1 = false ∧
    (VideoPlayer.demoEnding.decodeFrame 1000).1.m_isPlaying = false ∧
    (VideoPlayer.demoEnding.decodeFrame 1000).1.m_currentPosition = 0 :=
  ⟨((C20_decode_tick VideoPlayer.demoDecode _ 1000 rfl rfl).1
      [⟨1, true, none, (AudioPacket.single 48000).frames⟩, ⟨0, false, some 1000, []⟩,
        ⟨0, true, none, []⟩]
      [⟨0, true, some 2040, []⟩] ⟨0, true, some 2000, []⟩ 2000 rfl (by decide) rfl rfl rfl).1,
   ((C20_decode_tick VideoPlayer.demoDecode _ 1000 rfl rfl).1
      [⟨1, true, none, (AudioPacket.single 48000).frames⟩, ⟨0, false, some 1000, []⟩,
        ⟨0, true, none, []⟩]
      [⟨0, true, some 2040, []⟩] ⟨0, true, some 2000, []⟩ 2000 rfl (by decide) rfl rfl rfl).2.1,
   ((C20_decode_tick VideoPlayer.demoDecode _ 1000 rfl rfl).1
      [⟨1, true, none, (AudioPacket.single 48000).frames⟩, ⟨0, false, some 1000, []⟩,
        ⟨0, true, none, []⟩]
      [⟨0, true, some 2040, []⟩] ⟨0, true, some 2000, []⟩ 2000 rfl (by decide) rfl rfl rfl).2.2.1,
   (((C20_decode_tick VideoPlayer.demoDecode _ 1000 rfl rfl).1
      [⟨1, true, none, (AudioPacket.single 48000).frames⟩, ⟨0, false, some 1000, []⟩,
        ⟨0, true, none, []⟩]
      [⟨0, true, some 2040, []⟩] ⟨0, true, some 2000, []⟩ 2000 rfl (by decide) rfl rfl
        rfl).2.2.2.2.2.1).trans (by decide),
   ((C20_decode_tick VideoPlayer.demoEnding _ 1000 rfl rfl).2 (by decide)).1,
   ((C20_decode_tick VideoPlayer.demoEnding _ 1000 rfl rfl).2 (by decide)).2.2.1,
   ((C20_decode_tick VideoPlayer.demoEnding _ 1000 rfl rfl).2 (by decide)).2.2.2.2.2.1⟩

/-! ## Theorems: the stability flag -/

namespace F64

/-- A ratio that is an integer below `2^53` is represented exactly: the
mantissa is the integer scaled by a power of two and the exponent undoes the
scaling. -/
theorem round_exact (neg : Bool) (N d : Nat) (hN : 0 < N) (hlt : N < 2 ^ 53) (hd : 0 < d) :
    ∃ e : Int, e ≤ 0 ∧ round neg (N * d) d = ⟨neg, N * 2 ^ (-e).toNat, e⟩ := by
  have hn : 0 < N * d := Nat.mul_pos hN hd
  have he := round_exp_nonpos (N * d) d hn hd (Nat.mul_lt_mul_of_pos_right hlt hd)
  have hn0 : ¬ (N * d = 0 ∨ d = 0) := by omega
  refine ⟨floorLog2Ratio (N * d) d - 52, he, ?_⟩
  unfold round
  simp only [hn0, if_false]
  generalize floorLog2Ratio (N * d) d - 52 = e at *
  have e1 : e.toNat = 0 := by omega
  simp only [shl_eq, e1, pow_zero, mul_one]
  have hq : N * d * 2 ^ (-e).toNat = (N * 2 ^ (-e).toNat) * d := by ring
  rw [hq, Nat.mul_div_cancel _ hd, Nat.mul_mod_left]
  simp
  omega

/-- The product of two exactly represented integers is represented exactly
when it is below `2^53`. -/
theorem mul_exact (na nb : Bool) (A B : Nat) (ea eb : Int) (hea : ea ≤ 0) (heb : eb ≤ 0)
    (hA : 0 < A) (hB : 0 < B) (hlt : A * B < 2 ^ 53) :
    ∃ e : Int, e ≤ 0 ∧
      mul ⟨na, A * 2 ^ (-ea).toNat, ea⟩ ⟨nb, B * 2 ^ (-eb).toNat, eb⟩ =
        ⟨na != nb, (A * B) * 2 ^ (-e).toNat, e⟩ := by
  unfold mul
  have k1 : (ea + eb).toNat = 0 := by omega
  have k2 : (-(ea + eb)).toNat = (-ea).toNat + (-eb).toNat := by omega
  simp only [shl_eq, k1, k2, pow_zero, mul_one, one_mul, pow_add]
  have hd : 0 < 2 ^ (-ea).toNat * 2 ^ (-eb).toNat :=
    Nat.mul_pos (pow_pos (by norm_num) _) (pow_pos (by norm_num) _)
  have hn : A * 2 ^ (-ea).toNat * (B * 2 ^ (-eb).toNat) =
      (A * B) * (2 ^ (-ea).toNat * 2 ^ (-eb).toNat) := by ring
  rw [hn]
  exact round_exact _ (A * B) _ (Nat.mul_pos hA hB) hlt hd

/-- The quotient of two exactly represented integers, the dividend below
`2^53`, truncated: the integer quotient, with the sign of the operands. -/
theorem toInt_div_exact (na nb : Bool) (A B : Nat) (ea eb : Int) (hea : ea ≤ 0) (heb : eb ≤ 0)
    (hA : A < 2 ^ 53) (hB : 0 < B) :
    toInt (div ⟨na, A * 2 ^ (-ea).toNat, ea⟩ ⟨nb, B * 2 ^ (-eb).toNat, eb⟩) =
      if (na != nb) = true then -((A / B : Nat) : Int) else ((A / B : Nat) : Int) := by
  unfold div
  simp only [shl_eq]
  obtain ⟨C, hC, h1, h2⟩ : ∃ C : Nat, 0 < C ∧
      A * 2 ^ (-ea).toNat * 2 ^ (ea - eb).toNat = A * C ∧
      B * 2 ^ (-eb).toNat * 2 ^ (-(ea - eb)).toNat = B * C := by
    by_cases hk : eb ≤ ea
    · refine ⟨2 ^ (-eb).toNat, pow_pos (by norm_num) _, ?_, ?_⟩
      · have : (-eb).toNat = (-ea).toNat + (ea - eb).toNat := by omega
        rw [this, pow_add]; ring
      · have : (-(ea - eb)).toNat = 0 := by omega
        rw [this]; simp
    · refine ⟨2 ^ (-ea).toNat, pow_pos (by norm_num) _, ?_, ?_⟩
      · have : (ea - eb).toNat = 0 := by omega
        rw [this]; simp
      · have : (-ea).toNat = (-eb).toNat + (-(ea - eb)).toNat := by omega
        rw [this, pow_add]; ring
  rw [h1, h2]
  have hdiv := Nat.div_add_mod A B
  have hmod := Nat.mod_lt A hB
  have hlo : A / B * B ≤ A := Nat.div_mul_le_self A B
  have hhi : A < (A / B + 1) * B := by
    rw [Nat.add_mul, Nat.one_mul, Nat.mul_comm]
    omega
  have := toInt_round_down (na != nb) (A * C) (B * C) (A / B) (Nat.mul_pos hB hC)
    (by calc A / B * (B * C) = (A / B * B) * C := by ring
          _ ≤ A * C := Nat.mul_le_mul_right _ hlo)
    (by calc A * C < ((A / B + 1) * B) * C := Nat.mul_lt_mul_of_pos_right hhi hC
          _ = (A / B + 1) * (B * C) := by ring)
    (by
      obtain ⟨G, hG⟩ : ∃ G, (A / B + 1) * B = A + G := ⟨(A / B + 1) * B - A, by omega⟩
      have hGpos : 0 < G := by omega
      have e1 : (A / B + 1) * (B * C) - A * C = G * C := by
        have : (A / B + 1) * (B * C) = A * C + G * C := by
          calc (A / B + 1) * (B * C) = ((A / B + 1) * B) * C := by ring
            _ = (A + G) * C := by rw [hG]
            _ = A * C + G * C := by ring
        omega
      rw [e1]
      calc A * C < 2 ^ 53 * C := Nat.mul_lt_mul_of_pos_right hA hC
        _ ≤ 2 ^ 53 * (G * C) := by
          apply Nat.mul_le_mul_left
          exact Nat.le_mul_of_pos_left C hGpos)
  rw [this]

end F64

/-- The mean `(3·old + calculated) / 4`, truncated, lies between the two values. -/
theorem tdiv_four_between (o c : Int) :
    min o c ≤ Int.tdiv (o * 3 + c) 4 ∧ Int.tdiv (o * 3 + c) 4 ≤ max o c := by
  by_cases h : 0 ≤ o * 3 + c
  · rw [Int.tdiv_eq_ediv h (by norm_num)]
    constructor
    · rcases le_total o c with h1 | h1
      · rw [min_eq_left h1]; omega
      · rw [min_eq_right h1]; omega
    · rcases le_total o c with h1 | h1
      · rw [max_eq_right h1]; omega
      · rw [max_eq_left h1]; omega
  · have h2 : o * 3 + c = -(-(o * 3 + c)) := by ring
    rw [h2, Int.neg_tdiv, Int.tdiv_eq_ediv (by omega) (by norm_num)]
    constructor
    · rcases le_total o c with h1 | h1
      · rw [min_eq_left h1]; omega
      · rw [min_eq_right h1]; omega
    · rcases le_total o c with h1 | h1
      · rw [max_eq_right h1]; omega
      · rw [max_eq_left h1]; omega

/-- The latency computed from the buffer size in `double` arithmetic is the
integer quotient `bufferSize · 1000000 / byteRate`, truncated toward zero. -/
theorem calculatedLatency_eq (bufferSize byteRate : Int) (hb : |bufferSize| < 2147483648)
    (hr0 : 0 < byteRate) (hr : byteRate < 2147483648) :
    F64.toInt (F64.div (F64.mul (F64.ofInt bufferSize) (F64.lit 1000000 1))
      (F64.ofInt byteRate)) = Int.tdiv (bufferSize * 1000000) byteRate := by
  have hrn : byteRate.natAbs < 2 ^ 53 := by omega
  have hr1 : byteRate ≠ 0 := by omega
  have hrneg : decide (byteRate < 0) = false := by simp; omega
  obtain ⟨er, her, hrx⟩ := F64.ofInt_exact byteRate hr1 hrn
  rw [hrneg] at hrx
  by_cases h0 : bufferSize = 0
  · subst h0
    rw [hrx]
    simp [F64.ofInt, F64.round, F64.mul, F64.div, F64.toInt, F64.shl_eq]
  · have hbn : bufferSize.natAbs < 2 ^ 31 := by
      have : (bufferSize.natAbs : Int) = |bufferSize| := Int.natCast_natAbs bufferSize
      omega
    obtain ⟨eb, heb, hbx⟩ := F64.ofInt_exact bufferSize h0 (by omega)
    obtain ⟨el, hel, hlx⟩ := F64.round_exact false 1000000 1 (by norm_num) (by norm_num)
      (by norm_num)
    have hlit : F64.lit 1000000 1 = ⟨false, 1000000 * 2 ^ (-el).toNat, el⟩ := by
      unfold F64.lit
      simpa using hlx
    have hpos : 0 < bufferSize.natAbs := Int.natAbs_pos.mpr h0
    obtain ⟨em, hem, hmx⟩ := F64.mul_exact (decide (bufferSize < 0)) false bufferSize.natAbs
      1000000 eb el heb hel hpos (by norm_num) (by omega)
    rw [hbx, hlit, hmx, hrx, F64.toInt_div_exact _ _ _ _ _ _ hem her (by omega)
      (Int.natAbs_pos.mpr hr1)]
    simp only [Bool.bne_false]
    rcases lt_or_gt_of_ne h0 with hneg | hpos2
    · have e1 : bufferSize * 1000000 = -((-bufferSize) * 1000000) := by ring
      rw [e1, Int.neg_tdiv, Int.tdiv_eq_ediv (by omega) (le_of_lt hr0)]
      simp only [hneg, decide_True, if_true, Bool.true_bne, Bool.not_false]
      push_cast
      rw [abs_of_neg hneg, abs_of_pos hr0]
    · have hd : decide (bufferSize < 0) = false := by simp; omega
      rw [Int.tdiv_eq_ediv (by omega) (le_of_lt hr0), hd]
      simp only [Bool.false_eq_true, if_false]
      push_cast
      rw [abs_of_pos hpos2, abs_of_pos hr0]

/-- Claim C22. With an output sink present and `byteRate = sampleRate ·
channels · 2 > 0` (buffer size and byte rate are `int`s), the latency estimate
becomes `(3 · old + calculated) / 4` with `calculated = bufferBytes · 1000000 /
byteRate`, both truncated to integers, and so lies between the old estimate
and the calculated value inclusive; without a sink or with `byteRate ≤ 0` the
estimate is left unchanged.  A clock update with a valid PTS ends with exactly
this step, one without a valid PTS leaves the estimate alone. -/
theorem C22_latency_smoothing (a : AudioProcessor) :
    let byteRate : Int := a.sampleRate * a.channelCount * 2
    (∀ bufferSize : Int, a.m_audioSink = some bufferSize → |bufferSize| < 2147483648 →
      0 < byteRate → byteRate < 2147483648 →
      a.adjustDeviceLatency.m_deviceLatency =
        Int.tdiv (a.m_deviceLatency * 3 + Int.tdiv (bufferSize * 1000000) byteRate) 4 ∧
      min a.m_deviceLatency (Int.tdiv (bufferSize * 1000000) byteRate) ≤
        a.adjustDeviceLatency.m_deviceLatency ∧
      a.adjustDeviceLatency.m_deviceLatency ≤
        max a.m_deviceLatency (Int.tdiv (bufferSize * 1000000) byteRate)) ∧
    (a.m_audioSink = none ∨ byteRate ≤ 0 → a.adjustDeviceLatency = a) ∧
    (∀ pts n now : Int, pts ≠ AV_NOPTS_VALUE →
      (a.updateAudioClock pts n now).m_deviceLatency = a.adjustDeviceLatency.m_deviceLatency) ∧
    (∀ n now : Int, (a.updateAudioClock AV_NOPTS_VALUE n now).m_deviceLatency =
      a.m_deviceLatency) := by
  intro byteRate
  refine ⟨?_, ?_, ?_, ?_⟩
  · intro bufferSize hsink hb hr0 hr
    have hlat : a.adjustDeviceLatency.m_deviceLatency =
        Int.tdiv (a.m_deviceLatency * 3 + Int.tdiv (bufferSize * 1000000) byteRate) 4 := by
      unfold AudioProcessor.adjustDeviceLatency
      simp only [hsink]
      rw [if_pos hr0]
      simp only
      rw [calculatedLatency_eq bufferSize _ hb hr0 hr]
    rw [hlat]
    exact ⟨rfl, tdiv_four_between _ _⟩
  · intro h
    unfold AudioProcessor.adjustDeviceLatency
    rcases h with h | h
    · simp [h]
    · cases a.m_audioSink with
      | none => rfl
      | some bs =>
        simp only
        rw [if_neg (by omega)]
  · intro pts n now hpts
    have key : ∀ b : AudioProcessor, b.m_audioSink = a.m_audioSink →
        b.sampleRate = a.sampleRate → b.channelCount = a.channelCount →
        b.m_deviceLatency = a.m_deviceLatency →
        b.adjustDeviceLatency.m_deviceLatency = a.adjustDeviceLatency.m_deviceLatency := by
      intro b h1 h2 h3 h4
      unfold AudioProcessor.adjustDeviceLatency
      rw [h1]
      cases a.m_audioSink with
      | none => exact h4
      | some bs =>
        simp only [h2, h3]
        split_ifs
        · simp [h4]
        · exact h4
    unfold AudioProcessor.updateAudioClock
    rw [if_pos hpts]
    simp only
    split_ifs <;> exact key _ rfl rfl rfl rfl
  · intro n now
    unfold AudioProcessor.updateAudioClock
    simp

set_option maxRecDepth 20000 in
/-- Claim C22 at a 44.1 kHz stereo engine with a buffer of 17 640 bytes (100 ms)
and an old estimate of 20 ms: the new estimate is (60 + 100) / 4 = 40 ms. -/
theorem C22_latency_smoothing_witness :
    AudioProcessor.demoBuffered.m_audioSink = some 17640 ∧
    AudioProcessor.demoBuffered.adjustDeviceLatency.m_deviceLatency =
      Int.tdiv (20000 * 3 + Int.tdiv (17640 * 1000000) (44100 * 2 * 2)) 4 ∧
    AudioProcessor.demoBuffered.adjustDeviceLatency.m_deviceLatency = 40000 :=
  ⟨rfl,
   ((C22_latency_smoothing AudioProcessor.demoBuffered).1 17640 rfl (by decide) (by decide)
      (by decide)).1,
   ((C22_latency_smoothing AudioProcessor.demoBuffered).1 17640 rfl (by decide) (by decide)
      (by decide)).1.trans (by decide)⟩

/-! ## Theorems: negative durations, the master clock, pending seeks, closing -/

set_option maxRecDepth 20000 in
/-- Claim C23 fails for a negative duration: with a duration of -5 s a target of
10 s is moved to -5 s, and on a live stream, whose duration is
`AV_NOPTS_VALUE`, the bound wraps to -2 077 252 342 when stored in an `int`:
`performSeek` seeks to that negative position and takes it as the current
position. -/
theorem C23_negative_duration :
    VideoPlayer.seekPosition (-5000000) 10 = -5 ∧
    VideoPlayer.seekPosition AV_NOPTS_VALUE 10 = -2077252342 ∧
    VideoPlayer.demoLive.m_duration = AV_NOPTS_VALUE ∧
    (VideoPlayer.demoLive.performSeek 10 0 true).m_currentPosition = -2077252342000000 := by
  decide

/-- Claim C24. While the audio engine is playing and has observed a valid PTS,
the value of `getAccurateAudioTime` does not depend on the master clock: for
every timestamp `t`, `setMasterClock(t)` leaves every later reading unchanged;
so an applied sync correction does not alter the audio clock that the
corrector reads next. -/
theorem C24_clock_ignores_master (a : AudioProcessor) (hplay : a.m_isPlaying = true)
    (hpts : a.m_audioBasePts ≠ AV_NOPTS_VALUE) :
    (∀ t now : Int, (a.setMasterClock t).getAccurateAudioTime now = a.getAccurateAudioTime now) ∧
    (∀ (s : VideoPlayer) (now later : Int), s.m_audioProcessor = some a →
      (s.syncAudioVideo now).m_audioProcessor.map (fun b => b.getAccurateAudioTime later) =
        some (a.getAccurateAudioTime later)) := by
  have h1 : ∀ t now : Int,
      (a.setMasterClock t).getAccurateAudioTime now = a.getAccurateAudioTime now := by
    intro t now
    unfold AudioProcessor.getAccurateAudioTime AudioProcessor.setMasterClock
    simp [hplay, hpts]
  refine ⟨h1, ?_⟩
  intro s now later hap
  simp only [VideoPlayer.syncAudioVideo, hap]
  split_ifs <;> simp [h1, hap]

set_option maxRecDepth 20000 in
/-- Claim C24 at a playing engine that has observed the PTS 1 s: after
`setMasterClock(5 s)` the clock still reads 1 s. -/
theorem C24_clock_ignores_master_witness :
    (AudioProcessor.demoPlaying.setMasterClock 5000000).getAccurateAudioTime 700 = 1000000 :=
  ((C24_clock_ignores_master AudioProcessor.demoPlaying rfl (by decide)).1 5000000 700).trans
    (by decide)

set_option maxRecDepth 20000 in
/-- Claim C25 fails when a request executes immediately while an older one is
pending: the last seek was executed at time 995; a request for 30 s at time
1010 is debounced (15 ms after it), a request for 60 s at time 1020 executes
at once (25 ms after it) and leaves the pending target and the armed timer in
place; when the timer expires the seek to 30 s runs last, and the player ends
at 30 s. -/
theorem C25_stale_pending_target :
    VideoPlayer.demoRecent.m_lastSeekTime = some 995 ∧
    (VideoPlayer.demoRecent.seek 30 1010 true).2 = [] ∧
    (VideoPlayer.demoRecent.seek 30 1010 true).1.m_seekDebounceTimer = some 1060 ∧
    ((VideoPlayer.demoRecent.seek 30 1010 true).1.seek 60 1020 true).2 = [60] ∧
    ((VideoPlayer.demoRecent.seek 30 1010 true).1.seek 60 1020 true).1.m_hasPendingSeek = true ∧
    (VideoPlayer.demoRecent.twoSeekRequests 30 60 1010 10 true).2 = [60, 30] ∧
    (VideoPlayer.demoRecent.twoSeekRequests 30 60 1010 10 true).1.m_currentPosition =
      30000000 := by
  decide

set_option maxRecDepth 20000 in
/-- Claim C26 fails for a paused player: `pauseVideo` leaves `isPlaying = false`
and `isPaused = true`, and `closeVideo` clears `isPaused` only inside
`if (m_isPlaying)`, so the flag survives the closing.  The first `playVideo`
on the newly opened source then calls `resume()` on the new audio engine,
which returns at its guard (the engine is not paused), instead of `start()`:
the engine is not playing. -/
theorem C26_paused_flag_survives_close :
    VideoPlayer.demoKeyframe.pauseVideo.m_isPlaying = false ∧
    VideoPlayer.demoKeyframe.pauseVideo.m_isPaused = true ∧
    VideoPlayer.demoKeyframe.pauseVideo.closeVideo.m_isPlaying = false ∧
    VideoPlayer.demoKeyframe.pauseVideo.closeVideo.m_isPaused = true ∧
    VideoPlayer.demoKeyframe.closeVideo.m_isPaused = false ∧
    (VideoPlayer.demoReopened.playVideo 0 true).m_audioProcessor =
      some (AudioProcessor.demoFresh.resume 0 true) ∧
    AudioProcessor.demoFresh.resume 0 true = AudioProcessor.demoFresh ∧
    (AudioProcessor.demoFresh.resume 0 true).m_isPlaying = false ∧
    (AudioProcessor.demoFresh.start 0 true).m_isPlaying = true := by
  decide

/-! ## Theorems: no overshoot -/

namespace QString

/-- Splitting a string without the separator gives the string itself. -/
theorem split_no_sep (sep : Char) (s : List Char) (h : sep ∉ s) : split sep s = [s] := by
  induction s with
  | nil => rfl
  | cons c cs ih =>
    have hc : c ≠ sep := fun e => h (e ▸ List.mem_cons_self _ _)
    have hcs : sep ∉ cs := fun m => h (List.mem_cons_of_mem _ m)
    simp only [split, hc, if_false, ih hcs]

/-- Splitting at the first separator. -/
theorem split_append (sep : Char) (s t : List Char) (h : sep ∉ s) :
    split sep (s ++ sep :: t) = s :: split sep t := by
  induction s with
  | nil => simp [split]
  | cons c cs ih =>
    have hc : c ≠ sep := fun e => h (e ▸ List.mem_cons_self _ _)
    have hcs : sep ∉ cs := fun m => h (List.mem_cons_of_mem _ m)
    simp only [List.cons_append, split, hc, if_false, List.append_eq, ih hcs]

/-- Splitting undoes joining when no part contains the separator. -/
theorem split_join (sep : Char) (parts : List (List Char)) (hne : parts ≠ [])
    (h : ∀ p ∈ parts, sep ∉ p) : split sep (join sep parts) = parts := by
  induction parts with
  | nil => exact absurd rfl hne
  | cons p ps ih =>
    cases ps with
    | nil => exact split_no_sep sep p (h p (List.mem_cons_self _ _))
    | cons q qs =>
      have hp := h p (List.mem_cons_self _ _)
      have hq : ∀ r ∈ q :: qs, sep ∉ r := fun r m => h r (List.mem_cons_of_mem _ m)
      show split sep (p ++ sep :: join sep (q :: qs)) = p :: q :: qs
      rw [split_append sep p _ hp, ih (List.cons_ne_nil _ _) hq]

/-- A string without whitespace is its own trimmed form. -/
theorem trimmed_of_no_space (s : List Char) (h : ∀ c ∈ s, isSpace c = false) :
    trimmed s = s := by
  have key : ∀ l : List Char, (∀ c ∈ l, isSpace c = false) → l.dropWhile isSpace = l := by
    intro l hl
    cases l with
    | nil => rfl
    | cons c cs =>
      have := hl c (List.mem_cons_self _ _)
      simp [List.dropWhile, this]
  unfold trimmed
  rw [key s h, key s.reverse (fun c m => h c (List.mem_reverse.mp m)), List.reverse_reverse]

/-- A decimal digit as a character: its value, and that it is neither
whitespace nor a sign nor a separator. -/
theorem digitChar_spec (d : Nat) (h : d < 10) :
    digitValue (Char.ofNat (48 + d)) = some d ∧ isSpace (Char.ofNat (48 + d)) = false ∧
    Char.ofNat (48 + d) ≠ ';' ∧ Char.ofNat (48 + d) ≠ '=' ∧ Char.ofNat (48 + d) ≠ '-' ∧
    Char.ofNat (48 + d) ≠ '+' := by
  interval_cases d <;> decide

/-- The characters that may stand in the text of a number. -/
theorem digitsAux_spec : ∀ (fuel n : Nat) (acc : List Char), n < fuel →
    ∃ ds : List Char, digitsAux fuel n acc = ds ++ acc ∧ ds ≠ [] ∧
      (∀ c ∈ ds, ∃ d, d < 10 ∧ c = Char.ofNat (48 + d)) ∧
      (∀ a : Nat, parseDigits ds a = some (a * 10 ^ ds.length + n)) := by
  intro fuel
  induction fuel with
  | zero => intro n acc h; omega
  | succ fuel ih =>
    intro n acc h
    unfold digitsAux
    have hd : n % 10 < 10 := Nat.mod_lt _ (by norm_num)
    by_cases hn : n < 10
    · simp only [hn, if_true]
      refine ⟨[Char.ofNat (48 + n % 10)], rfl, by simp, ?_, ?_⟩
      · intro c hc
        exact ⟨n % 10, hd, by simpa using hc⟩
      · intro a
        have : n % 10 = n := Nat.mod_eq_of_lt hn
        have hv := (digitChar_spec n hn).1
        simp [parseDigits, this, hv]
    · simp only [hn, if_false]
      obtain ⟨ds, h1, h2, h3, h4⟩ := ih (n / 10) (Char.ofNat (48 + n % 10) :: acc) (by omega)
      refine ⟨ds ++ [Char.ofNat (48 + n % 10)], by simp [h1], by simp, ?_, ?_⟩
      · intro c hc
        rcases List.mem_append.mp hc with hc | hc
        · exact h3 c hc
        · exact ⟨n % 10, hd, by simpa using hc⟩
      · intro a
        have happ : ∀ (l1 l2 : List Char) (b : Nat),
            parseDigits (l1 ++ l2) b = (parseDigits l1 b).bind (parseDigits l2) := by
          intro l1
          induction l1 with
          | nil => intro l2 b; rfl
          | cons c cs ihc =>
            intro l2 b
            simp only [List.cons_append, parseDigits]
            cases digitValue c with
            | none => rfl
            | some d => exact ihc l2 _
        rw [happ, h4 a]
        simp only [Option.some_bind, parseDigits, (digitChar_spec _ hd).1, List.length_append,
          List.length_singleton, pow_succ]
        congr 1
        have := Nat.div_add_mod n 10
        ring_nf
        omega

end QString

namespace QString

/-- The text of a number: its characters are neither whitespace nor
separators, and `toInt` reads the number back when it fits an `int`. -/
theorem number_spec (v : Int) :
    (∀ c ∈ number v, isSpace c = false ∧ c ≠ ';' ∧ c ≠ '=') ∧
    (-2147483648 ≤ v ∧ v ≤ 2147483647 → toInt (number v) = v) := by
  obtain ⟨ds, h1, h2, h3, h4⟩ := digitsAux_spec (v.natAbs + 1) v.natAbs [] (by omega)
  rw [List.append_nil] at h1
  have hds : ∀ c ∈ ds, isSpace c = false ∧ c ≠ ';' ∧ c ≠ '=' ∧ c ≠ '-' ∧ c ≠ '+' := by
    intro c hc
    obtain ⟨d, hd, rfl⟩ := h3 c hc
    have := digitChar_spec d hd
    exact ⟨this.2.1, this.2.2.1, this.2.2.2.1, this.2.2.2.2.1, this.2.2.2.2.2⟩
  have hchars : ∀ c ∈ number v, isSpace c = false ∧ c ≠ ';' ∧ c ≠ '=' := by
    intro c hc
    unfold number at hc
    rw [h1] at hc
    split_ifs at hc
    · rcases List.mem_cons.mp hc with e | m
      · subst e; decide
      · exact ⟨(hds c m).1, (hds c m).2.1, (hds c m).2.2.1⟩
    · exact ⟨(hds c hc).1, (hds c hc).2.1, (hds c hc).2.2.1⟩
  refine ⟨hchars, ?_⟩
  intro hr
  have htrim := trimmed_of_no_space (number v) (fun c hc => (hchars c hc).1)
  have hparse := h4 0
  simp only [Nat.zero_mul, Nat.zero_add] at hparse
  unfold toInt
  rw [htrim]
  unfold number
  rw [h1]
  by_cases hneg : v < 0
  · have hemp : ds.isEmpty = false := by
      cases ds with
      | nil => exact absurd rfl h2
      | cons c cs => rfl
    simp only [hneg, if_true, hemp, Bool.false_eq_true, if_false, hparse, Option.map_some']
    have : -((v.natAbs : Nat) : Int) = v := by omega
    rw [this]
    simp [hr.1, hr.2]
  · simp only [hneg, if_false]
    cases ds with
    | nil => exact absurd rfl h2
    | cons c cs =>
      have hc := hds c (List.mem_cons_self _ _)
      simp only [hc.2.2.2.1, hc.2.2.2.2, if_false, hparse, Option.map_some']
      have : ((v.natAbs : Nat) : Int) = v := by omega
      rw [this]
      simp [hr.1, hr.2]

end QString

namespace NetworkConfig

/-- One part `key=value` of a configuration string is read as the assignment
for that key and value. -/
theorem fromPart_keyValue (c : NetworkConfig) (key value : List Char) (hk : '=' ∉ key)
    (hv : '=' ∉ value) (hkt : QString.trimmed key = key) (hvt : QString.trimmed value = value) :
    fromPart c (keyValue key value) = assign c key value := by
  unfold fromPart keyValue
  rw [QString.split_append '=' key value hk, QString.split_no_sep '=' value hv]
  simp only [hkt, hvt]

/-- The text of a `bool` is read back. -/
theorem boolText_spec (b : Bool) :
    ';' ∉ boolText b ∧ '=' ∉ boolText b ∧ QString.trimmed (boolText b) = boolText b ∧
    decide (QString.toLower (boolText b) = "true".toList) = b := by
  cases b <;> decide

end NetworkConfig

namespace NetworkConfig

/-- A part `key=value` contains no `;` when neither the key nor the value does. -/
theorem keyValue_no_semicolon (key value : List Char) (hk : ';' ∉ key) (hv : ';' ∉ value) :
    ';' ∉ keyValue key value := by
  unfold keyValue
  intro h
  rcases List.mem_append.mp h with h | h
  · exact hk h
  · rcases List.mem_cons.mp h with h | h
    · exact absurd h (by decide)
    · exact hv h

/-- A number written by `toString` is read back by `fromString`. -/
theorem fromPart_number (c : NetworkConfig) (key : List Char) (v : Int) (hk : '=' ∉ key)
    (hkt : QString.trimmed key = key) :
    fromPart c (keyValue key (QString.number v)) = assign c key (QString.number v) :=
  fromPart_keyValue c key _ hk (fun h => ((QString.number_spec v).1 _ h).2.2 rfl)
    hkt (QString.trimmed_of_no_space _ (fun ch h => ((QString.number_spec v).1 ch h).1))

/-- A number written by `toString` contains no `;`. -/
theorem number_no_semicolon (v : Int) : ';' ∉ QString.number v :=
  fun h => ((QString.number_spec v).1 _ h).2.1 rfl

end NetworkConfig

/-- Claim C28. For every configuration `c` (its `int` fields holding values of
an `int`) whose string fields contain no `;` and no `=` and have no leading or
trailing whitespace, and for every configuration `x`,
`x.fromString(c.toString())` makes `x` equal to `c` in all 19 fields and
returns exactly `c.isValid()`. -/
theorem C28_config_roundtrip (c x : NetworkConfig) (hs : c.cleanStrings) (hi : c.intFields) :
    x.fromString c.toString = (c, c.isValid) := by
  have s1 := hs c.userAgent (by simp)
  have s2 := hs c.referer (by simp)
  have s3 := hs c.proxyHost (by simp)
  have s4 := hs c.proxyUser (by simp)
  have s5 := hs c.proxyPassword (by simp)
  have b1 := NetworkConfig.boolText_spec c.followRedirects
  have b2 := NetworkConfig.boolText_spec c.enableQualityControl
  have n1 := (QString.number_spec c.connectionTimeout).2 (hi _ (by simp))
  have n2 := (QString.number_spec c.readTimeout).2 (hi _ (by simp))
  have n3 := (QString.number_spec c.maxRetries).2 (hi _ (by simp))
  have n4 := (QString.number_spec c.retryDelay).2 (hi _ (by simp))
  have n5 := (QString.number_spec c.bufferSize).2 (hi _ (by simp))
  have n6 := (QString.number_spec c.maxBufferSize).2 (hi _ (by simp))
  have n7 := (QString.number_spec c.minBufferThreshold).2 (hi _ (by simp))
  have n8 := (QString.number_spec c.maxBufferThreshold).2 (hi _ (by simp))
  have n9 := (QString.number_spec c.maxRedirects).2 (hi _ (by simp))
  have n10 := (QString.number_spec c.proxyPort).2 (hi _ (by simp))
  have n11 := (QString.number_spec c.targetBitrate).2 (hi _ (by simp))
  have n12 := (QString.number_spec c.maxLatency).2 (hi _ (by simp))
  have hsplit : QString.split ';' c.toString = _ :=
    QString.split_join ';' _ (List.cons_ne_nil _ _) (by
      intro p hp
      simp only [List.mem_cons, List.mem_singleton, List.not_mem_nil, or_false] at hp
      rcases hp with h | h | h | h | h | h | h | h | h | h | h | h | h | h | h | h | h | h | h <;>
        subst h <;>
        first
        | exact NetworkConfig.keyValue_no_semicolon _ _ (by decide)
            (NetworkConfig.number_no_semicolon _)
        | exact NetworkConfig.keyValue_no_semicolon _ _ (by decide) s1.1
        | exact NetworkConfig.keyValue_no_semicolon _ _ (by decide) s2.1
        | exact NetworkConfig.keyValue_no_semicolon _ _ (by decide) s3.1
        | exact NetworkConfig.keyValue_no_semicolon _ _ (by decide) s4.1
        | exact NetworkConfig.keyValue_no_semicolon _ _ (by decide) s5.1
        | exact NetworkConfig.keyValue_no_semicolon _ _ (by decide) b1.1
        | exact NetworkConfig.keyValue_no_semicolon _ _ (by decide) b2.1)
  unfold NetworkConfig.fromString
  rw [hsplit]
  simp only [List.foldl_cons, List.foldl_nil]
  rw [NetworkConfig.fromPart_number _ "connectionTimeout".toList _ (by decide) (by decide),
    NetworkConfig.fromPart_number _ "readTimeout".toList _ (by decide) (by decide),
    NetworkConfig.fromPart_number _ "maxRetries".toList _ (by decide) (by decide),
    NetworkConfig.fromPart_number _ "retryDelay".toList _ (by decide) (by decide),
    NetworkConfig.fromPart_number _ "bufferSize".toList _ (by decide) (by decide),
    NetworkConfig.fromPart_number _ "maxBufferSize".toList _ (by decide) (by decide),
    NetworkConfig.fromPart_number _ "minBufferThreshold".toList _ (by decide) (by decide),
    NetworkConfig.fromPart_number _ "maxBufferThreshold".toList _ (by decide) (by decide),
    NetworkConfig.fromPart_keyValue _ "userAgent".toList _ (by decide) s1.2.1 (by decide) s1.2.2,
    NetworkConfig.fromPart_keyValue _ "referer".toList _ (by decide) s2.2.1 (by decide) s2.2.2,
    NetworkConfig.fromPart_keyValue _ "followRedirects".toList _ (by decide) b1.2.1 (by decide)
      b1.2.2.1,
    NetworkConfig.fromPart_number _ "maxRedirects".toList _ (by decide) (by decide),
    NetworkConfig.fromPart_keyValue _ "proxyHost".toList _ (by decide) s3.2.1 (by decide) s3.2.2,
    NetworkConfig.fromPart_number _ "proxyPort".toList _ (by decide) (by decide),
    NetworkConfig.fromPart_keyValue _ "proxyUser".toList _ (by decide) s4.2.1 (by decide) s4.2.2,
    NetworkConfig.fromPart_keyValue _ "proxyPassword".toList _ (by decide) s5.2.1 (by decide)
      s5.2.2,
    NetworkConfig.fromPart_keyValue _ "enableQualityControl".toList _ (by decide) b2.2.1
      (by decide) b2.2.2.1,
    NetworkConfig.fromPart_number _ "targetBitrate".toList _ (by decide) (by decide),
    NetworkConfig.fromPart_number _ "maxLatency".toList _ (by decide) (by decide)]
  have hc : NetworkConfig.assign (NetworkConfig.assign (NetworkConfig.assign (NetworkConfig.assign
      (NetworkConfig.assign (NetworkConfig.assign (NetworkConfig.assign (NetworkConfig.assign
      (NetworkConfig.assign (NetworkConfig.assign (NetworkConfig.assign (NetworkConfig.assign
      (NetworkConfig.assign (NetworkConfig.assign (NetworkConfig.assign (NetworkConfig.assign
      (NetworkConfig.assign (NetworkConfig.assign (NetworkConfig.assign x
        "connectionTimeout".toList (QString.number c.connectionTimeout))
        "readTimeout".toList (QString.number c.readTimeout))
        "maxRetries".toList (QString.number c.maxRetries))
        "retryDelay".toList (QString.number c.retryDelay))
        "bufferSize".toList (QString.number c.bufferSize))
        "maxBufferSize".toList (QString.number c.maxBufferSize))
        "minBufferThreshold".toList (QString.number c.minBufferThreshold))
        "maxBufferThreshold".toList (QString.number c.maxBufferThreshold))
        "userAgent".toList c.userAgent)
        "referer".toList c.referer)
        "followRedirects".toList (NetworkConfig.boolText c.followRedirects))
        "maxRedirects".toList (QString.number c.maxRedirects))
        "proxyHost".toList c.proxyHost)
        "proxyPort".toList (QString.number c.proxyPort))
        "proxyUser".toList c.proxyUser)
        "proxyPassword".toList c.proxyPassword)
        "enableQualityControl".toList (NetworkConfig.boolText c.enableQualityControl))
        "targetBitrate".toList (QString.number c.targetBitrate))
        "maxLatency".toList (QString.number c.maxLatency) = c := by
    show ({ connectionTimeout := QString.toInt (QString.number c.connectionTimeout),
            readTimeout := QString.toInt (QString.number c.readTimeout),
            maxRetries := QString.toInt (QString.number c.maxRetries),
            retryDelay := QString.toInt (QString.number c.retryDelay),
            bufferSize := QString.toInt (QString.number c.bufferSize),
            maxBufferSize := QString.toInt (QString.number c.maxBufferSize),
            minBufferThreshold := QString.toInt (QString.number c.minBufferThreshold),
            maxBufferThreshold := QString.toInt (QString.number c.maxBufferThreshold),
            userAgent := c.userAgent, referer := c.referer,
            followRedirects :=
              decide (QString.toLower (NetworkConfig.boolText c.followRedirects) = "true".toList),
            maxRedirects := QString.toInt (QString.number c.maxRedirects),
            proxyHost := c.proxyHost,
            proxyPort := QString.toInt (QString.number c.proxyPort),
            proxyUser := c.proxyUser, proxyPassword := c.proxyPassword,
            enableQualityControl :=
              decide (QString.toLower (NetworkConfig.boolText c.enableQualityControl) =
                "true".toList),
            targetBitrate := QString.toInt (QString.number c.targetBitrate),
            maxLatency := QString.toInt (QString.number c.maxLatency) } : NetworkConfig) = c
    rw [n1, n2, n3, n4, n5, n6, n7, n8, n9, n10, n11, n12, b1.2.2.2, b2.2.2.2]
  rw [hc]

set_option maxRecDepth 20000 in
/-- Claim C28 at the default configuration, read into a configuration that
differs from it: the result is the default configuration, and it is valid. -/
theorem C28_config_roundtrip_witness :
    NetworkConfig.fromString
      { NetworkConfig.init with maxLatency := 0, userAgent := [], followRedirects := false }
      NetworkConfig.init.toString = (NetworkConfig.init, true) :=
  C28_config_roundtrip NetworkConfig.init _ (by decide) (by decide)

/-! ## Theorems: the progress estimate, display names -/

/-- Claim C29, amended. For a time-out of at least 2 ms and a non-negative
elapsed time whose product with 90 fits an `int` (up to 23 860 929 ms) the
progress estimate is well defined - its divisor, the integer part of
`0.8 * timeoutMs`, is positive - and the percentage it reports lies in
`[0, 90]` and does not go down as the elapsed time grows within that range. -/
theorem C29_progress_estimate (l : NetworkStreamLoader) (now later : Int)
    (hload : l.isLoading = true) (ht : 2 ≤ l.m_timeoutMs) (htmax : l.m_timeoutMs < 2147483648)
    (he : 0 ≤ currentTimeOfDay now - l.m_startTime)
    (hle : currentTimeOfDay now ≤ currentTimeOfDay later)
    (hfit : (currentTimeOfDay later - l.m_startTime) * 90 ≤ 2147483647) :
    0 < F64.toInt (F64.mul (F64.ofInt l.m_timeoutMs) (F64.lit 8 10)) ∧
    ∃ p q : Int, l.onProgressTimer now = some (l, [LoaderSignal.loadingProgress p]) ∧
      l.onProgressTimer later = some (l, [LoaderSignal.loadingProgress q]) ∧
      0 ≤ p ∧ p ≤ q ∧ q ≤ 90 := by
  have hn : l.m_timeoutMs.natAbs < 2 ^ 31 := by omega
  have hE : F64.toInt (F64.mul (F64.ofInt l.m_timeoutMs) (F64.lit 8 10)) =
      l.m_timeoutMs * 8 / 10 := by
    rw [F64.toInt_mul_lit_8 _ hn, Int.tdiv_eq_ediv (by omega) (by norm_num)]
  have hEpos : 0 < l.m_timeoutMs * 8 / 10 := by omega
  have hne : ¬ l.m_timeoutMs * 8 / 10 = 0 := by omega
  refine ⟨by rw [hE]; exact hEpos, ?_⟩
  unfold NetworkStreamLoader.onProgressTimer
  simp only [hload, Bool.not_true, Bool.false_eq_true, if_false, hE, hne]
  generalize l.m_timeoutMs * 8 / 10 = E at hEpos
  have he2 : currentTimeOfDay now - l.m_startTime ≤ currentTimeOfDay later - l.m_startTime := by
    omega
  generalize currentTimeOfDay now - l.m_startTime = e at he he2 ⊢
  generalize currentTimeOfDay later - l.m_startTime = e2 at he2 hfit ⊢
  have h1 : toInt32 (e * 90) = e * 90 := by
    unfold toInt32
    omega
  have h2 : toInt32 (e2 * 90) = e2 * 90 := by
    unfold toInt32
    omega
  rw [h1, h2]
  refine ⟨_, _, rfl, rfl, ?_, ?_, min_le_left _ _⟩
  · rw [Int.tdiv_eq_ediv (by omega) (le_of_lt hEpos)]
    exact le_min (by norm_num) (Int.ediv_nonneg (by omega) (le_of_lt hEpos))
  · rw [Int.tdiv_eq_ediv (by omega) (le_of_lt hEpos),
      Int.tdiv_eq_ediv (by omega) (le_of_lt hEpos)]
    exact min_le_min_left _ (Int.ediv_le_ediv hEpos (by omega))

set_option maxRecDepth 20000 in
/-- Claim C29 in a session started with the time-out of 15 000 ms: the divisor
is 12 000, and the progress timer reports 22 % after 3 s and 45 % after 6 s. -/
theorem C29_progress_estimate_witness :
    (NetworkStreamLoader.demoSession.onProgressTimer 3000).map Prod.snd =
      some [LoaderSignal.loadingProgress 22] ∧
    (NetworkStreamLoader.demoSession.onProgressTimer 6000).map Prod.snd =
      some [LoaderSignal.loadingProgress 45] ∧
    (0 < F64.toInt (F64.mul (F64.ofInt NetworkStreamLoader.demoSession.m_timeoutMs)
      (F64.lit 8 10))) ∧
    ∃ p q : Int,
      NetworkStreamLoader.demoSession.onProgressTimer 3000 =
        some (NetworkStreamLoader.demoSession, [LoaderSignal.loadingProgress p]) ∧
      NetworkStreamLoader.demoSession.onProgressTimer 6000 =
        some (NetworkStreamLoader.demoSession, [LoaderSignal.loadingProgress q]) ∧
      0 ≤ p ∧ p ≤ q ∧ q ≤ 90 :=
  ⟨by decide, by decide,
   C29_progress_estimate NetworkStreamLoader.demoSession 3000 6000 (by decide) (by decide)
     (by decide) (by decide) (by decide) (by decide)⟩

set_option maxRecDepth 20000 in
/-- Claim C29 as stated fails.  In a session started with the time-out of
15 000 ms the worker passes its second check, the time-out fires, the worker
sets `LoadingStreamInfo` and starts probing; the session is loading, and a
progress tick at an elapsed time of 30 000 000 ms, where `elapsed * 90` no
longer fits an `int`, reports -132913 %, after 90 % at 12 000 ms: outside
`[0, 90]` and lower than before.  And with a time-out of 1 ms the divisor
`(int)(1 * 0.8)` is 0 and the division is undefined. -/
theorem C29_counterexample :
    NetworkStreamLoader.demoSession.m_timeoutMs = 15000 ∧
    (NetworkStreamLoader.demoSession.run
      [NetworkStreamLoader.Event.worker, NetworkStreamLoader.Event.worker,
       NetworkStreamLoader.Event.worker, NetworkStreamLoader.Event.timeout,
       NetworkStreamLoader.Event.worker]).1.isLoading = true ∧
    (0 : Int) ≤ currentTimeOfDay 30000000 -
      (NetworkStreamLoader.demoSession.run
        [NetworkStreamLoader.Event.worker, NetworkStreamLoader.Event.worker,
         NetworkStreamLoader.Event.worker, NetworkStreamLoader.Event.timeout,
         NetworkStreamLoader.Event.worker]).1.m_startTime ∧
    ((NetworkStreamLoader.demoSession.run
      [NetworkStreamLoader.Event.worker, NetworkStreamLoader.Event.worker,
       NetworkStreamLoader.Event.worker, NetworkStreamLoader.Event.timeout,
       NetworkStreamLoader.Event.worker]).1.onProgressTimer 12000).map Prod.snd =
      some [LoaderSignal.loadingProgress 90] ∧
    ((NetworkStreamLoader.demoSession.run
      [NetworkStreamLoader.Event.worker, NetworkStreamLoader.Event.worker,
       NetworkStreamLoader.Event.worker, NetworkStreamLoader.Event.timeout,
       NetworkStreamLoader.Event.worker]).1.onProgressTimer 30000000).map Prod.snd =
      some [LoaderSignal.loadingProgress (-132913)] ∧
    NetworkStreamLoader.demoShortTimeout.m_timeoutMs = 1 ∧
    NetworkStreamLoader.demoShortTimeout.isLoading = true ∧
    F64.toInt (F64.mul (F64.ofInt 1) (F64.lit 8 10)) = 0 ∧
    NetworkStreamLoader.demoShortTimeout.onProgressTimer 500 = none := by
  decide

/-- For a name that is not a URL and `maxLength ≥ 11`, `truncateFileName`
returns a short name unchanged and otherwise a string of exactly `maxLength`
characters. -/
theorem truncateFileName_plain (fileName host path : List Char) (maxLength : Int)
    (hmax : 11 ≤ maxLength)
    (h1 : QString.startsWith fileName "http://".toList = false)
    (h2 : QString.startsWith fileName "https://".toList = false) :
    ((fileName.length : Int) ≤ maxLength →
      VideoPlayer.truncateFileName fileName maxLength host path = fileName) ∧
    (maxLength < (fileName.length : Int) →
      ((VideoPlayer.truncateFileName fileName maxLength host path).length : Int) = maxLength) := by
  constructor
  · intro h
    simp [VideoPlayer.truncateFileName, h]
  · intro h
    have hf : 0 ≤ Int.tdiv ((maxLength - 3) * 2) 3 ∧
        Int.tdiv ((maxLength - 3) * 2) 3 ≤ maxLength - 3 := by
      rw [Int.tdiv_eq_ediv (by omega) (by norm_num)]
      omega
    generalize hfr : Int.tdiv ((maxLength - 3) * 2) 3 = front at hf
    have hnot : ¬ (fileName.length : Int) ≤ maxLength := by omega
    have e1 : (QString.left fileName front).length = front.toNat := by
      unfold QString.left
      rw [if_neg (by omega)]
      simp
      omega
    have e2 : (QString.right fileName (maxLength - 3 - front)).length =
        (maxLength - 3 - front).toNat := by
      unfold QString.right
      rw [if_neg (by omega)]
      simp
      omega
    simp only [VideoPlayer.truncateFileName, hnot, h1, h2, if_false, Bool.false_eq_true,
      or_self, show (10 : Int) < maxLength by omega, if_true, List.length_append, hfr, e1, e2]
    simp
    omega

/-- Claim C30 fails for a URL: with `maxLength = 45`, host `example.com` and a
last path part of 51 characters the function returns host + `/.../` + 27
characters + `...`, 46 characters: the code reserves 7 characters for the 8
of `/.../` and `...`. -/
theorem C30_url_one_too_long :
    VideoPlayer.demoUrl.length = 77 ∧
    VideoPlayer.truncateFileName VideoPlayer.demoUrl 45 "example.com".toList
        "/videos/a_very_long_file_name_of_a_recorded_live_stream.mp4".toList =
      "example.com/.../a_very_long_file_name_of_a_...".toList ∧
    (VideoPlayer.truncateFileName VideoPlayer.demoUrl 45 "example.com".toList
        "/videos/a_very_long_file_name_of_a_recorded_live_stream.mp4".toList).length = 46 := by
  decide
